import Mathlib

/-!
# Financial planning engine: portfolio optimisation and Monte Carlo simulation

A shallow embedding of `src/utils/calculations/OptimizationUtils.js` and
`src/utils/calculations/monteCarloUtils.js`, of the methods of `taxUtils.js` and
`portfolioUtils.js` that the statements below are about, and of the statistics of the
hooks `hooks/UseMonteCarloSimulation.js` and `hooks/UseTaxStrategy.js`.

* JavaScript numbers are modelled by exact arithmetic in a linearly ordered field `K`;
  the definitions are executable over `ℚ`, and the evaluations below use `ℝ`, where
  `Math.pow`, `Math.sqrt`, `Math.log` and `Math.cos` are the real functions.
  Rounding, `NaN` and the infinities are outside this number model.
* Functions that the modules call but that the repository does not define
  (`solveQP`, `calculateFees`, `calculateTradingCosts`, ...) are fields of an
  environment structure, so every statement holds for each implementation of them.
  The `Math` object is a parameter of its own, `JsMath K`.
* A JavaScript exception is an `Except.error`.
-/

set_option autoImplicit false

namespace FinancialPlanning

/-! ## JavaScript values and failures -/

/-- Ways in which an evaluation of the modelled code stops without a result. -/
inductive JsError where
  /-- A `TypeError`: a property of `undefined` is read, or a non-function is called. -/
  | typeError : JsError
  /-- An arithmetic operand is `undefined`, so JavaScript would continue with `NaN`;
  exact arithmetic has no such value and the model stops here. -/
  | notANumber : JsError
  /-- A `while` loop was cut off by the iteration bound of the model. -/
  | outOfFuel : JsError
  deriving DecidableEq, Repr

/-- Dynamically typed values, as far as the optimiser's argument objects need them. -/
inductive JsValue where
  | undefined : JsValue
  | number (q : ℚ) : JsValue
  | boolean (b : Bool) : JsValue
  | array (items : List JsValue) : JsValue
  | object (fields : List (String × JsValue)) : JsValue

/-- The property list of an object: keys in insertion order with their values. -/
abbrev JsFields := List (String × JsValue)

/-- Truthiness of a value, as tested by `if (x)` and `x || y`. -/
def JsValue.truthy : JsValue → Bool
  | .undefined => false
  | .number q => decide (q ≠ 0)
  | .boolean b => b
  | .array _ => true
  | .object _ => true

/-- Reading `obj.key` from a property list; an absent key reads as `undefined`. -/
def getProperty : JsFields → String → JsValue
  | [], _ => JsValue.undefined
  | (k, w) :: rest, key => if k = key then w else getProperty rest key

/-- Writing `key: v` in an object literal: an existing key keeps its position and
takes the new value, a new key is appended. -/
def setProperty : JsFields → String → JsValue → JsFields
  | [], key, v => [(key, v)]
  | (k, w) :: rest, key, v =>
    if k = key then (k, v) :: rest else (k, w) :: setProperty rest key v

/-- The own enumerable properties copied by a spread `...x` inside an object literal. -/
def ownProperties : JsValue → JsFields
  | .object fields => fields
  | .array items => items.enum.map (fun p => (toString p.1, p.2))
  | _ => []

/-- The object literal `{ ...x }` continued with the properties of `x`. -/
def spreadInto (acc : JsFields) (x : JsValue) : JsFields :=
  (ownProperties x).foldl (fun o p => setProperty o p.1 p.2) acc

/-- Reading `x.key` on a value: a `TypeError` on `undefined`. -/
def JsValue.get (x : JsValue) (key : String) : Except JsError JsValue :=
  match x with
  | .undefined => .error JsError.typeError
  | .object fields => .ok (getProperty fields key)
  | _ => .ok JsValue.undefined

/-- The call `xs.map(f)` on a value: a `TypeError` unless `xs` is an array. -/
def JsValue.mapArray (xs : JsValue) (f : JsValue → Except JsError JsValue) :
    Except JsError JsValue :=
  match xs with
  | .array items => (items.mapM f).map JsValue.array
  | _ => .error JsError.typeError

/-! ## Portfolio optimiser (`OptimizationUtils.js`) -/

/-- The `options` bag of `calculateOptimalPortfolio`. -/
structure OptimizationOptions where
  useBlackLitterman : JsValue
  useCVaR : JsValue
  useResampling : JsValue
  useRobustOptimization : JsValue
  numResamples : Option Nat

/-- The default value of the `options` parameter (lines 9-14). -/
def defaultOptions : OptimizationOptions :=
  { useBlackLitterman := JsValue.boolean true
    useCVaR := JsValue.boolean true
    useResampling := JsValue.boolean true
    useRobustOptimization := JsValue.boolean true
    numResamples := none }

/-- The argument object of `calculateOptimalPortfolio`; a key the caller leaves out
is `undefined`, and `options` falls back to `defaultOptions` when left out. -/
structure OptimizationArgs where
  assets : JsValue
  constraints : JsValue
  marketViews : JsValue
  riskTolerance : JsValue
  options : Option OptimizationOptions

/-- Functions and library methods used by `OptimizationUtils.js` that the repository
does not define. -/
structure OptimizerEnv where
  calculateExpectedReturns : JsValue → JsValue → Except JsError JsValue
  calculateRobustCovariance : JsValue → Except JsError JsValue
  constructViewsMatrix : JsValue → Except JsError JsValue
  calculateEquilibriumReturns : JsValue → JsValue → Except JsError JsValue
  newMatrix : JsValue → Except JsError JsValue
  calculateViewUncertainty : JsValue → JsValue → Except JsError JsValue
  matrixMul : JsValue → ℚ → Except JsError JsValue
  calculateBLPosterior : JsValue → JsValue → JsValue → JsValue → JsValue →
    Except JsError JsValue
  applyRobustification : JsValue → OptimizationOptions → Except JsError JsValue
  calculateCVaRLimit : JsValue → Except JsError JsValue
  resampleReturns : JsValue → Except JsError JsValue
  resampleCovariance : JsValue → Except JsError JsValue
  aggregateResampledWeights : List JsValue → Except JsError JsValue
  matrixToJSON : JsValue → Except JsError JsValue
  constructConstraintMatrix : JsValue → Except JsError JsValue
  constructConstraintBounds : JsValue → Except JsError JsValue
  solveQP : JsValue → JsValue → JsValue → JsValue → Except JsError JsValue
  calculatePortfolioReturn : JsValue → JsValue → Except JsError JsValue
  calculatePortfolioRisk : JsValue → JsValue → Except JsError JsValue
  calculatePortfolioVolatility : JsValue → JsValue → Except JsError JsValue
  calculateSharpeRatio : JsValue → JsValue → JsValue → Except JsError JsValue
  calculateExpectedDrawdown : JsValue → JsValue → Except JsError JsValue
  calculatePortfolioBeta : JsValue → JsValue → Except JsError JsValue
  calculateTurnover : JsValue → JsValue → Except JsError JsValue
  calculateSectorExposure : JsValue → JsValue → Except JsError JsValue
  calculateFactorExposures : JsValue → JsValue → Except JsError JsValue
  calculateDiversificationScore : JsValue → Except JsError JsValue

/-- The object `{ ...constraints, riskTolerance, useCVaR: options.useCVaR }` handed to
`constructConstraints` (lines 44-48): the two named keys are written after the spread. -/
def constraintArgument (constraints riskTolerance : JsValue)
    (options : OptimizationOptions) : JsFields :=
  setProperty (setProperty (spreadInto [] constraints) "riskTolerance" riskTolerance)
    "useCVaR" options.useCVaR

/-- The function `constructConstraints` (lines 169-192): it destructures `minWeights`,
`maxWeights`, `sectorConstraints`, `riskTolerance` and `useCVaR` from its argument. -/
def constructConstraints (env : OptimizerEnv) (arg : JsFields) : Except JsError JsValue :=
  let minWeights := getProperty arg "minWeights"
  let maxWeights := getProperty arg "maxWeights"
  let sectorConstraints := getProperty arg "sectorConstraints"
  let riskTolerance := getProperty arg "riskTolerance"
  let useCVaR := getProperty arg "useCVaR"
  let constraints : JsFields :=
    [("weights", JsValue.object [("min", minWeights), ("max", maxWeights)]),
     ("sectors", sectorConstraints)]
  if useCVaR.truthy then do
    let limit ← env.calculateCVaRLimit riskTolerance
    pure (JsValue.object (setProperty constraints "cvar"
      (JsValue.object [("alpha", JsValue.number (5 / 100)), ("maxCVaR", limit)])))
  else
    pure (JsValue.object constraints)

/-- The unary minus `-r` of line 157 on a value. -/
def negateValue : JsValue → Except JsError JsValue
  | .number q => .ok (JsValue.number (-q))
  | .boolean b => .ok (JsValue.number (if b then -1 else 0))
  | _ => .error JsError.notANumber

/-- The function `applyBlackLitterman` (lines 73-101). -/
def applyBlackLitterman (env : OptimizerEnv)
    (covariance marketViews viewsMatrix marketCap : JsValue) : Except JsError JsValue := do
  let equilibriumReturns ← env.calculateEquilibriumReturns marketCap covariance
  let P ← env.newMatrix viewsMatrix
  let estimates ← marketViews.mapArray (fun v => v.get "estimate")
  let Q ← env.newMatrix estimates
  let omega ← env.calculateViewUncertainty viewsMatrix covariance
  let tau : ℚ := 25 / 1000
  let priorCovariance ← env.matrixMul covariance tau
  env.calculateBLPosterior equilibriumReturns priorCovariance P Q omega

/-- The function `standardOptimization` (lines 153-167): the result object has the keys
`weights`, `expectedReturn` and `risk`. -/
def standardOptimization (env : OptimizerEnv)
    (expectedReturns riskMatrix constraints : JsValue) : Except JsError JsValue := do
  let Q ← env.matrixToJSON riskMatrix
  let c ← expectedReturns.mapArray negateValue
  let A ← env.constructConstraintMatrix constraints
  let b ← env.constructConstraintBounds constraints
  let result ← env.solveQP Q c A b
  let solution ← result.get "solution"
  let expectedReturn ← env.calculatePortfolioReturn solution expectedReturns
  let risk ← env.calculatePortfolioRisk solution riskMatrix
  pure (JsValue.object
    [("weights", solution), ("expectedReturn", expectedReturn), ("risk", risk)])

/-- The `for` loop of `resampledOptimization` (lines 134-147) after `n` iterations. -/
def resampleLoop (env : OptimizerEnv) (expectedReturns riskMatrix constraints : JsValue) :
    Nat → Except JsError (List JsValue)
  | 0 => pure []
  | n + 1 => do
    let resampledWeights ← resampleLoop env expectedReturns riskMatrix constraints n
    let resampledReturns ← env.resampleReturns expectedReturns
    let resampledRisk ← env.resampleCovariance riskMatrix
    let result ← standardOptimization env resampledReturns resampledRisk constraints
    let weights ← result.get "weights"
    pure (resampledWeights ++ [weights])

/-- The value of `options.numResamples || 1000` (line 131). -/
def numResamplesOf (options : OptimizationOptions) : Nat :=
  match options.numResamples with
  | none => 1000
  | some 0 => 1000
  | some n => n

/-- The function `resampledOptimization` (lines 125-151). -/
def resampledOptimization (env : OptimizerEnv)
    (expectedReturns riskMatrix constraints : JsValue) (options : OptimizationOptions) :
    Except JsError JsValue := do
  let resampledWeights ←
    resampleLoop env expectedReturns riskMatrix constraints (numResamplesOf options)
  env.aggregateResampledWeights resampledWeights

/-- The function `optimizePortfolio` (lines 103-123). -/
def optimizePortfolio (env : OptimizerEnv)
    (expectedReturns riskMatrix constraints : JsValue) (options : OptimizationOptions) :
    Except JsError JsValue :=
  if options.useResampling.truthy then
    resampledOptimization env expectedReturns riskMatrix constraints options
  else
    standardOptimization env expectedReturns riskMatrix constraints

/-- The function `calculatePortfolioMetrics` (lines 194-205). -/
def calculatePortfolioMetrics (env : OptimizerEnv) (weights assets riskMatrix : JsValue) :
    Except JsError JsValue := do
  let expectedReturn ← env.calculatePortfolioReturn weights assets
  let volatility ← env.calculatePortfolioVolatility weights riskMatrix
  let sharpeRatio ← env.calculateSharpeRatio weights assets riskMatrix
  let drawdown ← env.calculateExpectedDrawdown weights assets
  let beta ← env.calculatePortfolioBeta weights assets
  let turnover ← env.calculateTurnover weights assets
  let sectorExposure ← env.calculateSectorExposure weights assets
  let factorExposures ← env.calculateFactorExposures weights assets
  pure (JsValue.object
    [("expectedReturn", expectedReturn), ("volatility", volatility),
     ("sharpeRatio", sharpeRatio), ("drawdown", drawdown), ("beta", beta),
     ("turnover", turnover), ("sectorExposure", sectorExposure),
     ("factorExposures", factorExposures)])

/-- Lines 21-36 of `calculateOptimalPortfolio`: the pair `(expectedReturns, riskMatrix)`
after the optional Black-Litterman step. -/
def blendViews (env : OptimizerEnv) (args : OptimizationArgs) (options : OptimizationOptions)
    (returns covariance viewsMatrix : JsValue) : Except JsError (JsValue × JsValue) :=
  if options.useBlackLitterman.truthy then do
    let marketCap ← args.assets.mapArray (fun a => a.get "marketCap")
    let blResult ← applyBlackLitterman env covariance args.marketViews viewsMatrix marketCap
    let r ← blResult.get "returns"
    let c ← blResult.get "covariance"
    pure (r, c)
  else
    pure (returns, covariance)

/-- The function `calculateOptimalPortfolio` (lines 4-71). -/
def calculateOptimalPortfolio (env : OptimizerEnv) (args : OptimizationArgs) :
    Except JsError JsValue := do
  let options := args.options.getD defaultOptions
  let returns ← env.calculateExpectedReturns args.assets args.marketViews
  let covariance ← env.calculateRobustCovariance args.assets
  let viewsMatrix ← env.constructViewsMatrix args.marketViews
  let blended ← blendViews env args options returns covariance viewsMatrix
  let expectedReturns := blended.1
  let riskMatrix ←
    if options.useRobustOptimization.truthy then env.applyRobustification blended.2 options
    else pure blended.2
  let optimizationConstraints ←
    constructConstraints env (constraintArgument args.constraints args.riskTolerance options)
  let result ← optimizePortfolio env expectedReturns riskMatrix optimizationConstraints options
  let weights ← result.get "weights"
  let metrics ← calculatePortfolioMetrics env weights args.assets riskMatrix
  let expectedReturn ← result.get "expectedReturn"
  let risk ← result.get "risk"
  let sharpeRatio ← result.get "sharpeRatio"
  let diversificationScore ← env.calculateDiversificationScore weights
  pure (JsValue.object
    [("allocation", weights), ("metrics", metrics),
     ("diagnostics", JsValue.object
        [("expectedReturn", expectedReturn), ("risk", risk), ("sharpeRatio", sharpeRatio),
         ("diversificationScore", diversificationScore)])])


/-! ### Efficient frontier -/

/-- The numeric value of an operand of `Math.min` and `Math.max`; `none` is `NaN`, the
value of `undefined`. Arrays and objects as operands are not modelled and count as
`NaN`. -/
def toNumber : JsValue → Option ℚ
  | .number q => some q
  | .boolean b => some (if b then 1 else 0)
  | _ => none

/-- The array `assets.map(a => a.expectedReturn)` as numbers (lines 212-213). -/
def expectedReturnValues (assets : JsValue) : Except JsError (List (Option ℚ)) :=
  match assets with
  | .array items => items.mapM (fun a => (a.get "expectedReturn").map toNumber)
  | _ => .error JsError.typeError

/-- The fold behind `Math.min(...xs)` and `Math.max(...xs)` for a choice `pick` of the
smaller or the larger of two numbers. The result `none` stands for a value that is not
a finite number: `NaN` when an operand is `NaN`, an infinity when there is no operand. -/
def extremum (pick : ℚ → ℚ → ℚ) : List (Option ℚ) → Option ℚ
  | [] => none
  | [x] => x
  | x :: y :: rest =>
    match x, extremum pick (y :: rest) with
    | some a, some b => some (pick a b)
    | _, _ => none

/-- The constant `step` of line 214; the quotient by `numPoints - 1 = 0` is not a finite
number. -/
def frontierStep (minReturn maxReturn : Option ℚ) (numPoints : Nat) : Option ℚ :=
  match minReturn, maxReturn with
  | some lo, some hi =>
    if numPoints = 1 then none else some ((hi - lo) / ((numPoints : ℚ) - 1))
  | _, _ => none

/-- The constant `targetReturn = minReturn + step * i` of line 218. -/
def frontierTarget (minReturn step : Option ℚ) (i : Nat) : Option ℚ :=
  match minReturn, step with
  | some lo, some d => some (lo + d * (i : ℚ))
  | _, _ => none

/-- The object `{ ...constraints, targetReturn }` of lines 221-224. -/
def frontierConstraints (constraints : JsValue) (targetReturn : ℚ) : JsValue :=
  JsValue.object
    (setProperty (spreadInto [] constraints) "targetReturn" (JsValue.number targetReturn))

/-- The argument object of the call of `calculateOptimalPortfolio` in lines 219-225: it
has the keys `assets` and `constraints` only. -/
def frontierArgs (assets constraints : JsValue) (targetReturn : ℚ) : OptimizationArgs :=
  { assets := assets
    constraints := frontierConstraints constraints targetReturn
    marketViews := JsValue.undefined
    riskTolerance := JsValue.undefined
    options := none }

/-- The loop of `calculateEfficientFrontier` (lines 217-233) after `n` iterations: the
array `frontierPoints`. A target return that is `NaN` stops the model. -/
def frontierLoop (env : OptimizerEnv) (assets constraints : JsValue)
    (minReturn step : Option ℚ) : Nat → Except JsError (List JsValue)
  | 0 => .ok []
  | i + 1 => do
    let frontierPoints ← frontierLoop env assets constraints minReturn step i
    let targetReturn ←
      match frontierTarget minReturn step i with
      | some t => pure t
      | none => .error JsError.notANumber
    let result ← calculateOptimalPortfolio env (frontierArgs assets constraints targetReturn)
    let metrics ← result.get "metrics"
    let risk ← metrics.get "volatility"
    let weights ← result.get "allocation"
    let sharpeRatio ← metrics.get "sharpeRatio"
    pure (frontierPoints ++ [JsValue.object
      [("return", JsValue.number targetReturn), ("risk", risk), ("weights", weights),
       ("sharpeRatio", sharpeRatio)]])

/-- The function `calculateEfficientFrontier` (lines 207-236); `numPoints` is `none`
when the caller leaves it out. -/
def calculateEfficientFrontier (env : OptimizerEnv) (assets constraints : JsValue)
    (numPoints : Option Nat) : Except JsError (List JsValue) := do
  let n := numPoints.getD 50
  let returns ← expectedReturnValues assets
  let minReturn := extremum min returns
  let maxReturn := extremum max returns
  let step := frontierStep minReturn maxReturn n
  frontierLoop env assets constraints minReturn step n

/-- The value that the last entry with key `key` gives to that key, if there is one. -/
def lastProperty : JsFields → String → Option JsValue
  | [], _ => none
  | (k, v) :: rest, key =>
    match lastProperty rest key with
    | some w => some w
    | none => if k = key then some v else none


/-! ### Sample call of the optimiser -/

/-- One implementation of the helpers that `OptimizationUtils.js` leaves undefined, used
to evaluate the model on a concrete call: expected returns of 8% and 4%, a solver that
returns equal weights, a portfolio return of 6% and a portfolio risk of 10%; the
matrices and the remaining metrics carry no information. -/
def sampleOptimizerEnv : OptimizerEnv :=
  { calculateExpectedReturns := fun _ _ =>
      .ok (JsValue.array [JsValue.number (8 / 100), JsValue.number (4 / 100)])
    calculateRobustCovariance := fun _ => .ok (JsValue.array [])
    constructViewsMatrix := fun _ => .ok (JsValue.array [])
    calculateEquilibriumReturns := fun _ _ => .ok (JsValue.array [])
    newMatrix := fun m => .ok m
    calculateViewUncertainty := fun _ _ => .ok (JsValue.array [])
    matrixMul := fun m _ => .ok m
    calculateBLPosterior := fun _ priorCovariance _ _ _ =>
      .ok (JsValue.object
        [("returns", JsValue.array [JsValue.number (8 / 100), JsValue.number (4 / 100)]),
         ("covariance", priorCovariance)])
    applyRobustification := fun m _ => .ok m
    calculateCVaRLimit := fun _ => .ok (JsValue.number (1 / 10))
    resampleReturns := fun r => .ok r
    resampleCovariance := fun m => .ok m
    aggregateResampledWeights := fun ws => .ok (JsValue.object [("weights", JsValue.array ws)])
    matrixToJSON := fun m => .ok m
    constructConstraintMatrix := fun _ => .ok (JsValue.array [])
    constructConstraintBounds := fun _ => .ok (JsValue.array [])
    solveQP := fun _ _ _ _ =>
      .ok (JsValue.object
        [("solution", JsValue.array [JsValue.number (1 / 2), JsValue.number (1 / 2)])])
    calculatePortfolioReturn := fun _ _ => .ok (JsValue.number (6 / 100))
    calculatePortfolioRisk := fun _ _ => .ok (JsValue.number (1 / 10))
    calculatePortfolioVolatility := fun _ _ => .ok (JsValue.number (1 / 10))
    calculateSharpeRatio := fun _ _ _ => .ok (JsValue.number (4 / 10))
    calculateExpectedDrawdown := fun _ _ => .ok JsValue.undefined
    calculatePortfolioBeta := fun _ _ => .ok JsValue.undefined
    calculateTurnover := fun _ _ => .ok JsValue.undefined
    calculateSectorExposure := fun _ _ => .ok JsValue.undefined
    calculateFactorExposures := fun _ _ => .ok JsValue.undefined
    calculateDiversificationScore := fun _ => .ok (JsValue.number 2) }

/-- A call with two assets, one market view and the default options except for
`useResampling: false`. -/
def sampleOptimizationArgs : OptimizationArgs :=
  { assets := JsValue.array
      [JsValue.object [("symbol", JsValue.number 0), ("marketCap", JsValue.number 3)],
       JsValue.object [("symbol", JsValue.number 1), ("marketCap", JsValue.number 1)]]
    constraints := JsValue.object []
    marketViews := JsValue.array [JsValue.object [("estimate", JsValue.number (9 / 100))]]
    riskTolerance := JsValue.number (1 / 2)
    options := some { defaultOptions with useResampling := JsValue.boolean false } }

/-! ## Monte Carlo simulation (`monteCarloUtils.js`) -/

section MonteCarlo

variable {K : Type} [LinearOrderedField K]

/-- The functions and the constant of the JavaScript `Math` object used by the module. -/
structure JsMath (K : Type) where
  pow : K → K → K
  sqrt : K → K
  log : K → K
  cos : K → K
  PI : K

/-- The shape of `feeStructure`. -/
structure FeeStructure (K : Type) where
  managementFee : K
  tradingCosts : K
  adminFee : K

/-- The constant `defaultFeeStructure` (lines 213-217). -/
def defaultFeeStructure : FeeStructure K :=
  { managementFee := 25 / 10000
    tradingCosts := 10 / 10000
    adminFee := 5 / 10000 }

/-- The `config` object as the caller passes it: an absent key is `none`. -/
structure SimulationConfig (K : Type) where
  numSimulations : Option Nat
  confidenceIntervals : Option (List K)
  inflationRate : Option K
  rebalanceFrequency : Option Nat
  includeFees : Option Bool
  feeStructure : Option (FeeStructure K)

/-- The default `config = {}`. -/
def emptyConfig : SimulationConfig K :=
  { numSimulations := none
    confidenceIntervals := none
    inflationRate := none
    rebalanceFrequency := none
    includeFees := none
    feeStructure := none }

/-- The constants bound by the destructuring of `config` (lines 13-20). -/
structure ResolvedConfig (K : Type) where
  numSimulations : Nat
  confidenceIntervals : List K
  inflationRate : K
  rebalanceFrequency : Nat
  includeFees : Bool
  feeStructure : FeeStructure K

/-- The destructuring of `config` with its defaults (lines 13-20). -/
def resolveConfig (config : SimulationConfig K) : ResolvedConfig K :=
  { numSimulations := config.numSimulations.getD 1000
    confidenceIntervals := config.confidenceIntervals.getD [95 / 100, 75 / 100, 5 / 10]
    inflationRate := config.inflationRate.getD (3 / 100)
    rebalanceFrequency := config.rebalanceFrequency.getD 12
    includeFees := config.includeFees.getD true
    feeStructure := config.feeStructure.getD defaultFeeStructure }

/-- The argument object of `generateMonteCarloSimulation`. Objects keyed by asset are
lists of entries in the order of `Object.entries`. -/
structure SimulationArgs (K : Type) where
  initialInvestment : K
  monthlyContribution : K
  years : Nat
  assetAllocation : List (String × K)
  expectedReturns : List (String × K)
  volatility : List (String × K)
  correlationMatrix : List (List K)
  config : SimulationConfig K

/-- Functions and library methods used by `monteCarloUtils.js` that the repository does
not define, with the types of their results; each is taken to return a value. -/
structure SimulationEnv (K : Type) where
  Allocation : Type
  Trades : Type
  Statistic : Type
  cholesky : List (List K) → Except JsError (List (List K))
  calculateFees : K → FeeStructure K → K
  calculateCurrentAllocation : K → Option (List K) → Allocation
  calculateRebalancingTrades : Allocation → List (String × K) → K → Trades
  calculateTradingCosts : Trades → K
  calculateMean : List K → Statistic
  calculatePercentile : List K → K → Statistic
  calculateStdDev : List K → Statistic
  calculateConfidenceIntervals : List K → List K → Statistic
  calculateVaR : List K → K → Statistic
  calculateCVaR : List K → K → Statistic
  calculateMaxDrawdown : List K → Statistic
  calculateSharpeRatio : List K → Statistic
  calculateSortinoRatio : List K → Statistic
  calculateCalmarRatio : List K → Statistic
  calculateSkewness : List K → Statistic
  calculateKurtosis : List K → Statistic
  calculateJarqueBera : List K → Statistic

/-! ### Random draws

`Math.random` is global state. It is modelled by the sequence `random : Nat → K` of the
values that its successive calls return, together with the index of the next call. -/

/-- The loop `while (u === 0) u = Math.random()` started at call index `pos`: the first
non-zero draw and the index after it. -/
def drawNonZero (random : Nat → K) : Nat → Nat → Except JsError (K × Nat)
  | 0, _ => .error JsError.outOfFuel
  | fuel + 1, pos =>
    if random pos = 0 then drawNonZero random fuel (pos + 1)
    else .ok (random pos, pos + 1)

/-- The function `generateRandomNormal` (lines 148-153), a Box-Muller transform. -/
def generateRandomNormal (math : JsMath K) (random : Nat → K) (fuel pos : Nat) :
    Except JsError (K × Nat) := do
  let u ← drawNonZero random fuel pos
  let v ← drawNonZero random fuel u.2
  pure (math.sqrt (-2 * math.log u.1) * math.cos (2 * math.PI * v.1), v.2)

/-- The map `r => Math.pow(1 + r, 1/12) - 1` of lines 116-118. -/
def annualToMonthlyReturn (math : JsMath K) (r : K) : K :=
  math.pow (1 + r) (1 / 12) - 1

/-- The map `v => v / Math.sqrt(12)` of lines 119-121. -/
def annualToMonthlyVolatility (math : JsMath K) (v : K) : K :=
  v / math.sqrt 12

/-- The callback of `monthlyReturns.map` (lines 133-136) from index `i` on: one normal
draw per asset, scaled by `monthlyVol[i]` and shifted by the mean. -/
def drawReturns (math : JsMath K) (random : Nat → K) (fuel : Nat) (monthlyVol : List K) :
    List K → Nat → Nat → Except JsError (List K × Nat)
  | [], _, pos => .ok ([], pos)
  | mean :: rest, i, pos => do
    let rand ← generateRandomNormal math random fuel pos
    match monthlyVol[i]? with
    | none => .error JsError.notANumber
    | some vol =>
      let tail ← drawReturns math random fuel monthlyVol rest (i + 1) rand.2
      pure ((mean + vol * rand.1) :: tail.1, tail.2)

/-- The product `L.mmul(Matrix.columnVector(v)).to1DArray()` of lines 139-140: entry `i`
is the dot product of row `i` of `L` with `v`; reading a row of `v` that does not exist
is a `TypeError`. -/
def mmulColumn (L : List (List K)) (v : List K) : Except JsError (List K) :=
  if L.any (fun row => decide (v.length < row.length)) then .error JsError.typeError
  else .ok (L.map (fun row => (List.zipWith (fun a b => a * b) row v).sum))

/-- The inner loop `for (month = 0; month < months; month++)` of
`generateCorrelatedReturns` (lines 131-141) after `n` iterations: `simReturns` and the
index of the next random call. -/
def generateMonths (math : JsMath K) (random : Nat → K) (fuel : Nat) (L : List (List K))
    (monthlyReturns monthlyVol : List K) :
    Nat → Nat → Except JsError (List (List K) × Nat)
  | 0, pos => .ok ([], pos)
  | n + 1, pos => do
    let simReturns ← generateMonths math random fuel L monthlyReturns monthlyVol n pos
    let randomNumbers ← drawReturns math random fuel monthlyVol monthlyReturns 0 simReturns.2
    let correlated ← mmulColumn L randomNumbers.1
    pure (simReturns.1 ++ [correlated], randomNumbers.2)

/-- The outer loop `for (sim = 0; sim < numSimulations; sim++)` of
`generateCorrelatedReturns` (lines 129-143) after `n` iterations. -/
def generateSimulations (math : JsMath K) (random : Nat → K) (fuel : Nat)
    (L : List (List K)) (monthlyReturns monthlyVol : List K) (months : Nat) :
    Nat → Nat → Except JsError (List (List (List K)) × Nat)
  | 0, pos => .ok ([], pos)
  | n + 1, pos => do
    let result ← generateSimulations math random fuel L monthlyReturns monthlyVol months n pos
    let simReturns ←
      generateMonths math random fuel L monthlyReturns monthlyVol months result.2
    pure (result.1 ++ [simReturns.1], simReturns.2)

/-- The function `generateCorrelatedReturns` (lines 108-146): the table indexed by
simulation and month, and the index of the next random call. -/
def generateCorrelatedReturns (math : JsMath K) (env : SimulationEnv K)
    (expectedReturns volatility : List (String × K)) (correlationMatrix : List (List K)) (months numSimulations : Nat)
    (random : Nat → K) (fuel pos : Nat) :
    Except JsError (List (List (List K)) × Nat) := do
  let monthlyReturns := expectedReturns.map (fun p => annualToMonthlyReturn math p.2)
  let monthlyVol := volatility.map (fun p => annualToMonthlyVolatility math p.2)
  let L ← env.cholesky correlationMatrix
  generateSimulations math random fuel L monthlyReturns monthlyVol months
    numSimulations pos

/-! ### The simulation loop -/

/-- The reduction over `Object.entries(allocation)` in `calculatePortfolioReturn`
(lines 156-158), from entry `index` on with accumulator `sum`. -/
def weightedSum (returns : List K) : List (String × K) → Nat → K → Except JsError K
  | [], _, sum => .ok sum
  | entry :: rest, index, sum =>
    match returns[index]? with
    | none => .error JsError.notANumber
    | some r => weightedSum returns rest (index + 1) (sum + entry.2 * r)

/-- The function `calculatePortfolioReturn` (lines 155-159). The argument `returns` is
`none` when the caller passes `undefined`: the callback then reads `returns[index]`
and throws a `TypeError`, unless the allocation has no entry and the callback never
runs. -/
def calculatePortfolioReturn (returns : Option (List K)) (allocation : List (String × K)) :
    Except JsError K :=
  match returns, allocation with
  | none, [] => .ok 0
  | none, _ :: _ => .error JsError.typeError
  | some rs, entries => weightedSum rs entries 0 0

/-- The function `rebalancePortfolio` (lines 161-172). -/
def rebalancePortfolio (env : SimulationEnv K) (currentValue : K)
    (targetAllocation : List (String × K)) (returns : Option (List K)) : K :=
  let currentAllocation := env.calculateCurrentAllocation currentValue returns
  let rebalancingTrades :=
    env.calculateRebalancingTrades currentAllocation targetAllocation currentValue
  let tradingCosts := env.calculateTradingCosts rebalancingTrades
  currentValue - tradingCosts

/-- The test `month % rebalanceFrequency === 0` (line 59); the remainder by zero is
`NaN`, which is not `0`. -/
def rebalanceDue (month rebalanceFrequency : Nat) : Bool :=
  decide (rebalanceFrequency ≠ 0 ∧ month % rebalanceFrequency = 0)

/-- The fees of lines 52-53. -/
def monthlyFees (env : SimulationEnv K) (cfg : ResolvedConfig K) (currentValue : K) : K :=
  if cfg.includeFees then env.calculateFees currentValue cfg.feeStructure else 0

/-- The assignment of lines 48-56: the value after return, contribution and fees. -/
def monthlyUpdate (math : JsMath K) (env : SimulationEnv K) (cfg : ResolvedConfig K)
    (monthlyContribution currentValue monthlyReturn : K) (month : Nat) : K :=
  let inflationAdjustedContribution :=
    monthlyContribution * math.pow (1 + cfg.inflationRate) ((month : K) / 12)
  let fees := monthlyFees env cfg currentValue
  currentValue * (1 + monthlyReturn) + inflationAdjustedContribution - fees

/-- The conditional of lines 58-65 applied to the updated value. -/
def rebalanceIfDue (env : SimulationEnv K) (cfg : ResolvedConfig K)
    (assetAllocation : List (String × K)) (returns : Option (List K)) (month : Nat)
    (currentValue : K) : K :=
  if rebalanceDue month cfg.rebalanceFrequency then
    rebalancePortfolio env currentValue assetAllocation returns
  else currentValue

/-- An entry of `monthlyData`. -/
structure MonthlyRecord (K : Type) where
  month : Nat
  value : K
  simulation : Nat

/-- An entry of `annualData`. -/
structure AnnualRecord (K : Type) where
  year : Nat
  value : K
  simulation : Nat

/-- The variables of one trial (lines 36-39). -/
structure TrialState (K : Type) where
  pathMonthly : List (MonthlyRecord K)
  pathAnnual : List (AnnualRecord K)
  currentValue : K
  yearlyValue : K

/-- The state at the start of a trial (lines 36-39). -/
def initialTrialState (initialInvestment : K) : TrialState K :=
  { pathMonthly := []
    pathAnnual := []
    currentValue := initialInvestment
    yearlyValue := initialInvestment }

/-- The expression `correlatedReturns[sim][month]`: `none` is `undefined`, and indexing
an `undefined` row is a `TypeError`. -/
def returnsAt (correlatedReturns : List (List (List K))) (sim month : Nat) :
    Except JsError (Option (List K)) :=
  match correlatedReturns[sim]? with
  | none => .error JsError.typeError
  | some row => .ok row[month]?

/-- The body of the month loop (lines 42-81) for simulation `sim` and month `month`. -/
def simulateMonth (math : JsMath K) (env : SimulationEnv K) (args : SimulationArgs K)
    (cfg : ResolvedConfig K)
    (correlatedReturns : List (List (List K))) (sim month : Nat) (st : TrialState K) :
    Except JsError (TrialState K) := do
  let returns ← returnsAt correlatedReturns sim month
  let monthlyReturn ← calculatePortfolioReturn returns args.assetAllocation
  let updated := monthlyUpdate math env cfg args.monthlyContribution st.currentValue
    monthlyReturn month
  let currentValue := rebalanceIfDue env cfg args.assetAllocation returns month updated
  let pathMonthly :=
    st.pathMonthly ++ [{ month := month, value := currentValue, simulation := sim }]
  if month % 12 = 0 then
    pure { pathMonthly := pathMonthly
           pathAnnual := st.pathAnnual ++
             [{ year := month / 12, value := currentValue, simulation := sim }]
           currentValue := currentValue
           yearlyValue := currentValue }
  else
    pure { pathMonthly := pathMonthly
           pathAnnual := st.pathAnnual
           currentValue := currentValue
           yearlyValue := st.yearlyValue }

/-- The month loop `for (month = 0; month <= months; month++)` (line 41) of simulation
`sim` after `n` iterations, that is, after the months `0, ..., n - 1`. -/
def trialLoop (math : JsMath K) (env : SimulationEnv K) (args : SimulationArgs K)
    (cfg : ResolvedConfig K)
    (correlatedReturns : List (List (List K))) (sim : Nat) :
    Nat → Except JsError (TrialState K)
  | 0 => .ok (initialTrialState args.initialInvestment)
  | n + 1 => do
    let st ← trialLoop math env args cfg correlatedReturns sim n
    simulateMonth math env args cfg correlatedReturns sim n st

/-- One trial: the month loop run to its end, `months + 1` iterations. -/
def simulateTrial (math : JsMath K) (env : SimulationEnv K) (args : SimulationArgs K)
    (cfg : ResolvedConfig K)
    (correlatedReturns : List (List (List K))) (sim : Nat) : Except JsError (TrialState K) :=
  trialLoop math env args cfg correlatedReturns sim (args.years * 12 + 1)

/-- The simulation loop `for (sim = 0; sim < numSimulations; sim++)` (lines 35-86) after
`n` iterations: the arrays `monthlyData` and `annualData`. -/
def simulationLoop (math : JsMath K) (env : SimulationEnv K) (args : SimulationArgs K)
    (cfg : ResolvedConfig K)
    (correlatedReturns : List (List (List K))) :
    Nat → Except JsError (List (MonthlyRecord K) × List (AnnualRecord K))
  | 0 => .ok ([], [])
  | n + 1 => do
    let data ← simulationLoop math env args cfg correlatedReturns n
    let st ← simulateTrial math env args cfg correlatedReturns n
    pure (data.1 ++ st.pathMonthly, data.2 ++ st.pathAnnual)

/-! ### Statistics and the result object -/

/-- The entry `statistics.annual[year]` (lines 190-197). -/
structure AnnualStatistics (S : Type) where
  mean : S
  median : S
  stdDev : S
  confidenceIntervals : S
  var : S
  cvar : S

/-- The result of `calculateRiskMetrics`. -/
structure RiskMetrics (S : Type) where
  maxDrawdown : S
  sharpeRatio : S
  sortinoRatio : S
  calmarRatio : S

/-- The result of `calculateDistributionMetrics`. -/
structure DistributionMetrics (S : Type) where
  skewness : S
  kurtosis : S
  jarqueBera : S

/-- The object `statistics.overall`; a `successRate` of `none` is `NaN`. -/
structure OverallStatistics (K S : Type) where
  successRate : Option K
  riskMetrics : RiskMetrics S
  distributionMetrics : DistributionMetrics S

/-- The result of `calculateSimulationStatistics`; its `monthly` entry stays empty. -/
structure SimulationStatistics (K S : Type) where
  annual : List (Nat × AnnualStatistics S)
  overall : OverallStatistics K S

/-- The function `calculateSuccessRate` (lines 219-221). A `targetValue` of `none` is
`undefined`, to which no number compares as `>=`; the result `none` is the `NaN` of
`0 / 0`. -/
def calculateSuccessRate (values : List (AnnualRecord K)) (targetValue : Option K) :
    Option K :=
  let successes := values.filter (fun v =>
    match targetValue with
    | none => false
    | some t => decide (t ≤ v.value))
  if values.length = 0 then none
  else some ((successes.length : K) / (values.length : K) * 100)

/-- The function `calculateRiskMetrics` (lines 223-231). -/
def calculateRiskMetrics (env : SimulationEnv K) (values : List (AnnualRecord K)) :
    RiskMetrics env.Statistic :=
  let data := values.map (fun v => v.value)
  { maxDrawdown := env.calculateMaxDrawdown data
    sharpeRatio := env.calculateSharpeRatio data
    sortinoRatio := env.calculateSortinoRatio data
    calmarRatio := env.calculateCalmarRatio data }

/-- The function `calculateDistributionMetrics` (lines 233-240). -/
def calculateDistributionMetrics (env : SimulationEnv K) (values : List (AnnualRecord K)) :
    DistributionMetrics env.Statistic :=
  let data := values.map (fun v => v.value)
  { skewness := env.calculateSkewness data
    kurtosis := env.calculateKurtosis data
    jarqueBera := env.calculateJarqueBera data }

/-- The value `Math.max(...annualData.map(d => d.year))`; `none` is `-Infinity`. -/
def maxYear (annualData : List (AnnualRecord K)) : Option Nat :=
  (annualData.map (fun d => d.year)).max?

/-- The body of the year loop (lines 187-197). -/
def annualStatisticsOf (env : SimulationEnv K) (annualData : List (AnnualRecord K))
    (confidenceIntervals : List K) (year : Nat) : AnnualStatistics env.Statistic :=
  let yearData := annualData.filter (fun d => decide (d.year = year))
  let values := yearData.map (fun d => d.value)
  { mean := env.calculateMean values
    median := env.calculatePercentile values (5 / 10)
    stdDev := env.calculateStdDev values
    confidenceIntervals := env.calculateConfidenceIntervals values confidenceIntervals
    var := env.calculateVaR values (5 / 100)
    cvar := env.calculateCVaR values (5 / 100) }

/-- The function `calculateSimulationStatistics` (lines 174-211). -/
def calculateSimulationStatistics (env : SimulationEnv K)
    (_monthlyData : List (MonthlyRecord K)) (annualData : List (AnnualRecord K))
    (confidenceIntervals : List K) :
    SimulationStatistics K env.Statistic :=
  let years := (List.range ((maxYear annualData).getD 0)).map (fun i => i + 1)
  let finalValues := annualData.filter (fun d => decide (some d.year = maxYear annualData))
  { annual := years.map (fun year =>
      (year, annualStatisticsOf env annualData confidenceIntervals year))
    overall :=
      { successRate := calculateSuccessRate finalValues none
        riskMetrics := calculateRiskMetrics env finalValues
        distributionMetrics := calculateDistributionMetrics env finalValues } }

/-- The `metadata` of the result (lines 99-104). -/
structure SimulationMetadata (K : Type) where
  numSimulations : Nat
  years : Nat
  assetAllocation : List (String × K)
  inflationRate : K

/-- The object returned by `generateMonteCarloSimulation` (lines 95-105). -/
structure MonteCarloResult (K S : Type) where
  monthlyData : List (MonthlyRecord K)
  annualData : List (AnnualRecord K)
  statistics : SimulationStatistics K S
  metadata : SimulationMetadata K

/-- The value of a property of the returned object. -/
inductive ResultProperty (K S : Type) where
  | monthlyData (data : List (MonthlyRecord K)) : ResultProperty K S
  | annualData (data : List (AnnualRecord K)) : ResultProperty K S
  | statistics (stats : SimulationStatistics K S) : ResultProperty K S
  | metadata (meta : SimulationMetadata K) : ResultProperty K S

/-- The property read `result[name]` on the returned object: the object literal of
lines 95-105 has the four keys below, every other name reads as `undefined` (`none`). -/
def MonteCarloResult.property {S : Type} (result : MonteCarloResult K S) (name : String) :
    Option (ResultProperty K S) :=
  if name = "monthlyData" then some (ResultProperty.monthlyData result.monthlyData)
  else if name = "annualData" then some (ResultProperty.annualData result.annualData)
  else if name = "statistics" then some (ResultProperty.statistics result.statistics)
  else if name = "metadata" then some (ResultProperty.metadata result.metadata)
  else none

/-- The function `generateMonteCarloSimulation` (lines 3-106), started when the next call
of `Math.random` has index `pos`: the returned object and the index of the next call. -/
def generateMonteCarloSimulation (math : JsMath K) (env : SimulationEnv K)
    (args : SimulationArgs K)
    (random : Nat → K) (fuel pos : Nat) :
    Except JsError (MonteCarloResult K env.Statistic × Nat) := do
  let cfg := resolveConfig args.config
  let months := args.years * 12
  let correlatedReturns ← generateCorrelatedReturns math env args.expectedReturns
    args.volatility args.correlationMatrix months cfg.numSimulations random fuel pos
  let data ← simulationLoop math env args cfg correlatedReturns.1 cfg.numSimulations
  let statistics := calculateSimulationStatistics env data.1 data.2 cfg.confidenceIntervals
  pure ({ monthlyData := data.1
          annualData := data.2
          statistics := statistics
          metadata :=
            { numSimulations := cfg.numSimulations
              years := args.years
              assetAllocation := args.assetAllocation
              inflationRate := cfg.inflationRate } }, correlatedReturns.2)

end MonteCarlo

/-- The `Math` object over the real numbers. `Math.pow` is the real power, which is the
value JavaScript computes for a non-negative base. -/
noncomputable def realMath : JsMath ℝ :=
  { pow := fun x y => x ^ y
    sqrt := Real.sqrt
    log := Real.log
    cos := Real.cos
    PI := Real.pi }


/-! ### Sample inputs -/

section Samples

variable {K : Type} [LinearOrderedField K]

/-- One implementation of the helpers that the repository leaves undefined, used to
evaluate the model on concrete inputs: no fee and no trading cost is charged, the
statistics carry no information, and `cholesky` returns its argument (the factor of an
identity matrix). -/
def sampleEnv : SimulationEnv K :=
  { Allocation := Unit
    Trades := Unit
    Statistic := Unit
    cholesky := fun m => .ok m
    calculateFees := fun _ _ => 0
    calculateCurrentAllocation := fun _ _ => ()
    calculateRebalancingTrades := fun _ _ _ => ()
    calculateTradingCosts := fun _ => 0
    calculateMean := fun _ => ()
    calculatePercentile := fun _ _ => ()
    calculateStdDev := fun _ => ()
    calculateConfidenceIntervals := fun _ _ => ()
    calculateVaR := fun _ _ => ()
    calculateCVaR := fun _ _ => ()
    calculateMaxDrawdown := fun _ => ()
    calculateSharpeRatio := fun _ => ()
    calculateSortinoRatio := fun _ => ()
    calculateCalmarRatio := fun _ => ()
    calculateSkewness := fun _ => ()
    calculateKurtosis := fun _ => ()
    calculateJarqueBera := fun _ => () }

/-- A well-formed call: 100000 invested in one asset, 1000 contributed each month, one
year, one simulation, every other option at its default. -/
def sampleArgs : SimulationArgs K :=
  { initialInvestment := 100000
    monthlyContribution := 1000
    years := 1
    assetAllocation := [("stocks", 1)]
    expectedReturns := [("stocks", 8 / 100)]
    volatility := [("stocks", 18 / 100)]
    correlationMatrix := [[1]]
    config := { emptyConfig with numSimulations := some 1 } }

/-- A well-formed call that invests nothing at the start and contributes `c` each month,
with no inflation and no fees. -/
def contributionArgs (c : K) : SimulationArgs K :=
  { initialInvestment := 0
    monthlyContribution := c
    years := 1
    assetAllocation := [("stocks", 1)]
    expectedReturns := [("stocks", 0)]
    volatility := [("stocks", 2)]
    correlationMatrix := [[1]]
    config := { emptyConfig with
      numSimulations := some 1
      inflationRate := some 0
      includeFees := some false } }

/-- A row of the return table for one year: no return in the months `0` to `10`, and a
return of `-300%` in month `11`. -/
def crashRow : List (List K) :=
  [[0], [0], [0], [0], [0], [0], [0], [0], [0], [0], [0], [-3]]

/-- The sample call with an empty allocation object. -/
def emptyAllocationArgs : SimulationArgs K :=
  { (sampleArgs : SimulationArgs K) with assetAllocation := [] }

/-- The value that a call of `generateMonteCarloSimulation` on `sampleArgs` computes for
month `0` of simulation `0` when the calls of `Math.random` return the values `random`:
the table of `generateCorrelatedReturns` followed by the first iteration of the month
loop. -/
def monthZeroValue (math : JsMath K) (env : SimulationEnv K) (random : Nat → K)
    (fuel : Nat) : Except JsError K := do
  let args : SimulationArgs K := sampleArgs
  let cfg := resolveConfig args.config
  let correlatedReturns ← generateCorrelatedReturns math env args.expectedReturns
    args.volatility args.correlationMatrix (args.years * 12) cfg.numSimulations random fuel 0
  let st ← trialLoop math env args cfg correlatedReturns.1 0 1
  pure st.currentValue

/-- The sample call with `numSimulations: 0`. -/
def noSimulationArgs : SimulationArgs K :=
  { (sampleArgs : SimulationArgs K) with
    config := { emptyConfig with numSimulations := some 0 } }

/-- The correlation matrix of two assets with correlation `0.6`. -/
def sampleCorrelation : List (List K) :=
  [[1, 3 / 5], [3 / 5, 1]]

/-- The lower-triangular Cholesky factor of `sampleCorrelation`: its product with its
transpose is `[[1, 3/5], [3/5, 9/25 + 16/25]]`. -/
def sampleCholeskyFactor : List (List K) :=
  [[1, 0], [3 / 5, 4 / 5]]

/-- The helpers of `sampleEnv`, with a `cholesky` that returns the factor of
`sampleCorrelation`. -/
def twoAssetEnv : SimulationEnv K :=
  { (sampleEnv : SimulationEnv K) with cholesky := fun _ => .ok sampleCholeskyFactor }

end Samples


/-! ## Risk metrics of the simulation hook (`hooks/UseMonteCarloSimulation.js`) -/

namespace UseMonteCarloSimulation

section

variable {K : Type} [LinearOrderedField K]

/-- The quotient `a / b` of two numbers. With `b = 0` JavaScript gives `NaN` or an
infinity, which is `none` here. -/
def quotient (a b : K) : Option K :=
  if b = 0 then none else some (a / b)

/-- The call `Math.max(a, b)` where an operand that is not a finite number (`none`) can
only be `NaN` or `+Infinity`; the result is then not a finite number either. -/
def mathMax : Option K → Option K → Option K
  | some a, some b => some (max a b)
  | _, _ => none

/-- The callback of `sim.values.forEach` (lines 106-112) on the pair of the variables
`peak` and `maxDrawdownForSim`. -/
def drawdownStep (state : K × Option K) (value : K) : K × Option K :=
  let peak := if state.1 < value then value else state.1
  let drawdown := quotient (peak - value) peak
  (peak, mathMax state.2 drawdown)

/-- The value of `maxDrawdownForSim` after the `forEach` of lines 103-112 for a
simulation with the given `values`; with no value the loop body never runs. -/
def maxDrawdownForSim (values : List K) : Option K :=
  match values with
  | [] => some 0
  | first :: _ => (values.foldl drawdownStep (first, some 0)).2

/-- The constant `maxDrawdown` of `calculateRiskMetrics` (lines 102-115); a simulation is
given by its array `values`. -/
def maxDrawdown (simulations : List (List K)) : Option K :=
  simulations.foldl (fun maxDD sim => mathMax maxDD (maxDrawdownForSim sim)) (some 0)

/-- The drawdowns `(v_i - v_j) / v_i` of all index pairs `i ≤ j` of a path, the
definition of the maximum drawdown that the one-pass computation is compared with. -/
def pairDrawdowns (values : List K) : List K :=
  (List.range values.length).flatMap (fun j =>
    (List.range (j + 1)).map (fun i =>
      (values.getD i 0 - values.getD j 0) / values.getD i 0))

end

end UseMonteCarloSimulation

section Samples

variable {K : Type} [LinearOrderedField K]

/-- A well-formed call that invests 1 and contributes nothing, with no inflation and no
fees. -/
def unitArgs : SimulationArgs K :=
  { (contributionArgs (0 : K)) with initialInvestment := 1 }

end Samples


namespace UseMonteCarloSimulation

section

variable {K : Type} [LinearOrderedField K]

/-- The function `calculateVolatility` of the hook (lines 126-131), a population standard
deviation; `none` is `NaN`, the value for an empty array. -/
def calculateVolatility (math : JsMath K) (values : List K) : Option K :=
  match quotient (values.foldl (fun sum value => sum + value) 0) (values.length : K) with
  | none => none
  | some mean =>
    let squaredDiffs := values.map (fun value => math.pow (value - mean) 2)
    let variance :=
      quotient (squaredDiffs.foldl (fun sum value => sum + value) 0) (values.length : K)
    variance.map math.sqrt

end

end UseMonteCarloSimulation

/-! ### Aggregate statistics of the simulation hook -/

namespace UseMonteCarloSimulation

section

variable {K : Type} [LinearOrderedField K]

/-- The hook's `config` as far as the statistics read it; an absent key is `none`. -/
structure StatisticsConfig (K : Type) where
  targetValue : Option K
  riskFreeRate : Option K

/-- The call `Math.max(...values)`; `none` is `-Infinity`, its value without operand. -/
def spreadMax (values : List K) : Option K :=
  values.foldl
    (fun acc value =>
      match acc with
      | none => some value
      | some a => some (max a value))
    none

/-- The call `Math.min(...values)`; `none` is `Infinity`, its value without operand. -/
def spreadMin (values : List K) : Option K :=
  values.foldl
    (fun acc value =>
      match acc with
      | none => some value
      | some a => some (min a value))
    none

/-- The constant `targetValue = config.targetValue || Infinity` (line 69); `none` is
`Infinity`. -/
def targetValueOf (config : StatisticsConfig K) : Option K :=
  match config.targetValue with
  | none => none
  | some t => if t = 0 then none else some t

/-- The test `Math.max(...sim.values) >= targetValue` (line 71): neither does
`-Infinity` reach a target nor does a number reach `Infinity`. -/
def reachesTarget (targetValue : Option K) (values : List K) : Bool :=
  match spreadMax values, targetValue with
  | some m, some t => decide (t ≤ m)
  | _, _ => false

/-- The function `calculateSuccessRate` of the hook (lines 68-74); `none` is the `NaN` of
`0 / 0`. -/
def calculateSuccessRate (config : StatisticsConfig K) (simulations : List (List K)) :
    Option K :=
  let targetValue := targetValueOf config
  let successfulRuns := simulations.filter (reachesTarget targetValue)
  (quotient (successfulRuns.length : K) (simulations.length : K)).map (fun q => q * 100)

/-- The array `simulations.map(sim => sim.values[sim.values.length - 1])` (lines 77, 84,
89 and 94). A simulation without values would contribute `undefined`; the model stops
there. -/
def finalValues (simulations : List (List K)) : Except JsError (List K) :=
  if simulations.any (fun values => values.isEmpty) then .error JsError.notANumber
  else .ok (simulations.map (fun values => values.getLastD 0))

/-- The array `[...finalValues].sort((a, b) => a - b)`: the numbers in ascending
order. -/
def sortAscending (values : List K) : List K :=
  values.insertionSort (fun a b => a ≤ b)

/-- The function `calculateMedianOutcome` (lines 76-81); `none` is `undefined`, the
entry of an empty array. -/
def calculateMedianOutcome (simulations : List (List K)) : Except JsError (Option K) := do
  let finalValues ← finalValues simulations
  let sorted := sortAscending finalValues
  let middle := sorted.length / 2
  pure sorted[middle]?

/-- The function `calculateWorstCase` (lines 83-86). -/
def calculateWorstCase (simulations : List (List K)) : Except JsError (Option K) := do
  let finalValues ← finalValues simulations
  pure (spreadMin finalValues)

/-- The function `calculateBestCase` (lines 88-91). -/
def calculateBestCase (simulations : List (List K)) : Except JsError (Option K) := do
  let finalValues ← finalValues simulations
  pure (spreadMax finalValues)

/-- The constant `riskFreeRate = config.riskFreeRate || 0.02` (lines 134 and 144). -/
def riskFreeRateOf (config : StatisticsConfig K) : K :=
  match config.riskFreeRate with
  | none => 2 / 100
  | some r => if r = 0 then 2 / 100 else r

/-- The entries `(value - values[index - 1]) / values[index - 1]` of the array `returns`
(lines 135-137 and 145-147) that follow the entry `previous`; `none` when a quotient is
by zero, which makes a return that is not a finite number. -/
def returnsAfter (previous : K) : List K → Option (List K)
  | [] => some []
  | value :: rest =>
    match quotient (value - previous) previous, returnsAfter value rest with
    | some r, some tail => some (r :: tail)
    | _, _ => none

/-- The array `returns` of lines 135-137 and 145-147: `0` at index `0`, then the
relative change from each value to the next. -/
def periodReturns : List K → Option (List K)
  | [] => some []
  | first :: rest => (returnsAfter first rest).map (fun tail => 0 :: tail)

/-- The function `calculateSharpeRatio` (lines 133-141); `none` is a value that is not a
finite number, which every return that is not finite and every quotient by zero
produces. -/
def calculateSharpeRatio (math : JsMath K) (config : StatisticsConfig K) (values : List K) :
    Option K :=
  let riskFreeRate := riskFreeRateOf config
  match periodReturns values with
  | none => none
  | some returns =>
    match quotient (returns.foldl (fun sum value => sum + value) 0) (returns.length : K),
      calculateVolatility math returns with
    | some meanReturn, some volatility => quotient (meanReturn - riskFreeRate) volatility
    | _, _ => none

/-- The function `calculateSortinoRatio` (lines 143-157); `none` is a value that is not
a finite number. -/
def calculateSortinoRatio (math : JsMath K) (config : StatisticsConfig K) (values : List K) :
    Option K :=
  let riskFreeRate := riskFreeRateOf config
  match periodReturns values with
  | none => none
  | some returns =>
    let negativeReturns := returns.filter (fun r => decide (r < 0))
    match quotient (returns.foldl (fun sum value => sum + value) 0) (returns.length : K),
      quotient (negativeReturns.foldl (fun sum value => sum + math.pow value 2) 0)
        (negativeReturns.length : K) with
    | some meanReturn, some meanSquare =>
      quotient (meanReturn - riskFreeRate) (math.sqrt meanSquare)
    | _, _ => none

/-- The object returned by `calculateRiskMetrics` of the hook; for `valueAtRisk` the
value `none` is `undefined`, for the other keys a value that is not a finite number. -/
structure RiskMetrics (K : Type) where
  valueAtRisk : Option K
  maxDrawdown : Option K
  volatility : Option K
  sharpeRatio : Option K
  sortinoRatio : Option K

/-- The function `calculateRiskMetrics` of the hook (lines 93-124). The index
`Math.floor(sorted.length * 0.05)` is the integer quotient of the length by `20`. -/
def calculateRiskMetrics (math : JsMath K) (config : StatisticsConfig K)
    (simulations : List (List K)) : Except JsError (RiskMetrics K) := do
  let finalValues ← finalValues simulations
  let sorted := sortAscending finalValues
  let varIndex := sorted.length / 20
  pure { valueAtRisk := sorted[varIndex]?
         maxDrawdown := maxDrawdown simulations
         volatility := calculateVolatility math finalValues
         sharpeRatio := calculateSharpeRatio math config finalValues
         sortinoRatio := calculateSortinoRatio math config finalValues }

/-- The hook's configuration without `targetValue` and `riskFreeRate`, as its initial
state has it. -/
def defaultStatisticsConfig : StatisticsConfig K :=
  { targetValue := none, riskFreeRate := none }

end

end UseMonteCarloSimulation

/-! ## Portfolio analyser (`portfolioUtils.js`) -/

namespace PortfolioAnalyzer

section

variable {K : Type} [LinearOrderedField K]

/-- The method `standardDeviation` (lines 237-242), a sample standard deviation. The
`reduce` without initial value throws a `TypeError` on an empty array; a result of
`none` is a value that is not a finite number (`NaN` for `0 / 0`). -/
def standardDeviation (math : JsMath K) (data : List K) : Except JsError (Option K) :=
  match data with
  | [] => .error JsError.typeError
  | first :: rest =>
    let mean := rest.foldl (fun a b => a + b) first / ((first :: rest).length : K)
    let squares := (first :: rest).foldl (fun sq n => sq + math.pow (n - mean) 2) 0
    .ok ((UseMonteCarloSimulation.quotient squares
      (((first :: rest).length : K) - 1)).map math.sqrt)

end

end PortfolioAnalyzer

/-! ## Tax optimiser (`taxUtils.js`) -/

namespace TaxOptimizer

section

variable {K : Type} [LinearOrderedField K]

/-- A taxable position. -/
structure Position (K : Type) where
  symbol : String
  value : K
  costBasis : K

/-- A security of `portfolio.universe`. -/
structure Security where
  symbol : String

/-- The `taxRates` object. -/
structure TaxRates (K : Type) where
  federalLongTerm : K
  state : K

/-- The portfolio as far as the harvesting methods read it; an absent key is `none`.
The field `securityUniverse` is the key `universe` of the source. -/
structure Portfolio (K : Type) where
  taxablePositions : Option (List (Position K))
  securityUniverse : Option (List Security)

/-- The `config` argument of the constructor: an absent key is `none`. -/
structure ConfigArg (K : Type) where
  harvestingThreshold : Option K
  minHoldingPeriod : Option K
  washSaleWindow : Option K

/-- The field `this.config` (lines 7-13) without the table `stateTaxData`, which the
harvesting methods do not read. -/
structure Config (K : Type) where
  harvestingThreshold : K
  minHoldingPeriod : K
  washSaleWindow : K

/-- The object built by the constructor. -/
structure Optimizer (K : Type) where
  portfolio : Portfolio K
  taxRates : TaxRates K
  config : Config K

/-- The constructor (lines 4-14): the defaults come first, the caller's `config` is
spread over them. -/
def new (portfolio : Portfolio K) (taxRates : TaxRates K) (config : ConfigArg K) :
    Optimizer K :=
  { portfolio := portfolio
    taxRates := taxRates
    config :=
      { harvestingThreshold := config.harvestingThreshold.getD 1000
        minHoldingPeriod := config.minHoldingPeriod.getD 31
        washSaleWindow := config.washSaleWindow.getD 30 } }

/-- Methods of `TaxOptimizer` that the class calls but does not define, with the types
of their results; each is taken to return a value. -/
structure Env (K : Type) where
  Timing : Type
  WashSaleRisk : Type
  calculateUnrealizedLoss : Position K → K
  isValidAlternative : Security → Position K → Bool
  calculateCorrelation : Position K → Security → K
  calculateTrackingError : Position K → Security → K
  calculateFundamentalScore : Security → K
  optimizeHarvestingTiming : Position K → Timing
  assessWashSaleRisk : Position K → WashSaleRisk
  calculateNIITRate : K

/-- An entry of the result of `findHarvestingAlternatives`. -/
structure Alternative (K : Type) where
  symbol : String
  correlation : K
  trackingError : K
  fundamentalScore : K

/-- An entry of the result of `findTaxLossHarvestingOpportunities`. -/
structure Opportunity (K T W : Type) where
  position : String
  unrealizedLoss : K
  potentialSavings : K
  alternatives : List (Alternative K)
  timing : T
  washSaleRisk : W

/-- The method `calculateHarvestingSavings` (lines 119-125). -/
def calculateHarvestingSavings (env : Env K) (opt : Optimizer K) (unrealizedLoss : K) : K :=
  let federalRate := opt.taxRates.federalLongTerm
  let stateRate := opt.taxRates.state
  let niitRate := env.calculateNIITRate
  |unrealizedLoss| * (federalRate + stateRate + niitRate)

/-- The method `findHarvestingAlternatives` (lines 127-138): filter, map, a stable sort
by descending `fundamentalScore`, and the first three entries. An absent
`portfolio.universe` makes `.filter` a `TypeError`. -/
def findHarvestingAlternatives (env : Env K) (opt : Optimizer K) (position : Position K) :
    Except JsError (List (Alternative K)) :=
  match opt.portfolio.securityUniverse with
  | none => .error JsError.typeError
  | some securities =>
    let candidates := (securities.filter (fun security =>
      env.isValidAlternative security position)).map (fun security =>
        ({ symbol := security.symbol
           correlation := env.calculateCorrelation position security
           trackingError := env.calculateTrackingError position security
           fundamentalScore := env.calculateFundamentalScore security } : Alternative K))
    .ok ((candidates.insertionSort
      (fun a b => b.fundamentalScore ≤ a.fundamentalScore)).take 3)

/-- The body of the loop of `findTaxLossHarvestingOpportunities` (lines 56-69): the
opportunity pushed for `position`, if any. -/
def harvestPosition (env : Env K) (opt : Optimizer K) (position : Position K) :
    Except JsError (Option (Opportunity K env.Timing env.WashSaleRisk)) :=
  let unrealizedLoss := env.calculateUnrealizedLoss position
  if opt.config.harvestingThreshold ≤ |unrealizedLoss| then do
    let alternatives ← findHarvestingAlternatives env opt position
    if 0 < alternatives.length then
      pure (some
        { position := position.symbol
          unrealizedLoss := unrealizedLoss
          potentialSavings := calculateHarvestingSavings env opt unrealizedLoss
          alternatives := alternatives
          timing := env.optimizeHarvestingTiming position
          washSaleRisk := env.assessWashSaleRisk position })
    else pure none
  else pure none

/-- The loop `for (const position of positions)` (lines 55-70) over the positions still
to visit, with the array `opportunities` built so far. -/
def harvestLoop (env : Env K) (opt : Optimizer K) :
    List (Position K) → List (Opportunity K env.Timing env.WashSaleRisk) →
      Except JsError (List (Opportunity K env.Timing env.WashSaleRisk))
  | [], opportunities => .ok opportunities
  | position :: rest, opportunities => do
    let pushed ← harvestPosition env opt position
    match pushed with
    | some opportunity => harvestLoop env opt rest (opportunities ++ [opportunity])
    | none => harvestLoop env opt rest opportunities

/-- The method `findTaxLossHarvestingOpportunities` (lines 51-73). -/
def findTaxLossHarvestingOpportunities (env : Env K) (opt : Optimizer K) :
    Except JsError (List (Opportunity K env.Timing env.WashSaleRisk)) :=
  let positions := opt.portfolio.taxablePositions.getD []
  harvestLoop env opt positions []

/-- One implementation of the helper methods that the class leaves undefined, used to
evaluate the model on concrete inputs: `calculateUnrealizedLoss` returns the signed
difference `sign * (value - costBasis)` (with `sign = 1` a loss is negative, as in
`unrealizedLoss: -1500` of the mock data), every security is a valid alternative, all
scores and the NIIT rate are `0`. -/
def signedLossEnv (sign : K) : Env K :=
  { Timing := Unit
    WashSaleRisk := Unit
    calculateUnrealizedLoss := fun position => sign * (position.value - position.costBasis)
    isValidAlternative := fun _ _ => true
    calculateCorrelation := fun _ _ => 0
    calculateTrackingError := fun _ _ => 0
    calculateFundamentalScore := fun _ => 0
    optimizeHarvestingTiming := fun _ => ()
    assessWashSaleRisk := fun _ => ()
    calculateNIITRate := 0 }

/-- Modelled from the spec: `calculateUnrealizedLoss`, which the class calls and the
repository does not define. In the data model the cost basis against the value decides
between gain and loss, and the example scenario reads a position at a gain (SPY, value
45075, cost 42000) as having no loss and a position with value 18000 and cost 19500 as
a loss of 1500. So the unrealized loss has the magnitude `costBasis - value` when the
value is below the cost basis and is `0` otherwise; with `sign = 1` a loss is reported
as a negative number (as in `unrealizedLoss: -1500` of the mock data), with `sign = -1`
as a positive one. -/
def unrealizedLoss (sign : K) (position : Position K) : K :=
  sign * min (position.value - position.costBasis) 0

/-- The helper methods with `unrealizedLoss` for `calculateUnrealizedLoss`; every
security is a valid alternative, all scores and the NIIT rate are `0`. -/
def lossEnv (sign : K) : Env K :=
  { Timing := Unit
    WashSaleRisk := Unit
    calculateUnrealizedLoss := unrealizedLoss sign
    isValidAlternative := fun _ _ => true
    calculateCorrelation := fun _ _ => 0
    calculateTrackingError := fun _ _ => 0
    calculateFundamentalScore := fun _ => 0
    optimizeHarvestingTiming := fun _ => ()
    assessWashSaleRisk := fun _ => ()
    calculateNIITRate := 0 }

/-- The portfolio of the example scenario: SPY with value 45075 and cost 42000, AGG with
value 20000 and cost 19500, both held at a gain, and one security to switch into. -/
def gainPortfolio : Portfolio K :=
  { taxablePositions := some
      [{ symbol := "SPY", value := 45075, costBasis := 42000 },
       { symbol := "AGG", value := 20000, costBasis := 19500 }]
    securityUniverse := some [{ symbol := "VOO" }] }

/-- The optimiser of the example scenario, with the default configuration. -/
def gainOptimizer : Optimizer K :=
  new gainPortfolio { federalLongTerm := 15 / 100, state := 5 / 100 }
    { harvestingThreshold := none, minHoldingPeriod := none, washSaleWindow := none }

end

end TaxOptimizer

/-! ### Ranking of opportunities and withdrawal sequencing -/

namespace TaxOptimizer

section

variable {K : Type} [LinearOrderedField K]

/-- A portfolio with two positions held at a loss: VTI with value 8500 and cost 10000
(a loss of 1500), then VXUS with value 7000 and cost 10000 (a loss of 3000), and one
security to switch into. -/
def lossPortfolio : Portfolio K :=
  { taxablePositions := some
      [{ symbol := "VTI", value := 8500, costBasis := 10000 },
       { symbol := "VXUS", value := 7000, costBasis := 10000 }]
    securityUniverse := some [{ symbol := "VOO" }] }

/-- The optimiser for `lossPortfolio` with rates of 15% and 5% and the default
configuration. -/
def lossOptimizer : Optimizer K :=
  new lossPortfolio { federalLongTerm := 15 / 100, state := 5 / 100 }
    { harvestingThreshold := none, minHoldingPeriod := none, washSaleWindow := none }

/-- The result of `calculateOptimalWithdrawal` as far as the loop of
`generateWithdrawalStrategy` reads it; `detail` stands for its other properties. -/
structure Withdrawal (K D : Type) where
  amount : K
  taxCost : K
  detail : D

/-- The object built by `calculateWithdrawalImpact` (lines 169-176). -/
structure WithdrawalImpact (I : Type) where
  portfolioBalance : I
  taxEfficiency : I
  futureFlexibility : I
  rmdConsiderations : I

/-- The object `strategy` of `generateWithdrawalStrategy`; an `expectedImpact` of `none`
is the empty object of line 144. -/
structure WithdrawalStrategy (K D I : Type) where
  steps : List (Withdrawal K D)
  totalTaxCost : K
  expectedImpact : Option (WithdrawalImpact I)

/-- Methods that `generateWithdrawalStrategy` and `calculateWithdrawalImpact` call but
that the class does not define, with the types of their arguments and results; each is
taken to return a value. -/
structure WithdrawalEnv (K : Type) where
  Accounts : Type
  Account : Type
  Preferences : Type
  Detail : Type
  Impact : Type
  sortAccountsByWithdrawalEfficiency : Accounts → List Account
  calculateOptimalWithdrawal : Account → K → Preferences → Withdrawal K Detail
  calculatePortfolioImpact : WithdrawalStrategy K Detail Impact → Impact
  calculateTaxEfficiencyImpact : WithdrawalStrategy K Detail Impact → Impact
  calculateFlexibilityImpact : WithdrawalStrategy K Detail Impact → Impact
  calculateRMDImpact : WithdrawalStrategy K Detail Impact → Impact

/-- The method `calculateWithdrawalImpact` (lines 169-176). -/
def calculateWithdrawalImpact (env : WithdrawalEnv K)
    (strategy : WithdrawalStrategy K env.Detail env.Impact) : WithdrawalImpact env.Impact :=
  { portfolioBalance := env.calculatePortfolioImpact strategy
    taxEfficiency := env.calculateTaxEfficiencyImpact strategy
    futureFlexibility := env.calculateFlexibilityImpact strategy
    rmdConsiderations := env.calculateRMDImpact strategy }

/-- The loop `for (const account of sortedAccounts)` (lines 151-163) over the accounts
still to visit, on the pair of `strategy` and `remainingAmount`. -/
def withdrawalLoop (env : WithdrawalEnv K) (preferences : env.Preferences) :
    List env.Account → WithdrawalStrategy K env.Detail env.Impact × K →
      WithdrawalStrategy K env.Detail env.Impact × K
  | [], state => state
  | account :: rest, state =>
    if state.2 ≤ 0 then state
    else
      let withdrawal := env.calculateOptimalWithdrawal account state.2 preferences
      withdrawalLoop env preferences rest
        ({ state.1 with
            steps := state.1.steps ++ [withdrawal]
            totalTaxCost := state.1.totalTaxCost + withdrawal.taxCost },
         state.2 - withdrawal.amount)

/-- The method `generateWithdrawalStrategy` (lines 140-167). -/
def generateWithdrawalStrategy (env : WithdrawalEnv K) (accounts : env.Accounts)
    (requiredAmount : K) (preferences : env.Preferences) :
    WithdrawalStrategy K env.Detail env.Impact :=
  let strategy : WithdrawalStrategy K env.Detail env.Impact :=
    { steps := [], totalTaxCost := 0, expectedImpact := none }
  let sortedAccounts := env.sortAccountsByWithdrawalEfficiency accounts
  let final := withdrawalLoop env preferences sortedAccounts (strategy, requiredAmount)
  { final.1 with expectedImpact := some (calculateWithdrawalImpact env final.1) }

/-- An account of the sample withdrawal helpers: a name, a balance and the tax rate on
an amount drawn from it. -/
structure SampleAccount (K : Type) where
  name : String
  balance : K
  taxRate : K

/-- One implementation of the withdrawal helpers that the class leaves undefined, used to
evaluate the model on concrete inputs: the accounts are a list that is taken as sorted,
a withdrawal draws the smaller of the balance and the amount still required, and its
tax cost is the account's rate times the amount drawn. -/
def sampleWithdrawalEnv : WithdrawalEnv K :=
  { Accounts := List (SampleAccount K)
    Account := SampleAccount K
    Preferences := Unit
    Detail := String
    Impact := Unit
    sortAccountsByWithdrawalEfficiency := fun accounts => accounts
    calculateOptimalWithdrawal := fun account remainingAmount _ =>
      { amount := min account.balance remainingAmount
        taxCost := account.taxRate * min account.balance remainingAmount
        detail := account.name }
    calculatePortfolioImpact := fun _ => ()
    calculateTaxEfficiencyImpact := fun _ => ()
    calculateFlexibilityImpact := fun _ => ()
    calculateRMDImpact := fun _ => () }

/-- Three accounts in withdrawal order: taxable with 3000 (taxed at 15%), traditional
with 5000 (taxed at 25%) and roth with 10000 (untaxed). -/
def sampleAccounts : List (SampleAccount K) :=
  [{ name := "taxable", balance := 3000, taxRate := 15 / 100 },
   { name := "traditional", balance := 5000, taxRate := 25 / 100 },
   { name := "roth", balance := 10000, taxRate := 0 }]

end

end TaxOptimizer

/-! ## Tax strategy hook (`hooks/UseTaxStrategy.js`) -/

namespace UseTaxStrategy

section

variable {K : Type} [LinearOrderedField K]

/-- The value read from an object literal under a name that the literal does not define
itself: what it inherits from `Object.prototype` under that name. -/
inductive Inherited (K : Type) where
  /-- Nothing is inherited: the read gives `undefined` (or `null`). -/
  | nullish : Inherited K
  /-- The inherited value is a number. -/
  | number (x : K) : Inherited K
  /-- The inherited value is a function or an object. -/
  | other : Inherited K

/-- The result of `getAssetLocationScore`: a number, or an inherited function or
object. -/
inductive LocationScore (K : Type) where
  | number (x : K) : LocationScore K
  | other : LocationScore K

/-- What `getAssetLocationScore` uses and the repository does not define: the function
`determineAssetType`, whose result is taken as the property key it is used as, and the
members that the runtime lets every object literal inherit. `inherited [name]` is the
value read under `name` from a literal without an own property `name`, and
`inherited [name, key]` is the property `key` of that value. -/
structure Env (K : Type) where
  determineAssetType : String → String
  inherited : List String → Inherited K

/-- The constant `scores` (lines 124-140): asset class, then account type. -/
def scores : List (String × List (String × K)) :=
  [("bonds", [("traditional", 1), ("roth", 6 / 10), ("taxable", 3 / 10)]),
   ("stocks", [("traditional", 5 / 10), ("roth", 1), ("taxable", 7 / 10)]),
   ("reits", [("traditional", 9 / 10), ("roth", 7 / 10), ("taxable", 3 / 10)])]

/-- The own property `key` of an object literal given by its entries, if the literal has
one. -/
def ownProperty {α : Type} : List (String × α) → String → Option α
  | [], _ => none
  | (k, v) :: rest, key => if k = key then some v else ownProperty rest key

/-- The expression `value ?? 0.5` on an inherited value. -/
def orDefaultScore : Inherited K → LocationScore K
  | .nullish => .number (5 / 10)
  | .number x => .number x
  | .other => .other

/-- The function `getAssetLocationScore` (lines 123-144), that is,
`scores[assetType]?.[accountType] ?? 0.5`. A name that is not an own property of the
literal is looked up among the inherited members. -/
def getAssetLocationScore (env : Env K) (asset accountType : String) : LocationScore K :=
  let assetType := env.determineAssetType asset
  match ownProperty (scores : List (String × List (String × K))) assetType with
  | some row =>
    match ownProperty row accountType with
    | some score => .number score
    | none => orDefaultScore (env.inherited [accountType])
  | none =>
    match env.inherited [assetType] with
    | .nullish => .number (5 / 10)
    | _ => orDefaultScore (env.inherited [assetType, accountType])

/-- The object `assetLocations`: account type, then asset, then value, in the order of
`Object.entries`. -/
abbrev AssetLocations (K : Type) := List (String × List (String × K))

/-- The constant `totalAssets` of lines 106-109. -/
def totalAssets (assetLocations : AssetLocations K) : K :=
  assetLocations.foldl
    (fun sum accounts => sum + accounts.2.foldl (fun a b => a + b.2) 0) 0

/-- The body of the inner loop (lines 114-116) on the variable `efficiency`; `none` is a
value that is not a finite number, which a quotient by zero or a score that is not a
number produces. -/
def addLocationScore (env : Env K) (total : K) (accountType : String)
    (efficiency : Option K) (entry : String × K) : Option K :=
  match efficiency, UseMonteCarloSimulation.quotient entry.2 total,
    getAssetLocationScore env entry.1 accountType with
  | some e, some weight, .number locationScore => some (e + weight * locationScore)
  | _, _, _ => none

/-- The function `calculateAssetLocationEfficiency` (lines 104-121). -/
def calculateAssetLocationEfficiency (env : Env K) (assetLocations : AssetLocations K) :
    Option K :=
  assetLocations.foldl
    (fun efficiency accounts =>
      accounts.2.foldl (addLocationScore env (totalAssets assetLocations) accounts.1)
        efficiency)
    (some 0)

/-- An entry of `harvesting.opportunities` as far as the hook reads it. -/
structure HarvestingOpportunity (K : Type) where
  unrealizedLoss : K
  harvestable : Bool

/-- The argument `harvesting`; an absent key is `none`. -/
structure Harvesting (K : Type) where
  opportunities : Option (List (HarvestingOpportunity K))

/-- The function `calculateHarvestingEfficiency` (lines 146-160); the argument is `none`
when it is `undefined` or `null`, and the result `none` is the `NaN` of `0 / 0`. -/
def calculateHarvestingEfficiency (harvesting : Option (Harvesting K)) : Option K :=
  match harvesting with
  | none => some 0
  | some h =>
    match h.opportunities with
    | none => some 0
    | some [] => some 0
    | some opportunities =>
      let totalLosses := opportunities.foldl (fun sum opp => sum + |opp.unrealizedLoss|) 0
      let harvestedLosses := opportunities.foldl
        (fun sum opp => sum + (if opp.harvestable then |opp.unrealizedLoss| else 0)) 0
      UseMonteCarloSimulation.quotient harvestedLosses totalLosses

/-- The object `withdrawalStrategy` as far as the hook reads it; an absent key is
`none`. -/
structure WithdrawalSummary (K : Type) where
  totalAmount : Option K
  taxableAmount : Option K

/-- The function `calculateWithdrawalEfficiency` (lines 162-169); a result of `none` is
a value that is not a finite number. -/
def calculateWithdrawalEfficiency (withdrawalStrategy : Option (WithdrawalSummary K)) :
    Option K :=
  match withdrawalStrategy with
  | none => some 0
  | some w =>
    match w.taxableAmount, w.totalAmount with
    | some taxableAmount, some totalWithdrawal =>
      (UseMonteCarloSimulation.quotient taxableAmount totalWithdrawal).map (fun q => 1 - q)
    | _, _ => none

/-- The argument `strategy` of `calculateTaxEfficiency` as far as it is read; an absent
key is `none`. -/
structure Strategy (K : Type) where
  assetLocations : Option (AssetLocations K)
  withdrawalStrategy : Option (WithdrawalSummary K)

/-- The object `metrics` returned by `calculateTaxEfficiency`; `none` is a value that is
not a finite number. -/
structure TaxEfficiency (K : Type) where
  assetLocationScore : Option K
  harvestingEfficiency : Option K
  withdrawalEfficiency : Option K
  overall : Option K

/-- The weighted sum of lines 95-99. -/
def weightedOverall (a h w : Option K) : Option K :=
  match a, h, w with
  | some a, some h, some w => some (a * (4 / 10) + h * (3 / 10) + w * (3 / 10))
  | _, _, _ => none

/-- The function `calculateTaxEfficiency` (lines 86-102). Without the key
`assetLocations` the call `Object.values(assetLocations)` is a `TypeError`. -/
def calculateTaxEfficiency (env : Env K) (strategy : Strategy K)
    (harvesting : Option (Harvesting K)) : Except JsError (TaxEfficiency K) :=
  match strategy.assetLocations with
  | none => .error JsError.typeError
  | some assetLocations =>
    let assetLocationScore := calculateAssetLocationEfficiency env assetLocations
    let harvestingEfficiency := calculateHarvestingEfficiency harvesting
    let withdrawalEfficiency := calculateWithdrawalEfficiency strategy.withdrawalStrategy
    .ok { assetLocationScore := assetLocationScore
          harvestingEfficiency := harvestingEfficiency
          withdrawalEfficiency := withdrawalEfficiency
          overall := weightedOverall assetLocationScore harvestingEfficiency
            withdrawalEfficiency }

/-- One implementation of `determineAssetType` (the name of an asset is its class) in a
runtime where an object literal inherits `toString` and `constructor`, two of the
members of `Object.prototype`. -/
def sampleRuntime : Env K :=
  { determineAssetType := fun asset => asset
    inherited := fun path =>
      if path = ["toString"] ∨ path = ["constructor"] then Inherited.other
      else Inherited.nullish }

/-- A strategy with 4000 of bonds in the traditional account and 6000 of stocks in the
roth account, and a withdrawal of 5000 of which 2000 are taxable. -/
def sampleStrategy : Strategy K :=
  { assetLocations := some
      [("traditional", [("bonds", 4000)]), ("roth", [("stocks", 6000)])]
    withdrawalStrategy := some { totalAmount := some 5000, taxableAmount := some 2000 } }

/-- A harvesting result with a harvestable loss of 1500 and another loss of 500. -/
def sampleHarvesting : Harvesting K :=
  { opportunities := some
      [{ unrealizedLoss := -1500, harvestable := true },
       { unrealizedLoss := -500, harvestable := false }] }

end

end UseTaxStrategy


/-! # Theorems -/

/-! ## Object literals -/

theorem getProperty_setProperty_same (o : JsFields) (key : String) (v : JsValue) :
    getProperty (setProperty o key v) key = v := by
  induction o with
  | nil => simp [setProperty, getProperty]
  | cons p rest ih =>
    obtain ⟨k, w⟩ := p
    by_cases h : k = key
    · simp [setProperty, getProperty, h]
    · simp [setProperty, getProperty, h, ih]

theorem getProperty_setProperty_other (o : JsFields) (key other : String) (v : JsValue)
    (h : key ≠ other) :
    getProperty (setProperty o key v) other = getProperty o other := by
  induction o with
  | nil => simp [setProperty, getProperty, h]
  | cons p rest ih =>
    obtain ⟨k, w⟩ := p
    by_cases hk : k = key
    · subst hk
      simp [setProperty, getProperty, h]
    · by_cases ho : k = other
      · simp [setProperty, getProperty, hk, ← ho]
      · simp [setProperty, getProperty, hk, ho, ih]

/-! ## Sequencing of fallible steps -/

theorem bind_eq_ok {ε α β : Type} (x : Except ε α) (f : α → Except ε β) (b : β) :
    (x >>= f) = .ok b ↔ ∃ a, x = .ok a ∧ f a = .ok b := by
  cases x <;> simp [bind, Except.bind]

theorem bind_error_left {ε α β : Type} (x : Except ε α) (f : α → Except ε β)
    (h : ∃ e, x = .error e) : ∃ e, (x >>= f) = .error e := by
  obtain ⟨e, rfl⟩ := h
  exact ⟨e, rfl⟩

theorem bind_error_right {ε α β : Type} (x : Except ε α) (f : α → Except ε β)
    (h : ∀ a, ∃ e, f a = .error e) : ∃ e, (x >>= f) = .error e := by
  cases x with
  | error e => exact ⟨e, rfl⟩
  | ok a => exact h a


theorem bind_congr_ok {ε α β : Type} (x : Except ε α) (f g : α → Except ε β)
    (h : ∀ a, x = .ok a → f a = g a) : (x >>= f) = (x >>= g) := by
  cases x with
  | error e => rfl
  | ok a => exact h a rfl


/-! ## Portfolio optimiser -/

/-- The constraint set built from an object whose only keys are `maxAllocation` and
`minAllocation` is the one built from the empty object. -/
theorem constructConstraints_allocation_keys (env : OptimizerEnv)
    (hi lo riskTolerance : JsValue) (options : OptimizationOptions) :
    constructConstraints env (constraintArgument
        (JsValue.object [("maxAllocation", hi), ("minAllocation", lo)]) riskTolerance options)
      = constructConstraints env
          (constraintArgument (JsValue.object []) riskTolerance options) := by
  simp [constructConstraints, constraintArgument, spreadInto, ownProperties, setProperty,
    getProperty]

/-- C1, evaluated at the call of the test `calculates optimal portfolio allocation`:
whatever bounds `hi` and `lo` the caller passes as `constraints.maxAllocation` and
`constraints.minAllocation`, the call returns exactly what it returns for the empty
constraints object, because `constructConstraints` reads `minWeights` and `maxWeights`;
the bounds never reach the solver. -/
theorem calculateOptimalPortfolio_ignores_allocation_bounds (env : OptimizerEnv)
    (assets marketViews riskTolerance hi lo : JsValue) (options : Option OptimizationOptions) :
    calculateOptimalPortfolio env
        { assets := assets
          constraints := JsValue.object [("maxAllocation", hi), ("minAllocation", lo)]
          marketViews := marketViews
          riskTolerance := riskTolerance
          options := options }
      = calculateOptimalPortfolio env
        { assets := assets
          constraints := JsValue.object []
          marketViews := marketViews
          riskTolerance := riskTolerance
          options := options } := by
  simp only [calculateOptimalPortfolio, blendViews, constructConstraints_allocation_keys]

/-- C2, evaluated for every call: the `riskTolerance` read by `constructConstraints` is
the top-level argument of `calculateOptimalPortfolio`, which overwrites the key of the
same name spread from `constraints`. With the call of the test `respects risk tolerance
constraints` (no top-level `riskTolerance`) it is `undefined`, not the value `t` given
inside `constraints`, and the call returns what it returns for the empty constraints
object. -/
theorem constraintArgument_riskTolerance (env : OptimizerEnv)
    (assets marketViews constraints riskTolerance t : JsValue)
    (options : OptimizationOptions) (callOptions : Option OptimizationOptions) :
    getProperty (constraintArgument constraints riskTolerance options) "riskTolerance"
        = riskTolerance
      ∧ getProperty (constraintArgument (JsValue.object [("riskTolerance", t)])
            JsValue.undefined options) "riskTolerance" = JsValue.undefined
      ∧ calculateOptimalPortfolio env
          { assets := assets
            constraints := JsValue.object [("riskTolerance", t)]
            marketViews := marketViews
            riskTolerance := JsValue.undefined
            options := callOptions }
        = calculateOptimalPortfolio env
          { assets := assets
            constraints := JsValue.object []
            marketViews := marketViews
            riskTolerance := JsValue.undefined
            options := callOptions } := by
  have hget : ∀ c r : JsValue,
      getProperty (constraintArgument c r options) "riskTolerance" = r := by
    intro c r
    unfold constraintArgument
    rw [getProperty_setProperty_other _ _ _ _ (by decide), getProperty_setProperty_same]
  refine ⟨hget _ _, hget _ _, ?_⟩
  have harg : ∀ o : OptimizationOptions,
      constraintArgument (JsValue.object [("riskTolerance", t)]) JsValue.undefined o
        = constraintArgument (JsValue.object []) JsValue.undefined o := by
    intro o
    simp [constraintArgument, spreadInto, ownProperties, setProperty]
  simp only [calculateOptimalPortfolio, blendViews, harg]

/-! ## Monte Carlo simulation -/

section MonteCarloTheorems

variable {K : Type} [LinearOrderedField K]

theorem weightedSum_eq (rs : List K) (entries : List (String × K)) (index : Nat) (sum : K)
    (h : index + entries.length ≤ rs.length) :
    weightedSum rs entries index sum
      = .ok (sum + (List.zipWith (fun e x => e.2 * x) entries (rs.drop index)).sum) := by
  induction entries generalizing index sum with
  | nil => simp [weightedSum]
  | cons entry rest ih =>
    have hlt : index < rs.length := by
      simp only [List.length_cons] at h
      omega
    have hdrop : rs.drop index = rs[index] :: rs.drop (index + 1) :=
      List.drop_eq_getElem_cons hlt
    have hrest : index + 1 + rest.length ≤ rs.length := by
      simp only [List.length_cons] at h
      omega
    simp only [weightedSum, List.getElem?_eq_getElem hlt, ih (index + 1) _ hrest, hdrop,
      List.zipWith_cons_cons, List.sum_cons, add_assoc]

theorem calculatePortfolioReturn_eq (rs : List K) (allocation : List (String × K))
    (h : allocation.length ≤ rs.length) :
    calculatePortfolioReturn (some rs) allocation
      = .ok (List.zipWith (fun e x => e.2 * x) allocation rs).sum := by
  simp [calculatePortfolioReturn, weightedSum_eq rs allocation 0 0 (by simpa using h)]

theorem trialLoop_succ (math : JsMath K) (env : SimulationEnv K) (args : SimulationArgs K)
    (cfg : ResolvedConfig K) (table : List (List (List K))) (sim n : Nat)
    (st : TrialState K) (returns : Option (List K)) (r : K)
    (hst : trialLoop math env args cfg table sim n = .ok st)
    (hret : returnsAt table sim n = .ok returns)
    (hr : calculatePortfolioReturn returns args.assetAllocation = .ok r) :
    ∃ st', trialLoop math env args cfg table sim (n + 1) = .ok st'
      ∧ st'.currentValue = rebalanceIfDue env cfg args.assetAllocation returns n
          (monthlyUpdate math env cfg args.monthlyContribution st.currentValue r n)
      ∧ st'.pathMonthly = st.pathMonthly ++
          [{ month := n, value := st'.currentValue, simulation := sim }] := by
  by_cases h12 : n % 12 = 0
  · exact ⟨_, by simp [trialLoop, hst, simulateMonth, hret, hr, h12, bind, Except.bind, pure,
      Except.pure]; rfl, rfl, rfl⟩
  · exact ⟨_, by simp [trialLoop, hst, simulateMonth, hret, hr, h12, bind, Except.bind, pure,
      Except.pure]; rfl, rfl, rfl⟩


theorem calculatePortfolioReturn_getD (returns : Option (List K))
    (allocation : List (String × K))
    (h : allocation.length ≤ (returns.getD []).length) :
    calculatePortfolioReturn returns allocation
      = .ok (List.zipWith (fun e x => e.2 * x) allocation (returns.getD [])).sum := by
  cases returns with
  | some rs => exact calculatePortfolioReturn_eq rs allocation h
  | none =>
    have hnil : allocation = [] := List.eq_nil_of_length_eq_zero (Nat.le_zero.mp h)
    subst hnil
    rfl

/-- C5: when the month loop of a trial has reached month `n` with value `v` and the
return vector of that month has an entry for each asset of the allocation (an absent
vector counts as empty), the iteration completes, and the value it hands to the
rebalancing step is `v * (1 + r) + monthlyContribution * (1 + inflationRate)^(n/12) - fees`,
where `r` is the allocation-weighted sum of the return vector and `fees` is
`calculateFees` of `v` when `includeFees` is true and `0` otherwise. -/
theorem trialLoop_monthly_update (math : JsMath K) (env : SimulationEnv K)
    (args : SimulationArgs K) (cfg : ResolvedConfig K) (table : List (List (List K)))
    (sim n : Nat) (st : TrialState K) (returns : Option (List K))
    (hst : trialLoop math env args cfg table sim n = .ok st)
    (hret : returnsAt table sim n = .ok returns)
    (hlen : args.assetAllocation.length ≤ (returns.getD []).length) :
    ∃ st', trialLoop math env args cfg table sim (n + 1) = .ok st'
      ∧ st'.currentValue = rebalanceIfDue env cfg args.assetAllocation returns n
          (st.currentValue
              * (1 + (List.zipWith (fun e x => e.2 * x) args.assetAllocation
                  (returns.getD [])).sum)
            + args.monthlyContribution * math.pow (1 + cfg.inflationRate) ((n : K) / 12)
            - (if cfg.includeFees = true then env.calculateFees st.currentValue cfg.feeStructure
               else 0)) := by
  obtain ⟨st', h1, h2, _⟩ := trialLoop_succ math env args cfg table sim n st returns _ hst
    hret (calculatePortfolioReturn_getD returns args.assetAllocation hlen)
  exact ⟨st', h1, by rw [h2]; rfl⟩

/-- C6: in an iteration of the month loop that completes, the recorded value is the
value `u` of the monthly update minus the trading costs of the rebalancing trades when
`rebalanceFrequency` is not zero and divides the month `n`, and is `u` itself in every
other month. -/
theorem trialLoop_rebalancing (math : JsMath K) (env : SimulationEnv K)
    (args : SimulationArgs K) (cfg : ResolvedConfig K) (table : List (List (List K)))
    (sim n : Nat) (st : TrialState K) (returns : Option (List K)) (r : K)
    (hst : trialLoop math env args cfg table sim n = .ok st)
    (hret : returnsAt table sim n = .ok returns)
    (hr : calculatePortfolioReturn returns args.assetAllocation = .ok r) :
    ∃ st', trialLoop math env args cfg table sim (n + 1) = .ok st'
      ∧ st'.pathMonthly = st.pathMonthly ++
          [{ month := n, value := st'.currentValue, simulation := sim }]
      ∧ st'.currentValue =
          if cfg.rebalanceFrequency ≠ 0 ∧ n % cfg.rebalanceFrequency = 0 then
            monthlyUpdate math env cfg args.monthlyContribution st.currentValue r n
              - env.calculateTradingCosts (env.calculateRebalancingTrades
                  (env.calculateCurrentAllocation
                    (monthlyUpdate math env cfg args.monthlyContribution st.currentValue r n)
                    returns)
                  args.assetAllocation
                  (monthlyUpdate math env cfg args.monthlyContribution st.currentValue r n))
          else monthlyUpdate math env cfg args.monthlyContribution st.currentValue r n := by
  obtain ⟨st', h1, h2, h3⟩ := trialLoop_succ math env args cfg table sim n st returns r hst
    hret hr
  refine ⟨st', h1, h3, ?_⟩
  rw [h2]
  simp only [rebalanceIfDue, rebalanceDue, rebalancePortfolio, decide_eq_true_eq]


theorem generateMonths_length (math : JsMath K) (random : Nat → K) (fuel : Nat)
    (L : List (List K)) (monthlyReturns monthlyVol : List K) (n pos : Nat)
    (res : List (List K) × Nat)
    (h : generateMonths math random fuel L monthlyReturns monthlyVol n pos = .ok res) :
    res.1.length = n := by
  induction n generalizing res with
  | zero =>
    simp only [generateMonths, Except.ok.injEq] at h
    subst h
    rfl
  | succ n ih =>
    simp only [generateMonths, bind_eq_ok] at h
    obtain ⟨prev, hprev, draws, _, correlated, _, hres⟩ := h
    simp only [pure, Except.pure, Except.ok.injEq] at hres
    subst hres
    simp [ih prev hprev]

theorem generateSimulations_shape (math : JsMath K) (random : Nat → K) (fuel : Nat)
    (L : List (List K)) (monthlyReturns monthlyVol : List K) (months n pos : Nat)
    (res : List (List (List K)) × Nat)
    (h : generateSimulations math random fuel L monthlyReturns monthlyVol months n pos
      = .ok res) :
    res.1.length = n ∧ ∀ row ∈ res.1, row.length = months := by
  induction n generalizing res with
  | zero =>
    simp only [generateSimulations, Except.ok.injEq] at h
    subst h
    simp
  | succ n ih =>
    simp only [generateSimulations, bind_eq_ok] at h
    obtain ⟨prev, hprev, row, hrow, hres⟩ := h
    simp only [pure, Except.pure, Except.ok.injEq] at hres
    subst hres
    obtain ⟨hlen, hrows⟩ := ih prev hprev
    refine ⟨by simp [hlen], ?_⟩
    intro r hr
    simp only [List.mem_append, List.mem_singleton] at hr
    rcases hr with hr | hr
    · exact hrows r hr
    · subst hr
      exact generateMonths_length math random fuel L monthlyReturns monthlyVol months _ row
        hrow

theorem generateCorrelatedReturns_shape (math : JsMath K) (env : SimulationEnv K)
    (expectedReturns volatility : List (String × K)) (correlationMatrix : List (List K))
    (months numSimulations : Nat) (random : Nat → K) (fuel pos : Nat)
    (res : List (List (List K)) × Nat)
    (h : generateCorrelatedReturns math env expectedReturns volatility correlationMatrix
      months numSimulations random fuel pos = .ok res) :
    res.1.length = numSimulations ∧ ∀ row ∈ res.1, row.length = months := by
  simp only [generateCorrelatedReturns, bind_eq_ok] at h
  obtain ⟨L, _, hsim⟩ := h
  exact generateSimulations_shape math random fuel L _ _ months numSimulations pos res hsim

theorem trialLoop_months (math : JsMath K) (env : SimulationEnv K) (args : SimulationArgs K)
    (cfg : ResolvedConfig K) (table : List (List (List K))) (sim n : Nat)
    (st : TrialState K) (h : trialLoop math env args cfg table sim n = .ok st) :
    st.pathMonthly.map (fun d => d.month) = List.range n
      ∧ st.pathAnnual.map (fun d => d.year) = List.range ((n + 11) / 12) := by
  induction n generalizing st with
  | zero =>
    simp only [trialLoop, Except.ok.injEq] at h
    subst h
    simp [initialTrialState]
  | succ n ih =>
    simp only [trialLoop, bind_eq_ok] at h
    obtain ⟨prev, hprev, hstep⟩ := h
    obtain ⟨hm, ha⟩ := ih prev hprev
    simp only [simulateMonth, bind_eq_ok] at hstep
    obtain ⟨returns, _, r, _, hres⟩ := hstep
    by_cases h12 : n % 12 = 0
    · simp only [h12, if_true, pure, Except.pure, Except.ok.injEq] at hres
      subst hres
      have hdiv : (n + 1 + 11) / 12 = (n + 11) / 12 + 1 := by omega
      have hyear : n / 12 = (n + 11) / 12 := by omega
      simp [hm, ha, List.range_succ, hdiv, hyear]
    · simp only [h12, if_false, pure, Except.pure, Except.ok.injEq] at hres
      subst hres
      have hdiv : (n + 1 + 11) / 12 = (n + 11) / 12 := by omega
      simp [hm, ha, List.range_succ, hdiv]


theorem trialLoop_error_of_undefined_returns (math : JsMath K) (env : SimulationEnv K)
    (args : SimulationArgs K) (cfg : ResolvedConfig K) (table : List (List (List K)))
    (sim n : Nat) (hret : returnsAt table sim n = .ok none)
    (halloc : args.assetAllocation ≠ []) :
    ∃ e, trialLoop math env args cfg table sim (n + 1) = .error e := by
  have hcalc : calculatePortfolioReturn (none : Option (List K)) args.assetAllocation
      = .error JsError.typeError := by
    cases hA : args.assetAllocation with
    | nil => exact absurd hA halloc
    | cons entry rest => rfl
  simp only [trialLoop]
  apply bind_error_right
  intro st
  exact ⟨JsError.typeError, by simp [simulateMonth, hret, hcalc, bind, Except.bind]⟩

theorem simulationLoop_error_of_last_row (math : JsMath K) (env : SimulationEnv K)
    (args : SimulationArgs K) (cfg : ResolvedConfig K) (table : List (List (List K)))
    (n : Nat) (row : List (List K)) (hrow : table[n]? = some row)
    (hlen : row.length = args.years * 12) (halloc : args.assetAllocation ≠ []) :
    ∃ e, simulationLoop math env args cfg table (n + 1) = .error e := by
  simp only [simulationLoop]
  apply bind_error_right
  intro data
  apply bind_error_left
  apply trialLoop_error_of_undefined_returns math env args cfg table n (args.years * 12) _ halloc
  simp [returnsAt, hrow, ← hlen]

theorem generateMonteCarloSimulation_error (math : JsMath K) (env : SimulationEnv K)
    (args : SimulationArgs K) (random : Nat → K) (fuel pos : Nat)
    (halloc : args.assetAllocation ≠ [])
    (hsims : (resolveConfig args.config).numSimulations ≠ 0) :
    ∃ e, generateMonteCarloSimulation math env args random fuel pos = .error e := by
  obtain ⟨k, hk⟩ := Nat.exists_eq_succ_of_ne_zero hsims
  simp only [generateMonteCarloSimulation]
  cases hgen : generateCorrelatedReturns math env args.expectedReturns args.volatility
      args.correlationMatrix (args.years * 12) (resolveConfig args.config).numSimulations
      random fuel pos with
  | error e => exact ⟨e, rfl⟩
  | ok res =>
    obtain ⟨hlen, hrows⟩ := generateCorrelatedReturns_shape math env _ _ _ _ _ random fuel pos
      res hgen
    have hlt : k < res.1.length := by omega
    have hrow : res.1[k]? = some res.1[k] := List.getElem?_eq_getElem hlt
    obtain ⟨e, he⟩ := simulationLoop_error_of_last_row math env args
      (resolveConfig args.config) res.1 k res.1[k] hrow
      (hrows _ (List.getElem_mem hlt)) halloc
    refine ⟨e, ?_⟩
    simp only [bind, Except.bind, hk] at he ⊢
    rw [he]

theorem simulateMonth_typeError (math : JsMath K) (env : SimulationEnv K)
    (args : SimulationArgs K) (cfg : ResolvedConfig K) (table : List (List (List K)))
    (sim n : Nat) (st : TrialState K) (hret : returnsAt table sim n = .ok none)
    (halloc : args.assetAllocation ≠ []) :
    simulateMonth math env args cfg table sim n st = .error JsError.typeError := by
  have hcalc : calculatePortfolioReturn (none : Option (List K)) args.assetAllocation
      = .error JsError.typeError := by
    cases hA : args.assetAllocation with
    | nil => exact absurd hA halloc
    | cons entry rest => rfl
  simp [simulateMonth, hret, hcalc, bind, Except.bind]

/-- C7, evaluated on the sample call (one year, one simulation, one asset): for every
implementation of the undefined helpers and every state of `Math.random` the call does
not return, so there is no `monthlyData` and no `annualData`. `generateCorrelatedReturns`
fills the months `0, ..., 11` of the return table, the month loop runs up to month `12`
inclusive, and whatever state the trial has reached, the iteration for month `12` is a
`TypeError`: `calculatePortfolioReturn` reads an entry of the `undefined` vector. -/
theorem generateMonteCarloSimulation_sample_throws (math : JsMath K) (env : SimulationEnv K)
    (random : Nat → K) (fuel pos : Nat) :
    (∃ e, generateMonteCarloSimulation math env sampleArgs random fuel pos = .error e)
      ∧ ∀ (res : List (List (List K)) × Nat) (st : TrialState K),
          generateCorrelatedReturns math env (sampleArgs : SimulationArgs K).expectedReturns
              (sampleArgs : SimulationArgs K).volatility
              (sampleArgs : SimulationArgs K).correlationMatrix 12 1 random fuel pos
            = .ok res →
          simulateMonth math env sampleArgs (resolveConfig sampleArgs.config) res.1 0 12 st
            = .error JsError.typeError := by
  refine ⟨generateMonteCarloSimulation_error math env sampleArgs random fuel pos
    (by simp [sampleArgs]) (by simp [sampleArgs, resolveConfig, emptyConfig]), ?_⟩
  intro res st hgen
  obtain ⟨hlen, hrows⟩ := generateCorrelatedReturns_shape math env _ _ _ _ _ random fuel pos
    res hgen
  have hlt : 0 < res.1.length := by omega
  have hrow : res.1[0]? = some res.1[0] := List.getElem?_eq_getElem hlt
  have hrowlen : res.1[0].length = 12 := hrows _ (List.getElem_mem hlt)
  apply simulateMonth_typeError
  · simp [returnsAt, hrow, hrowlen]
  · simp [sampleArgs]

theorem simulateMonth_eq_ok (math : JsMath K) (env : SimulationEnv K)
    (args : SimulationArgs K) (cfg : ResolvedConfig K) (table : List (List (List K)))
    (sim n : Nat) (st st' : TrialState K)
    (h : simulateMonth math env args cfg table sim n st = .ok st') :
    ∃ returns r, returnsAt table sim n = .ok returns
      ∧ calculatePortfolioReturn returns args.assetAllocation = .ok r := by
  simp only [simulateMonth, bind_eq_ok] at h
  obtain ⟨returns, hret, r, hr, _⟩ := h
  exact ⟨returns, r, hret, hr⟩

/-- C9, amended: with the return table and every other input fixed, raise
`monthlyContribution` from its value to `c2`. If the inflation factor of every month is
non-negative and, for the allocation-weighted return `r` of every month, the value after
return and fees `v * (1 + r) - fees v` and the value after rebalancing are non-decreasing
in `v`, then whenever the month loop reaches `n` iterations under the smaller contribution
it does so under `c2`, with a value that is at least as large. -/
theorem trialLoop_mono_contribution (math : JsMath K) (env : SimulationEnv K)
    (args : SimulationArgs K) (cfg : ResolvedConfig K) (table : List (List (List K)))
    (sim : Nat) (c2 : K) (hc : args.monthlyContribution ≤ c2)
    (hpow : ∀ m : Nat, 0 ≤ math.pow (1 + cfg.inflationRate) ((m : K) / 12))
    (hgrow : ∀ m returns r, returnsAt table sim m = .ok returns →
      calculatePortfolioReturn returns args.assetAllocation = .ok r →
      ∀ v1 v2 : K, v1 ≤ v2 →
        v1 * (1 + r) - monthlyFees env cfg v1 ≤ v2 * (1 + r) - monthlyFees env cfg v2)
    (hcost : ∀ returns (v1 v2 : K), v1 ≤ v2 →
      rebalancePortfolio env v1 args.assetAllocation returns
        ≤ rebalancePortfolio env v2 args.assetAllocation returns)
    (n : Nat) (st1 : TrialState K)
    (h1 : trialLoop math env args cfg table sim n = .ok st1) :
    ∃ st2, trialLoop math env { args with monthlyContribution := c2 } cfg table sim n
        = .ok st2
      ∧ st1.currentValue ≤ st2.currentValue := by
  induction n generalizing st1 with
  | zero =>
    simp only [trialLoop, Except.ok.injEq] at h1
    subst h1
    exact ⟨_, rfl, le_refl _⟩
  | succ n ih =>
    have h1' := h1
    simp only [trialLoop, bind_eq_ok] at h1'
    obtain ⟨st, hst, hstep⟩ := h1'
    obtain ⟨returns, r, hret, hr⟩ := simulateMonth_eq_ok math env args cfg table sim n st st1
      hstep
    obtain ⟨stA, hA, hAval, _⟩ := trialLoop_succ math env args cfg table sim n st returns r
      hst hret hr
    rw [h1] at hA
    simp only [Except.ok.injEq] at hA
    subst hA
    obtain ⟨stB, hstB, hle⟩ := ih st hst
    obtain ⟨st2, h2, h2val, _⟩ := trialLoop_succ math env
      { args with monthlyContribution := c2 } cfg table sim n stB returns r hstB hret hr
    refine ⟨st2, h2, ?_⟩
    rw [hAval, h2val]
    have hupd : monthlyUpdate math env cfg args.monthlyContribution st.currentValue r n
        ≤ monthlyUpdate math env cfg c2 stB.currentValue r n := by
      have hg := hgrow n returns r hret hr _ _ hle
      have hp := mul_le_mul_of_nonneg_right hc (hpow n)
      simp only [monthlyUpdate]
      linarith
    simp only [rebalanceIfDue]
    split
    · exact hcost returns _ _ hupd
    · exact hupd


/-! ### Dependence on the random draws -/

theorem drawNonZero_pos_le (random : Nat → K) (fuel pos : Nat) (res : K × Nat)
    (h : drawNonZero random fuel pos = .ok res) : pos ≤ res.2 := by
  induction fuel generalizing pos with
  | zero => simp [drawNonZero] at h
  | succ fuel ih =>
    simp only [drawNonZero] at h
    split at h
    · exact le_trans (Nat.le_succ pos) (ih (pos + 1) h)
    · simp only [Except.ok.injEq] at h
      subst h
      exact Nat.le_succ pos

theorem drawNonZero_congr (r1 r2 : Nat → K) (fuel pos : Nat)
    (h : ∀ i, pos ≤ i → r1 i = r2 i) :
    drawNonZero r1 fuel pos = drawNonZero r2 fuel pos := by
  induction fuel generalizing pos with
  | zero => rfl
  | succ fuel ih =>
    simp only [drawNonZero, h pos (le_refl pos)]
    rw [ih (pos + 1) (fun i hi => h i (by omega))]

theorem generateRandomNormal_pos_le (math : JsMath K) (random : Nat → K) (fuel pos : Nat)
    (res : K × Nat) (h : generateRandomNormal math random fuel pos = .ok res) :
    pos ≤ res.2 := by
  simp only [generateRandomNormal, bind_eq_ok] at h
  obtain ⟨u, hu, v, hv, hres⟩ := h
  simp only [pure, Except.pure, Except.ok.injEq] at hres
  subst hres
  exact le_trans (drawNonZero_pos_le random fuel pos u hu)
    (drawNonZero_pos_le random fuel u.2 v hv)

theorem generateRandomNormal_congr (math : JsMath K) (r1 r2 : Nat → K) (fuel pos : Nat)
    (h : ∀ i, pos ≤ i → r1 i = r2 i) :
    generateRandomNormal math r1 fuel pos = generateRandomNormal math r2 fuel pos := by
  simp only [generateRandomNormal]
  rw [drawNonZero_congr r1 r2 fuel pos h]
  apply bind_congr_ok
  intro u hu
  have hle := drawNonZero_pos_le r2 fuel pos u hu
  rw [drawNonZero_congr r1 r2 fuel u.2 (fun i hi => h i (le_trans hle hi))]

theorem drawReturns_pos_le (math : JsMath K) (random : Nat → K) (fuel : Nat)
    (monthlyVol means : List K) (i pos : Nat) (res : List K × Nat)
    (h : drawReturns math random fuel monthlyVol means i pos = .ok res) : pos ≤ res.2 := by
  induction means generalizing i pos res with
  | nil =>
    simp only [drawReturns, Except.ok.injEq] at h
    subst h
    exact le_refl pos
  | cons mean rest ih =>
    simp only [drawReturns, bind_eq_ok] at h
    obtain ⟨rand, hrand, hrest⟩ := h
    have hle := generateRandomNormal_pos_le math random fuel pos rand hrand
    cases hvol : monthlyVol[i]? with
    | none => simp [hvol] at hrest
    | some vol =>
      simp only [hvol, bind_eq_ok] at hrest
      obtain ⟨tail, htail, hres⟩ := hrest
      simp only [pure, Except.pure, Except.ok.injEq] at hres
      subst hres
      exact le_trans hle (ih (i + 1) rand.2 tail htail)

theorem drawReturns_congr (math : JsMath K) (r1 r2 : Nat → K) (fuel : Nat)
    (monthlyVol means : List K) (i pos : Nat) (h : ∀ j, pos ≤ j → r1 j = r2 j) :
    drawReturns math r1 fuel monthlyVol means i pos
      = drawReturns math r2 fuel monthlyVol means i pos := by
  induction means generalizing i pos with
  | nil => rfl
  | cons mean rest ih =>
    simp only [drawReturns]
    rw [generateRandomNormal_congr math r1 r2 fuel pos h]
    apply bind_congr_ok
    intro rand hrand
    have hle := generateRandomNormal_pos_le math r2 fuel pos rand hrand
    rw [ih (i + 1) rand.2 (fun j hj => h j (le_trans hle hj))]

theorem generateMonths_pos_le (math : JsMath K) (random : Nat → K) (fuel : Nat)
    (L : List (List K)) (monthlyReturns monthlyVol : List K) (n pos : Nat)
    (res : List (List K) × Nat)
    (h : generateMonths math random fuel L monthlyReturns monthlyVol n pos = .ok res) :
    pos ≤ res.2 := by
  induction n generalizing res with
  | zero =>
    simp only [generateMonths, Except.ok.injEq] at h
    subst h
    exact le_refl pos
  | succ n ih =>
    simp only [generateMonths, bind_eq_ok] at h
    obtain ⟨prev, hprev, draws, hdraws, correlated, _, hres⟩ := h
    simp only [pure, Except.pure, Except.ok.injEq] at hres
    subst hres
    exact le_trans (ih prev hprev)
      (drawReturns_pos_le math random fuel monthlyVol monthlyReturns 0 prev.2 draws hdraws)

theorem generateMonths_congr (math : JsMath K) (r1 r2 : Nat → K) (fuel : Nat)
    (L : List (List K)) (monthlyReturns monthlyVol : List K) (n pos : Nat)
    (h : ∀ j, pos ≤ j → r1 j = r2 j) :
    generateMonths math r1 fuel L monthlyReturns monthlyVol n pos
      = generateMonths math r2 fuel L monthlyReturns monthlyVol n pos := by
  induction n with
  | zero => rfl
  | succ n ih =>
    simp only [generateMonths]
    rw [ih]
    apply bind_congr_ok
    intro prev hprev
    have hle := generateMonths_pos_le math r2 fuel L monthlyReturns monthlyVol n pos prev hprev
    rw [drawReturns_congr math r1 r2 fuel monthlyVol monthlyReturns 0 prev.2
      (fun j hj => h j (le_trans hle hj))]

theorem generateSimulations_pos_le (math : JsMath K) (random : Nat → K) (fuel : Nat)
    (L : List (List K)) (monthlyReturns monthlyVol : List K) (months n pos : Nat)
    (res : List (List (List K)) × Nat)
    (h : generateSimulations math random fuel L monthlyReturns monthlyVol months n pos
      = .ok res) :
    pos ≤ res.2 := by
  induction n generalizing res with
  | zero =>
    simp only [generateSimulations, Except.ok.injEq] at h
    subst h
    exact le_refl pos
  | succ n ih =>
    simp only [generateSimulations, bind_eq_ok] at h
    obtain ⟨prev, hprev, row, hrow, hres⟩ := h
    simp only [pure, Except.pure, Except.ok.injEq] at hres
    subst hres
    exact le_trans (ih prev hprev)
      (generateMonths_pos_le math random fuel L monthlyReturns monthlyVol months prev.2 row
        hrow)

theorem generateSimulations_congr (math : JsMath K) (r1 r2 : Nat → K) (fuel : Nat)
    (L : List (List K)) (monthlyReturns monthlyVol : List K) (months n pos : Nat)
    (h : ∀ j, pos ≤ j → r1 j = r2 j) :
    generateSimulations math r1 fuel L monthlyReturns monthlyVol months n pos
      = generateSimulations math r2 fuel L monthlyReturns monthlyVol months n pos := by
  induction n with
  | zero => rfl
  | succ n ih =>
    simp only [generateSimulations]
    rw [ih]
    apply bind_congr_ok
    intro prev hprev
    have hle := generateSimulations_pos_le math r2 fuel L monthlyReturns monthlyVol months n
      pos prev hprev
    rw [generateMonths_congr math r1 r2 fuel L monthlyReturns monthlyVol months prev.2
      (fun j hj => h j (le_trans hle hj))]

theorem generateCorrelatedReturns_congr (math : JsMath K) (env : SimulationEnv K)
    (expectedReturns volatility : List (String × K)) (correlationMatrix : List (List K))
    (months numSimulations : Nat) (r1 r2 : Nat → K) (fuel pos : Nat)
    (h : ∀ j, pos ≤ j → r1 j = r2 j) :
    generateCorrelatedReturns math env expectedReturns volatility correlationMatrix months
        numSimulations r1 fuel pos
      = generateCorrelatedReturns math env expectedReturns volatility correlationMatrix months
        numSimulations r2 fuel pos := by
  simp only [generateCorrelatedReturns]
  apply bind_congr_ok
  intro L _
  exact generateSimulations_congr math r1 r2 fuel L _ _ months numSimulations pos h

/-- C8, amended: `generateMonteCarloSimulation` has no seed parameter; its draws are the
values returned by the global `Math.random`. Two calls with identical arguments whose
calls of `Math.random` return the same sequence of values, from the call index `pos` at
which both start, give the same outcome: the same return table, paths, statistics and
number of draws, or the same failure. -/
theorem generateMonteCarloSimulation_congr (math : JsMath K) (env : SimulationEnv K)
    (args : SimulationArgs K) (r1 r2 : Nat → K) (fuel pos : Nat)
    (h : ∀ j, pos ≤ j → r1 j = r2 j) :
    generateMonteCarloSimulation math env args r1 fuel pos
      = generateMonteCarloSimulation math env args r2 fuel pos := by
  simp only [generateMonteCarloSimulation]
  rw [generateCorrelatedReturns_congr math env args.expectedReturns args.volatility
    args.correlationMatrix (args.years * 12) (resolveConfig args.config).numSimulations
    r1 r2 fuel pos h]


end MonteCarloTheorems

/-! ### Evaluations on the sample call -/

theorem sampleEnv_tradingCosts {K : Type} [LinearOrderedField K]
    (t : (sampleEnv : SimulationEnv K).Trades) :
    (sampleEnv : SimulationEnv K).calculateTradingCosts t = 0 :=
  rfl

theorem trialLoop_monthly_update_witness :
    ∃ st', trialLoop realMath sampleEnv (sampleArgs : SimulationArgs ℝ)
        (resolveConfig sampleArgs.config) [[[0]]] 0 1 = .ok st'
      ∧ st'.currentValue = 101000 := by
  obtain ⟨st', h1, h2⟩ := trialLoop_monthly_update realMath sampleEnv
    (sampleArgs : SimulationArgs ℝ) (resolveConfig sampleArgs.config) [[[0]]] 0 0
    (initialTrialState (sampleArgs : SimulationArgs ℝ).initialInvestment) (some [0]) rfl rfl
    (by simp [sampleArgs])
  refine ⟨st', h1, ?_⟩
  rw [h2]
  norm_num [rebalanceIfDue, rebalanceDue, rebalancePortfolio, sampleEnv, sampleArgs,
    resolveConfig, emptyConfig, realMath, initialTrialState]
  rfl

theorem trialLoop_rebalancing_witness :
    ∃ st', trialLoop realMath sampleEnv (sampleArgs : SimulationArgs ℝ)
        (resolveConfig sampleArgs.config) [[[0]]] 0 1 = .ok st'
      ∧ st'.pathMonthly = [{ month := 0, value := st'.currentValue, simulation := 0 }]
      ∧ st'.currentValue = 101000 := by
  obtain ⟨st', h1, h2, h3⟩ := trialLoop_rebalancing realMath sampleEnv
    (sampleArgs : SimulationArgs ℝ) (resolveConfig sampleArgs.config) [[[0]]] 0 0
    (initialTrialState (sampleArgs : SimulationArgs ℝ).initialInvestment) (some [0]) 0
    rfl rfl (by simp [calculatePortfolioReturn, weightedSum, sampleArgs])
  refine ⟨st', h1, h2, ?_⟩
  rw [h3]
  norm_num [monthlyUpdate, monthlyFees, sampleEnv, sampleArgs, resolveConfig, emptyConfig,
    realMath, initialTrialState]
  rfl

/-- C4, evaluated on the sample call: the first iteration of the month loop runs for
month `0` and applies the month's return `r`, the contribution of 1000, the fee and the
rebalancing cost to the initial investment of 100000 before it records anything, so the
record of month `0` and the snapshot of year `0` hold that updated value; with no return,
no fee and no trading cost they hold 101000, not 100000. -/
theorem trialLoop_month_zero_record (env : SimulationEnv ℝ) (r : ℝ) (rest : List (List ℝ)) :
    (trialLoop realMath env sampleArgs (resolveConfig sampleArgs.config) [[r] :: rest] 0 1).map
        (fun st => (st.pathMonthly.map (fun d => (d.month, d.value)),
          st.pathAnnual.map (fun d => (d.year, d.value))))
      = .ok
        ([(0, rebalancePortfolio env
            (100000 * (1 + r) + 1000 - env.calculateFees 100000 defaultFeeStructure)
            [("stocks", 1)] (some [r]))],
         [(0, rebalancePortfolio env
            (100000 * (1 + r) + 1000 - env.calculateFees 100000 defaultFeeStructure)
            [("stocks", 1)] (some [r]))])
    ∧ (trialLoop realMath sampleEnv (sampleArgs : SimulationArgs ℝ)
          (resolveConfig sampleArgs.config) [[[0]]] 0 1).map
        (fun st => (st.pathMonthly.map (fun d => (d.month, d.value)),
          st.pathAnnual.map (fun d => (d.year, d.value))))
      = .ok ([(0, 101000)], [(0, 101000)]) := by
  constructor
  · simp [trialLoop, simulateMonth, returnsAt, calculatePortfolioReturn, weightedSum,
      monthlyUpdate, monthlyFees, rebalanceIfDue, rebalanceDue, sampleArgs, resolveConfig,
      emptyConfig, realMath, initialTrialState, bind, Except.bind, pure, Except.pure,
      Except.map]
  · norm_num [trialLoop, simulateMonth, returnsAt, calculatePortfolioReturn, weightedSum,
      monthlyUpdate, monthlyFees, rebalanceIfDue, rebalanceDue, rebalancePortfolio,
      sampleArgs, sampleEnv, resolveConfig, emptyConfig, realMath, initialTrialState, bind,
      Except.bind, pure, Except.pure, Except.map]
    rfl


theorem trialLoop_mono_contribution_witness :
    ∃ st2, trialLoop realMath sampleEnv (contributionArgs (1 : ℝ))
        (resolveConfig (contributionArgs (0 : ℝ)).config) [[[0]]] 0 1 = .ok st2
      ∧ (0 : ℝ) ≤ st2.currentValue := by
  obtain ⟨st2, h2, hle⟩ := trialLoop_mono_contribution realMath sampleEnv
    (contributionArgs (0 : ℝ)) (resolveConfig (contributionArgs (0 : ℝ)).config) [[[0]]] 0 1
    (by norm_num [contributionArgs])
    (by intro m; norm_num [realMath, resolveConfig, contributionArgs, emptyConfig])
    (by
      intro m returns r hret hr v1 v2 hv
      have hr0 : r = 0 := by
        cases m with
        | zero =>
          simp only [returnsAt, List.getElem?_cons_zero, Except.ok.injEq] at hret
          subst hret
          simpa [calculatePortfolioReturn, weightedSum, contributionArgs] using hr.symm
        | succ m =>
          simp only [returnsAt, List.getElem?_cons_zero, List.getElem?_cons_succ,
            List.getElem?_nil, Except.ok.injEq] at hret
          subst hret
          simp [calculatePortfolioReturn, contributionArgs] at hr
      subst hr0
      simpa [monthlyFees, resolveConfig, contributionArgs, emptyConfig] using hv)
    (by
      intro returns v1 v2 hv
      simpa [rebalancePortfolio, sampleEnv] using hv)
    1 _
    (show trialLoop realMath sampleEnv (contributionArgs (0 : ℝ))
        (resolveConfig (contributionArgs (0 : ℝ)).config) [[[0]]] 0 1
        = .ok { pathMonthly := [{ month := 0, value := 0, simulation := 0 }]
                pathAnnual := [{ year := 0, value := 0, simulation := 0 }]
                currentValue := 0
                yearlyValue := 0 } by
      norm_num [trialLoop, simulateMonth, returnsAt, calculatePortfolioReturn, weightedSum,
        monthlyUpdate, monthlyFees, rebalanceIfDue, rebalanceDue, rebalancePortfolio,
        contributionArgs, sampleEnv_tradingCosts, resolveConfig, emptyConfig, realMath,
        initialTrialState, bind, Except.bind, pure, Except.pure])
  exact ⟨st2, h2, hle⟩

/-- C9 is false as stated: on the sample call with no fees and no trading costs, a return
of `-300%` in month `11` turns the larger contribution into the smaller value. With a
monthly contribution of `0` the value after the months `0, ..., 11` is `0`; with a
monthly contribution of `1` it is `-21`. -/
theorem trialLoop_not_monotone_in_contribution :
    (0 : ℝ) ≤ 1
      ∧ (trialLoop realMath sampleEnv (contributionArgs (0 : ℝ))
          (resolveConfig (contributionArgs (0 : ℝ)).config) [crashRow] 0 12).map
            (fun st => st.currentValue) = .ok 0
      ∧ (trialLoop realMath sampleEnv (contributionArgs (1 : ℝ))
          (resolveConfig (contributionArgs (1 : ℝ)).config) [crashRow] 0 12).map
            (fun st => st.currentValue) = .ok (-21) := by
  refine ⟨by norm_num, ?_, ?_⟩
  · norm_num [trialLoop, simulateMonth, returnsAt, calculatePortfolioReturn, weightedSum,
      monthlyUpdate, monthlyFees, rebalanceIfDue, rebalanceDue, rebalancePortfolio,
      contributionArgs, crashRow, sampleEnv_tradingCosts, resolveConfig, emptyConfig, realMath,
      initialTrialState, bind, Except.bind, pure, Except.pure, Except.map]
  · norm_num [trialLoop, simulateMonth, returnsAt, calculatePortfolioReturn, weightedSum,
      monthlyUpdate, monthlyFees, rebalanceIfDue, rebalanceDue, rebalancePortfolio,
      contributionArgs, crashRow, sampleEnv_tradingCosts, resolveConfig, emptyConfig, realMath,
      initialTrialState, bind, Except.bind, pure, Except.pure, Except.map]


theorem generateMonteCarloSimulation_congr_witness :
    (∀ j : Nat, 1 ≤ j → (fun i : Nat => if i = 0 then (0 : ℝ) else 1 / 2) j = 1 / 2)
      ∧ (generateMonteCarloSimulation realMath sampleEnv
          (emptyAllocationArgs : SimulationArgs ℝ) (fun _ => 1 / 2) 1 1).toBool = true
      ∧ generateMonteCarloSimulation realMath sampleEnv
          (emptyAllocationArgs : SimulationArgs ℝ) (fun i => if i = 0 then 0 else 1 / 2) 1 1
        = generateMonteCarloSimulation realMath sampleEnv
          (emptyAllocationArgs : SimulationArgs ℝ) (fun _ => 1 / 2) 1 1 := by
  have hagree : ∀ j : Nat, 1 ≤ j →
      (fun i : Nat => if i = 0 then (0 : ℝ) else 1 / 2) j = 1 / 2 := by
    intro j hj
    have hj0 : j ≠ 0 := by omega
    simp [hj0]
  refine ⟨hagree, ?_, generateMonteCarloSimulation_congr realMath sampleEnv
    emptyAllocationArgs _ _ 1 1 hagree⟩
  simp [generateMonteCarloSimulation, generateCorrelatedReturns, generateSimulations,
    generateMonths, drawReturns, generateRandomNormal, drawNonZero, mmulColumn,
    simulationLoop, simulateTrial, trialLoop, simulateMonth, returnsAt,
    calculatePortfolioReturn, weightedSum, emptyAllocationArgs, sampleArgs, sampleEnv,
    resolveConfig, emptyConfig, bind, Except.bind, pure, Except.pure, Except.toBool]

/-- C3, evaluated on a call that returns (the sample call with an empty allocation, one
simulation, one year): the returned object has the keys `monthlyData`, `annualData`,
`statistics` and `metadata`; reading `result.simulations` gives `undefined`, on this and
on every returned object, so there is no array of `n` simulations. The 13 records of the
single path are entries of the flat array `monthlyData`. -/
theorem MonteCarloResult.property_simulations {S : Type} (result : MonteCarloResult ℝ S) :
    result.property "simulations" = none
      ∧ (generateMonteCarloSimulation realMath sampleEnv
          (emptyAllocationArgs : SimulationArgs ℝ) (fun _ => 1 / 2) 1 0).map
            (fun res => ((res.1.property "simulations").isSome, res.1.monthlyData.length))
          = .ok (false, 13) := by
  constructor
  · simp [MonteCarloResult.property]
  · simp [generateMonteCarloSimulation, generateCorrelatedReturns, generateSimulations,
      generateMonths, drawReturns, generateRandomNormal, drawNonZero, mmulColumn,
      simulationLoop, simulateTrial, trialLoop, simulateMonth, returnsAt,
      calculatePortfolioReturn, weightedSum, emptyAllocationArgs, sampleArgs, sampleEnv,
      resolveConfig, emptyConfig, bind, Except.bind, pure, Except.pure, Except.map,
      MonteCarloResult.property, initialTrialState]

/-- C8 is false as stated: `generateCorrelatedReturns` takes no seed and reads the global
`Math.random`. With the same arguments (one asset, one month, one simulation) it returns
the table `[[[0]]]` when `Math.random` yields `1/4` at every call and a different table
when it yields `1/2`; and on the sample call the value that the simulation computes for
month `0` is `100000 * 1.08^(1/12) + 1000` under the first sequence of draws and a
different value under the second. -/
theorem generateCorrelatedReturns_depends_on_random :
    generateCorrelatedReturns realMath sampleEnv [("stocks", 0)] [("stocks", 1)] [[1]] 1 1
        (fun _ => 1 / 4) 1 0 = .ok ([[[0]]], 2)
      ∧ generateCorrelatedReturns realMath sampleEnv [("stocks", 0)] [("stocks", 1)] [[1]] 1 1
        (fun _ => 1 / 2) 1 0 ≠ .ok ([[[0]]], 2)
      ∧ monthZeroValue realMath sampleEnv (fun _ => 1 / 4) 1
        = .ok (100000 * (1 + 8 / 100) ^ ((1 : ℝ) / 12) + 1000)
      ∧ monthZeroValue realMath sampleEnv (fun _ => 1 / 2) 1
        ≠ .ok (100000 * (1 + 8 / 100) ^ ((1 : ℝ) / 12) + 1000) := by
  have hcos4 : Real.cos (2 * Real.pi * 4⁻¹) = 0 := by
    rw [show (2 : ℝ) * Real.pi * 4⁻¹ = Real.pi / 2 by ring]
    exact Real.cos_pi_div_two
  have hcos2 : Real.cos (2 * Real.pi * 2⁻¹) = -1 := by
    rw [show (2 : ℝ) * Real.pi * 2⁻¹ = Real.pi by ring]
    exact Real.cos_pi
  have hlog : Real.sqrt (Real.log 2) ≠ 0 :=
    Real.sqrt_ne_zero'.mpr (Real.log_pos (by norm_num))
  refine ⟨?_, ?_, ?_, ?_⟩
  · simp [generateCorrelatedReturns, generateSimulations, generateMonths, drawReturns,
      generateRandomNormal, drawNonZero, mmulColumn, annualToMonthlyReturn,
      annualToMonthlyVolatility, realMath, sampleEnv, bind, Except.bind, pure, Except.pure,
      hcos4]
  · simp [generateCorrelatedReturns, generateSimulations, generateMonths, drawReturns,
      generateRandomNormal, drawNonZero, mmulColumn, annualToMonthlyReturn,
      annualToMonthlyVolatility, realMath, sampleEnv, bind, Except.bind, pure, Except.pure,
      hcos2, hlog]
  · simp [monthZeroValue, generateCorrelatedReturns, generateSimulations, generateMonths,
      drawReturns, generateRandomNormal, drawNonZero, mmulColumn, annualToMonthlyReturn,
      annualToMonthlyVolatility, realMath, sampleEnv, sampleArgs, resolveConfig, emptyConfig,
      bind, Except.bind, pure, Except.pure, hcos4, trialLoop, simulateMonth, returnsAt,
      calculatePortfolioReturn, weightedSum, monthlyUpdate, monthlyFees, rebalanceIfDue,
      rebalanceDue, rebalancePortfolio, initialTrialState]
  · simp [monthZeroValue, generateCorrelatedReturns, generateSimulations, generateMonths,
      drawReturns, generateRandomNormal, drawNonZero, mmulColumn, annualToMonthlyReturn,
      annualToMonthlyVolatility, realMath, sampleEnv, sampleArgs, resolveConfig, emptyConfig,
      bind, Except.bind, pure, Except.pure, hcos2, hlog, trialLoop, simulateMonth, returnsAt,
      calculatePortfolioReturn, weightedSum, monthlyUpdate, monthlyFees, rebalanceIfDue,
      rebalanceDue, rebalancePortfolio, initialTrialState]
    intro h
    have h12 : Real.sqrt 12 ≠ 0 := Real.sqrt_ne_zero'.mpr (by norm_num)
    have h2 : Real.sqrt 2 ≠ 0 := Real.sqrt_ne_zero'.mpr (by norm_num)
    have hne : (18 : ℝ) / 100 / Real.sqrt 12 * (Real.sqrt 2 * Real.sqrt (Real.log 2)) ≠ 0 :=
      mul_ne_zero (div_ne_zero (by norm_num) h12) (mul_ne_zero h2 hlog)
    exact hne (by linarith)

/-! ### Annual and monthly parameters -/

theorem rat_mul_self_ne_natCast (n k : ℕ) (h1 : k * k < n) (h2 : n < (k + 1) * (k + 1))
    (x : ℚ) : x * x ≠ (n : ℚ) := by
  intro h
  have hsq : IsSquare (n : ℚ) := ⟨x, h.symm⟩
  rw [Rat.isSquare_natCast_iff] at hsq
  obtain ⟨r, hr⟩ := hsq
  rw [hr] at h1 h2
  have hlt : k < r := lt_of_mul_self_lt_mul_self₀ (Nat.zero_le r) h1
  have hlt2 : r < k + 1 := lt_of_mul_self_lt_mul_self₀ (Nat.zero_le (k + 1)) h2
  omega

/-- C10 is false as stated for the numbers of the program. A binary64 number is a
rational number, and whatever rational values `Math.pow` and `Math.sqrt` return, the
round trip is not exact: no rational `m` has `(1 + m)^12 = 1.08`, neither for the
decimal `0.08` nor for the binary64 number nearest to it, because `27`, and
`2^56 + 5764607523034235` are not squares; and no rational `r` has `r^2 = 12`, so
`12 * (s / r)^2` is not `s^2` for any `s ≠ 0`. -/
theorem annualToMonthly_round_trip_not_exact :
    (∀ math : JsMath ℚ, (1 + annualToMonthlyReturn math (8 / 100)) ^ 12 ≠ 1 + 8 / 100)
      ∧ (∀ math : JsMath ℚ,
          (1 + annualToMonthlyReturn math (5764607523034235 / 2 ^ 56)) ^ 12
            ≠ 1 + 5764607523034235 / 2 ^ 56)
      ∧ (∀ (math : JsMath ℚ) (s : ℚ), s ≠ 0 →
          12 * (annualToMonthlyVolatility math s) ^ 2 ≠ s ^ 2) := by
  refine ⟨?_, ?_, ?_⟩
  · intro math h
    apply rat_mul_self_ne_natCast 27 5 (by norm_num) (by norm_num)
      (5 * (1 + annualToMonthlyReturn math (8 / 100)) ^ 6)
    have h2 : (5 * (1 + annualToMonthlyReturn math (8 / 100)) ^ 6)
        * (5 * (1 + annualToMonthlyReturn math (8 / 100)) ^ 6)
        = 25 * (1 + annualToMonthlyReturn math (8 / 100)) ^ 12 := by ring
    rw [h2, h]
    norm_num
  · intro math h
    apply rat_mul_self_ne_natCast 77822201560962171 278966309 (by norm_num) (by norm_num)
      (2 ^ 28 * (1 + annualToMonthlyReturn math (5764607523034235 / 2 ^ 56)) ^ 6)
    have h2 : (2 ^ 28 * (1 + annualToMonthlyReturn math (5764607523034235 / 2 ^ 56)) ^ 6)
        * (2 ^ 28 * (1 + annualToMonthlyReturn math (5764607523034235 / 2 ^ 56)) ^ 6)
        = 2 ^ 56 * (1 + annualToMonthlyReturn math (5764607523034235 / 2 ^ 56)) ^ 12 := by
      ring
    rw [h2, h]
    norm_num
  · intro math s hs h
    by_cases hr : math.sqrt 12 = 0
    · simp only [annualToMonthlyVolatility, hr, div_zero] at h
      have : s ^ 2 = 0 := by rw [← h]; ring
      exact hs (pow_eq_zero_iff (by norm_num) |>.mp this)
    · apply rat_mul_self_ne_natCast 12 3 (by norm_num) (by norm_num) (math.sqrt 12)
      simp only [annualToMonthlyVolatility, div_pow] at h
      have hs2 : s ^ 2 ≠ 0 := pow_ne_zero 2 hs
      have hr2 : (math.sqrt 12) ^ 2 ≠ 0 := pow_ne_zero 2 hr
      field_simp at h
      have h3 : s ^ 2 * (12 - math.sqrt 12 * math.sqrt 12) = 0 := by linear_combination h
      rcases mul_eq_zero.mp h3 with h4 | h4
      · exact absurd h4 hs2
      · push_cast
        linarith

/-- C10, up to rounding: `generateCorrelatedReturns` draws its returns with the monthly
means `Math.pow(1 + a, 1/12) - 1` and the monthly volatilities `s / Math.sqrt(12)`. When
the computed twelfth root and the computed square root of 12 have a relative error of at
most `δ < 1`, then `(1 + m)^12` lies between `(1 + a) (1 - δ)^12` and
`(1 + a) (1 + δ)^12` and `12 v^2` lies between `s^2 / (1 + δ)^2` and `s^2 / (1 - δ)^2`;
for exact functions (`δ = 0`) these are the round trips `(1 + m)^12 = 1 + a` and
`12 v^2 = s^2`. -/
theorem annualToMonthly_round_trip_within (math : JsMath ℝ) (a s δ : ℝ) (ha : -1 < a)
    (hδ0 : 0 ≤ δ) (hδ1 : δ < 1)
    (hpow : |math.pow (1 + a) (1 / 12) - (1 + a) ^ ((1 : ℝ) / 12)|
      ≤ δ * (1 + a) ^ ((1 : ℝ) / 12))
    (hsqrt : |math.sqrt 12 - Real.sqrt 12| ≤ δ * Real.sqrt 12) :
    (∀ (env : SimulationEnv ℝ) (expectedReturns volatility : List (String × ℝ))
        (correlationMatrix : List (List ℝ)) (months numSimulations : Nat)
        (random : Nat → ℝ) (fuel pos : Nat),
        generateCorrelatedReturns math env expectedReturns volatility correlationMatrix
            months numSimulations random fuel pos
          = (env.cholesky correlationMatrix >>= fun L =>
              generateSimulations math random fuel L
                (expectedReturns.map (fun p => math.pow (1 + p.2) (1 / 12) - 1))
                (volatility.map (fun p => p.2 / math.sqrt 12)) months numSimulations pos))
      ∧ (1 + a) * (1 - δ) ^ 12 ≤ (1 + annualToMonthlyReturn math a) ^ 12
      ∧ (1 + annualToMonthlyReturn math a) ^ 12 ≤ (1 + a) * (1 + δ) ^ 12
      ∧ s ^ 2 / (1 + δ) ^ 2 ≤ 12 * (annualToMonthlyVolatility math s) ^ 2
      ∧ 12 * (annualToMonthlyVolatility math s) ^ 2 ≤ s ^ 2 / (1 - δ) ^ 2
      ∧ (δ = 0 → (1 + annualToMonthlyReturn math a) ^ 12 = 1 + a
          ∧ 12 * (annualToMonthlyVolatility math s) ^ 2 = s ^ 2) := by
  have hbase : (0 : ℝ) < 1 + a := by linarith
  have hx0 : 0 < (1 + a) ^ ((1 : ℝ) / 12) := Real.rpow_pos_of_pos hbase _
  have hx12 : ((1 + a) ^ ((1 : ℝ) / 12)) ^ 12 = 1 + a := by
    rw [← Real.rpow_natCast, ← Real.rpow_mul hbase.le]
    norm_num
  have hp := abs_le.mp hpow
  have hp1 : (1 - δ) * (1 + a) ^ ((1 : ℝ) / 12) ≤ math.pow (1 + a) (1 / 12) := by linarith
  have hp2 : math.pow (1 + a) (1 / 12) ≤ (1 + δ) * (1 + a) ^ ((1 : ℝ) / 12) := by linarith
  have hlow0 : 0 ≤ (1 - δ) * (1 + a) ^ ((1 : ℝ) / 12) :=
    mul_nonneg (by linarith) hx0.le
  have hR0 : 0 < Real.sqrt 12 := Real.sqrt_pos.mpr (by norm_num)
  have hR2 : Real.sqrt 12 ^ 2 = 12 := Real.sq_sqrt (by norm_num)
  have hr := abs_le.mp hsqrt
  have hr1 : (1 - δ) * Real.sqrt 12 ≤ math.sqrt 12 := by linarith
  have hr2 : math.sqrt 12 ≤ (1 + δ) * Real.sqrt 12 := by linarith
  have hrlow : 0 < (1 - δ) * Real.sqrt 12 := mul_pos (by linarith) hR0
  have hrpos : 0 < math.sqrt 12 := lt_of_lt_of_le hrlow hr1
  have hsq_le : math.sqrt 12 ^ 2 ≤ (1 + δ) ^ 2 * 12 := by
    have h := pow_le_pow_left₀ hrpos.le hr2 2
    rwa [mul_pow, hR2] at h
  have hsq_ge : (1 - δ) ^ 2 * 12 ≤ math.sqrt 12 ^ 2 := by
    have h := pow_le_pow_left₀ hrlow.le hr1 2
    rwa [mul_pow, hR2] at h
  have hfactor : 1 + annualToMonthlyReturn math a = math.pow (1 + a) (1 / 12) := by
    simp only [annualToMonthlyReturn]
    ring
  have hvol : 12 * (annualToMonthlyVolatility math s) ^ 2 = 12 * s ^ 2 / math.sqrt 12 ^ 2 := by
    simp only [annualToMonthlyVolatility, div_pow]
    ring
  have hb1 : (1 + a) * (1 - δ) ^ 12 ≤ (1 + annualToMonthlyReturn math a) ^ 12 := by
    rw [hfactor]
    have h := pow_le_pow_left₀ hlow0 hp1 12
    rw [mul_pow, hx12] at h
    linarith
  have hb2 : (1 + annualToMonthlyReturn math a) ^ 12 ≤ (1 + a) * (1 + δ) ^ 12 := by
    rw [hfactor]
    have h := pow_le_pow_left₀ (le_trans hlow0 hp1) hp2 12
    rw [mul_pow, hx12] at h
    linarith
  have hr2pos : 0 < math.sqrt 12 ^ 2 := pow_pos hrpos 2
  have hb3 : s ^ 2 / (1 + δ) ^ 2 ≤ 12 * (annualToMonthlyVolatility math s) ^ 2 := by
    have hpos : 0 < (1 + δ) ^ 2 := pow_pos (by linarith) 2
    have h := mul_le_mul_of_nonneg_left hsq_le (sq_nonneg s)
    rw [hvol, div_le_div_iff₀ hpos hr2pos]
    linarith
  have hb4 : 12 * (annualToMonthlyVolatility math s) ^ 2 ≤ s ^ 2 / (1 - δ) ^ 2 := by
    have hpos : 0 < (1 - δ) ^ 2 := pow_pos (by linarith) 2
    have h := mul_le_mul_of_nonneg_left hsq_ge (sq_nonneg s)
    rw [hvol, div_le_div_iff₀ hr2pos hpos]
    linarith
  refine ⟨?_, hb1, hb2, hb3, hb4, ?_⟩
  · intro env expectedReturns volatility correlationMatrix months numSimulations random
      fuel pos
    rfl
  · intro hzero
    subst hzero
    constructor
    · apply le_antisymm
      · simpa using hb2
      · simpa using hb1
    · apply le_antisymm
      · simpa using hb4
      · simpa using hb3

theorem annualToMonthly_round_trip_within_witness :
    (1 + annualToMonthlyReturn realMath (8 / 100)) ^ 12 = 1 + 8 / 100
      ∧ 12 * (annualToMonthlyVolatility realMath (18 / 100)) ^ 2 = (18 / 100 : ℝ) ^ 2 :=
  (annualToMonthly_round_trip_within realMath (8 / 100) (18 / 100) 0 (by norm_num)
    (le_refl 0) (by norm_num) (by simp [realMath]) (by simp [realMath])).2.2.2.2.2 rfl


/-! ### Correlated returns and success rate -/

/-- C11, evaluated on two assets with correlation `0.6`, one month and one simulation,
when every normal draw is zero (`Math.random` yields `1/4`, so the cosine of the
Box-Muller transform vanishes): the generated vector is `L` applied to the vector of the
monthly means, `[m0, 3/5 * m0 + 4/5 * m1]`, because the code multiplies `L` with
`mean + vol * z` and not with `z`. With annual expected returns of 8% and 0% the second
asset's return is `3/5 * m0`, which is not its monthly mean `0`. -/
theorem generateCorrelatedReturns_zero_draws (a0 a1 v0 v1 : ℝ) :
    generateCorrelatedReturns realMath twoAssetEnv [("stocks", a0), ("cash", a1)]
        [("stocks", v0), ("cash", v1)] sampleCorrelation 1 1 (fun _ => 1 / 4) 1 0
      = .ok ([[[annualToMonthlyReturn realMath a0,
            3 / 5 * annualToMonthlyReturn realMath a0
              + 4 / 5 * annualToMonthlyReturn realMath a1]]], 4)
    ∧ annualToMonthlyReturn realMath 0 = 0
    ∧ 3 / 5 * annualToMonthlyReturn realMath (8 / 100)
        + 4 / 5 * annualToMonthlyReturn realMath 0 ≠ annualToMonthlyReturn realMath 0 := by
  have hcos4 : Real.cos (2 * Real.pi * 4⁻¹) = 0 := by
    rw [show (2 : ℝ) * Real.pi * 4⁻¹ = Real.pi / 2 by ring]
    exact Real.cos_pi_div_two
  have hzero : annualToMonthlyReturn realMath 0 = 0 := by
    simp [annualToMonthlyReturn, realMath]
  have hpos : 0 < annualToMonthlyReturn realMath (8 / 100) := by
    have h := Real.one_lt_rpow (show (1 : ℝ) < 1 + 8 / 100 by norm_num)
      (show (0 : ℝ) < 1 / 12 by norm_num)
    simp only [annualToMonthlyReturn, realMath]
    linarith
  refine ⟨?_, hzero, ?_⟩
  · simp [generateCorrelatedReturns, generateSimulations, generateMonths, drawReturns,
      generateRandomNormal, drawNonZero, mmulColumn, twoAssetEnv, sampleCholeskyFactor,
      bind, Except.bind, pure, Except.pure, realMath, hcos4]
  · rw [hzero]
    intro h
    linarith

/-- C12: for a non-empty list of outcome values and targets `t1 ≤ t2`, both success
rates are numbers and the rate for the lower target `t1` is at least the rate for `t2`. -/
theorem calculateSuccessRate_antitone {K : Type} [LinearOrderedField K]
    (values : List (AnnualRecord K)) (t1 t2 : K) (hne : values ≠ []) (ht : t1 ≤ t2) :
    ∃ r1 r2, calculateSuccessRate values (some t1) = some r1
      ∧ calculateSuccessRate values (some t2) = some r2
      ∧ r2 ≤ r1 := by
  have hlen : values.length ≠ 0 := fun h => hne (List.eq_nil_of_length_eq_zero h)
  have hpos : (0 : K) < (values.length : K) := by
    exact_mod_cast Nat.pos_of_ne_zero hlen
  refine ⟨((values.filter (fun v => decide (t1 ≤ v.value))).length : K)
      / (values.length : K) * 100,
    ((values.filter (fun v => decide (t2 ≤ v.value))).length : K)
      / (values.length : K) * 100,
    by simp [calculateSuccessRate, hlen], by simp [calculateSuccessRate, hlen], ?_⟩
  have hsub : (values.filter (fun v => decide (t2 ≤ v.value))).length
      ≤ (values.filter (fun v => decide (t1 ≤ v.value))).length := by
    apply List.Sublist.length_le
    apply List.monotone_filter_right
    intro v hv
    simp only [decide_eq_true_eq] at hv ⊢
    exact le_trans ht hv
  have hcast : ((values.filter (fun v => decide (t2 ≤ v.value))).length : K)
      ≤ ((values.filter (fun v => decide (t1 ≤ v.value))).length : K) := by
    exact_mod_cast hsub
  have hdiv := div_le_div_of_nonneg_right hcast (le_of_lt hpos)
  linarith

theorem calculateSuccessRate_antitone_witness :
    ∃ r1 r2, calculateSuccessRate
        [({ year := 1, value := 120, simulation := 0 } : AnnualRecord ℚ),
         { year := 1, value := 80, simulation := 1 }] (some 50) = some r1
      ∧ calculateSuccessRate
        [({ year := 1, value := 120, simulation := 0 } : AnnualRecord ℚ),
         { year := 1, value := 80, simulation := 1 }] (some 100) = some r2
      ∧ r2 ≤ r1 :=
  calculateSuccessRate_antitone _ 50 100 (by simp) (by norm_num)


/-! ### Empty samples -/

/-- C16, amended: `calculateSuccessRate` applied to an empty list of values does not
raise, it returns `NaN` (the quotient `0 / 0` times 100); and a call of
`generateMonteCarloSimulation` with `numSimulations = 0` whose Cholesky factorisation
succeeds returns an object with empty `monthlyData` and `annualData` and the success
rate `NaN`, without consuming a random draw. -/
theorem generateMonteCarloSimulation_no_simulations {K : Type} [LinearOrderedField K]
    (math : JsMath K) (env : SimulationEnv K) (args : SimulationArgs K) (random : Nat → K)
    (fuel pos : Nat) (L : List (List K))
    (hsims : (resolveConfig args.config).numSimulations = 0)
    (hL : env.cholesky args.correlationMatrix = .ok L) :
    (∀ t : Option K, calculateSuccessRate ([] : List (AnnualRecord K)) t = none)
      ∧ ∃ res, generateMonteCarloSimulation math env args random fuel pos = .ok (res, pos)
          ∧ res.monthlyData = [] ∧ res.annualData = []
          ∧ res.statistics.overall.successRate = none := by
  refine ⟨fun t => by simp [calculateSuccessRate], ?_⟩
  simp [generateMonteCarloSimulation, generateCorrelatedReturns, hL, hsims,
    generateSimulations, simulationLoop, calculateSimulationStatistics, calculateSuccessRate,
    bind, Except.bind, pure, Except.pure]

theorem generateMonteCarloSimulation_no_simulations_witness :
    ∃ res, generateMonteCarloSimulation realMath sampleEnv (noSimulationArgs : SimulationArgs ℝ)
        (fun _ => 1 / 2) 1 0 = .ok (res, 0)
      ∧ res.monthlyData = [] ∧ res.annualData = []
      ∧ res.statistics.overall.successRate = none :=
  (generateMonteCarloSimulation_no_simulations realMath sampleEnv noSimulationArgs
    (fun _ => 1 / 2) 1 0 [[1]] rfl rfl).2

/-- C16 is false as stated: on the empty list `calculateSuccessRate` yields `NaN` and
raises nothing, and the sample call with `numSimulations: 0` returns an object whose
`monthlyData` is empty and whose overall success rate is `NaN`. -/
theorem calculateSuccessRate_empty_returns :
    calculateSuccessRate ([] : List (AnnualRecord ℝ)) (some 100000) = none
      ∧ (generateMonteCarloSimulation realMath sampleEnv (noSimulationArgs : SimulationArgs ℝ)
          (fun _ => 1 / 2) 1 0).map
            (fun res => (res.1.monthlyData.length, res.1.statistics.overall.successRate))
          = .ok (0, none) := by
  constructor
  · simp [calculateSuccessRate]
  · simp [generateMonteCarloSimulation, generateCorrelatedReturns, generateSimulations,
      simulationLoop, calculateSimulationStatistics, calculateSuccessRate, noSimulationArgs,
      sampleArgs, sampleEnv, resolveConfig, emptyConfig, bind, Except.bind, pure,
      Except.pure, Except.map]


/-! ### Efficient frontier -/

theorem calculateOptimalPortfolio_error_of_undefined_views (env : OptimizerEnv)
    (assets constraints riskTolerance : JsValue) :
    ∃ e, calculateOptimalPortfolio env
        { assets := assets
          constraints := constraints
          marketViews := JsValue.undefined
          riskTolerance := riskTolerance
          options := none } = .error e := by
  simp only [calculateOptimalPortfolio]
  apply bind_error_right
  intro returns
  apply bind_error_right
  intro covariance
  apply bind_error_right
  intro viewsMatrix
  apply bind_error_left
  have htruthy : defaultOptions.useBlackLitterman.truthy = true := rfl
  simp only [blendViews, Option.getD_none, htruthy, if_true]
  apply bind_error_right
  intro marketCap
  apply bind_error_left
  simp only [applyBlackLitterman]
  apply bind_error_right
  intro equilibriumReturns
  apply bind_error_right
  intro P
  exact ⟨JsError.typeError, rfl⟩

/-- C17, evaluated for every asset list, constraints object and positive number of
points (also the default of 50): `calculateEfficientFrontier` returns no point. Its call
of `calculateOptimalPortfolio` passes `assets` and `constraints` only, the default options
enable the Black-Litterman step, and `applyBlackLitterman` calls `marketViews.map` on
`undefined`, so the first iteration ends in an exception. -/
theorem calculateEfficientFrontier_throws (env : OptimizerEnv) (assets constraints : JsValue)
    (n : Nat) :
    (∃ e, calculateEfficientFrontier env assets constraints (some (n + 1)) = .error e)
      ∧ (∃ e, calculateEfficientFrontier env assets constraints none = .error e)
      ∧ ∀ t : ℚ, ∃ e,
          calculateOptimalPortfolio env (frontierArgs assets constraints t) = .error e := by
  have hcall : ∀ t : ℚ, ∃ e,
      calculateOptimalPortfolio env (frontierArgs assets constraints t) = .error e :=
    fun t => calculateOptimalPortfolio_error_of_undefined_views env assets _ _
  have hloop : ∀ (lo step : Option ℚ) (k : Nat),
      ∃ e, frontierLoop env assets constraints lo step (k + 1) = .error e := by
    intro lo step k
    simp only [frontierLoop]
    apply bind_error_right
    intro points
    cases frontierTarget lo step k with
    | none => exact ⟨JsError.notANumber, rfl⟩
    | some t =>
      apply bind_error_right
      intro target
      exact bind_error_left _ _ (hcall target)
  refine ⟨?_, ?_, hcall⟩
  · simp only [calculateEfficientFrontier, Option.getD_some]
    apply bind_error_right
    intro returns
    exact hloop _ _ n
  · simp only [calculateEfficientFrontier, Option.getD_none]
    apply bind_error_right
    intro returns
    exact hloop _ _ 49

theorem lastProperty_setProperty_other (o : JsFields) (key other : String) (v : JsValue)
    (h : key ≠ other) :
    lastProperty (setProperty o key v) other = lastProperty o other := by
  induction o with
  | nil => simp [setProperty, lastProperty, h]
  | cons p rest ih =>
    obtain ⟨k, w⟩ := p
    by_cases hk : k = key
    · subst hk
      simp [setProperty, lastProperty, h]
    · simp [setProperty, lastProperty, hk, ih]

theorem getProperty_foldl_setProperty (fields acc : JsFields) (key : String) :
    getProperty (fields.foldl (fun o p => setProperty o p.1 p.2) acc) key
      = (lastProperty fields key).getD (getProperty acc key) := by
  induction fields generalizing acc with
  | nil => simp [lastProperty]
  | cons p rest ih =>
    obtain ⟨k, w⟩ := p
    simp only [List.foldl_cons, ih, lastProperty]
    cases hlast : lastProperty rest key with
    | some x => simp
    | none =>
      by_cases hk : k = key
      · subst hk
        simp [getProperty_setProperty_same]
      · simp [hk, getProperty_setProperty_other _ _ _ _ hk]

theorem getProperty_frontierConstraints (constraints : JsValue) (t1 t2 : ℚ) (key : String)
    (h : "targetReturn" ≠ key) :
    getProperty (spreadInto [] (frontierConstraints constraints t1)) key
      = getProperty (spreadInto [] (frontierConstraints constraints t2)) key := by
  simp only [spreadInto, frontierConstraints, ownProperties, getProperty_foldl_setProperty,
    lastProperty_setProperty_other _ _ _ _ h]

theorem getProperty_constraintArgument (constraints riskTolerance : JsValue)
    (options : OptimizationOptions) (key : String) (h1 : "riskTolerance" ≠ key)
    (h2 : "useCVaR" ≠ key) :
    getProperty (constraintArgument constraints riskTolerance options) key
      = getProperty (spreadInto [] constraints) key := by
  unfold constraintArgument
  rw [getProperty_setProperty_other _ _ _ _ h2, getProperty_setProperty_other _ _ _ _ h1]

theorem getProperty_constraintArgument_riskTolerance (constraints riskTolerance : JsValue)
    (options : OptimizationOptions) :
    getProperty (constraintArgument constraints riskTolerance options) "riskTolerance"
      = riskTolerance := by
  unfold constraintArgument
  rw [getProperty_setProperty_other _ _ _ _ (by decide), getProperty_setProperty_same]

theorem getProperty_constraintArgument_useCVaR (constraints riskTolerance : JsValue)
    (options : OptimizationOptions) :
    getProperty (constraintArgument constraints riskTolerance options) "useCVaR"
      = options.useCVaR := by
  unfold constraintArgument
  rw [getProperty_setProperty_same]

/-- C18, evaluated for every pair of target returns `t1`, `t2`: the constraint set that
`constructConstraints` builds from `{ ...constraints, targetReturn: t1 }` is the one it
builds from `{ ...constraints, targetReturn: t2 }`. `constructConstraints` does not read
`targetReturn`, so the constraint set of a frontier point does not contain its target
return, all points are solved under one constraint set, and the calls of
`calculateOptimalPortfolio` for two target returns have the same outcome. -/
theorem constructConstraints_ignores_targetReturn (env : OptimizerEnv)
    (assets constraints riskTolerance : JsValue) (options : OptimizationOptions)
    (t1 t2 : ℚ) :
    constructConstraints env
        (constraintArgument (frontierConstraints constraints t1) riskTolerance options)
      = constructConstraints env
        (constraintArgument (frontierConstraints constraints t2) riskTolerance options)
    ∧ calculateOptimalPortfolio env (frontierArgs assets constraints t1)
      = calculateOptimalPortfolio env (frontierArgs assets constraints t2) := by
  have hset : ∀ (r : JsValue) (o : OptimizationOptions),
      constructConstraints env (constraintArgument (frontierConstraints constraints t1) r o)
        = constructConstraints env
          (constraintArgument (frontierConstraints constraints t2) r o) := by
    intro r o
    simp only [constructConstraints, getProperty_constraintArgument_riskTolerance,
      getProperty_constraintArgument_useCVaR,
      getProperty_constraintArgument _ _ _ "minWeights" (by decide) (by decide),
      getProperty_constraintArgument _ _ _ "maxWeights" (by decide) (by decide),
      getProperty_constraintArgument _ _ _ "sectorConstraints" (by decide) (by decide),
      getProperty_frontierConstraints constraints t1 t2 "minWeights" (by decide),
      getProperty_frontierConstraints constraints t1 t2 "maxWeights" (by decide),
      getProperty_frontierConstraints constraints t1 t2 "sectorConstraints" (by decide)]
  refine ⟨hset riskTolerance options, ?_⟩
  simp only [calculateOptimalPortfolio, blendViews, frontierArgs, hset]

/-! ## Maximum drawdown of the simulation hook -/

namespace UseMonteCarloSimulation

section

variable {K : Type} [LinearOrderedField K]

theorem foldl_drawdownStep_bounds (values : List K) (peak d : K) (hpeak : 0 < peak)
    (hd0 : 0 ≤ d) (hd1 : d ≤ 1) (hvalues : ∀ v ∈ values, 0 ≤ v) :
    ∃ P D, values.foldl drawdownStep (peak, some d) = (P, some D)
      ∧ 0 < P ∧ 0 ≤ D ∧ D ≤ 1 := by
  induction values generalizing peak d with
  | nil => exact ⟨peak, d, rfl, hpeak, hd0, hd1⟩
  | cons x rest ih =>
    have hx : 0 ≤ x := hvalues x (List.mem_cons_self x rest)
    have hrest : ∀ v ∈ rest, 0 ≤ v := fun v hv => hvalues v (List.mem_cons_of_mem x hv)
    by_cases hlt : peak < x
    · have hxpos : 0 < x := lt_trans hpeak hlt
      have hstep : drawdownStep (peak, some d) x = (x, some (max d ((x - x) / x))) := by
        simp [drawdownStep, hlt, quotient, ne_of_gt hxpos, mathMax]
      rw [List.foldl_cons, hstep]
      apply ih x _ hxpos (le_trans hd0 (le_max_left _ _)) _ hrest
      simp [hd1]
    · have hle : x ≤ peak := not_lt.mp hlt
      have hstep : drawdownStep (peak, some d) x
          = (peak, some (max d ((peak - x) / peak))) := by
        simp [drawdownStep, hlt, quotient, ne_of_gt hpeak, mathMax]
      rw [List.foldl_cons, hstep]
      apply ih peak _ hpeak (le_trans hd0 (le_max_left _ _)) _ hrest
      apply max_le hd1
      rw [div_le_one hpeak]
      linarith

theorem maxDrawdownForSim_bounds (values : List K) (hvalues : ∀ v ∈ values, 0 ≤ v)
    (hfirst : ∀ v, values.head? = some v → 0 < v) :
    ∃ D, maxDrawdownForSim values = some D ∧ 0 ≤ D ∧ D ≤ 1 := by
  cases values with
  | nil => exact ⟨0, rfl, le_refl 0, zero_le_one⟩
  | cons first rest =>
    obtain ⟨P, D, hfold, _, h0, h1⟩ := foldl_drawdownStep_bounds (first :: rest) first 0
      (hfirst first rfl) (le_refl 0) zero_le_one hvalues
    exact ⟨D, by simp [maxDrawdownForSim, hfold], h0, h1⟩

theorem foldl_mathMax_bounds (simulations : List (List K)) (acc : K) (h0 : 0 ≤ acc)
    (h1 : acc ≤ 1)
    (hsims : ∀ sim ∈ simulations, ∃ D, maxDrawdownForSim sim = some D ∧ 0 ≤ D ∧ D ≤ 1) :
    ∃ D, simulations.foldl (fun maxDD sim => mathMax maxDD (maxDrawdownForSim sim)) (some acc)
        = some D ∧ 0 ≤ D ∧ D ≤ 1 := by
  induction simulations generalizing acc with
  | nil => exact ⟨acc, rfl, h0, h1⟩
  | cons sim rest ih =>
    obtain ⟨d, hd, hd0, hd1⟩ := hsims sim (List.mem_cons_self sim rest)
    rw [List.foldl_cons, hd]
    exact ih (max acc d) (le_trans h0 (le_max_left _ _)) (max_le h1 hd1)
      (fun s hs => hsims s (List.mem_cons_of_mem sim hs))

/-- C14, amended: for every set of paths whose values are all non-negative and whose
first values are strictly positive, the `maxDrawdown` of `calculateRiskMetrics` is a
number in the interval `[0, 1]`. -/
theorem maxDrawdown_mem_unit_interval (simulations : List (List K))
    (hvalues : ∀ sim ∈ simulations, ∀ v ∈ sim, 0 ≤ v)
    (hfirst : ∀ sim ∈ simulations, ∀ v, sim.head? = some v → 0 < v) :
    ∃ D, maxDrawdown simulations = some D ∧ 0 ≤ D ∧ D ≤ 1 :=
  foldl_mathMax_bounds simulations 0 (le_refl 0) zero_le_one
    (fun sim hsim => maxDrawdownForSim_bounds sim (hvalues sim hsim) (hfirst sim hsim))

end

section

variable {K : Type} [LinearOrderedField K]

theorem drawdown_mono (a c y : K) (ha : 0 < a) (hac : a ≤ c) (hy : 0 ≤ y) :
    (a - y) / a ≤ (c - y) / c := by
  rw [div_le_div_iff₀ ha (lt_of_lt_of_le ha hac)]
  nlinarith

theorem drawdownStep_eq (peak d x : K) (hpeak : 0 < peak) :
    ∃ p, drawdownStep (peak, some d) x = (p, some (max d ((p - x) / p)))
      ∧ 0 < p ∧ peak ≤ p ∧ x ≤ p ∧ (p = peak ∨ p = x) := by
  by_cases hlt : peak < x
  · have hxpos : 0 < x := lt_trans hpeak hlt
    exact ⟨x, by simp [drawdownStep, hlt, quotient, ne_of_gt hxpos, mathMax], hxpos,
      le_of_lt hlt, le_refl x, Or.inr rfl⟩
  · exact ⟨peak, by simp [drawdownStep, hlt, quotient, ne_of_gt hpeak, mathMax], hpeak,
      le_refl peak, not_lt.mp hlt, Or.inl rfl⟩

theorem foldl_drawdownStep_greatest (values : List K) (peak d : K) (hpeak : 0 < peak)
    (hvalues : ∀ v ∈ values, 0 < v) :
    ∃ P D, values.foldl drawdownStep (peak, some d) = (P, some D)
      ∧ d ≤ D
      ∧ (∀ l1 b l2 a, values = l1 ++ b :: l2 → (a = peak ∨ a ∈ l1 ∨ a = b) →
          (a - b) / a ≤ D)
      ∧ (D = d ∨ ∃ l1 b l2 a, values = l1 ++ b :: l2 ∧ (a = peak ∨ a ∈ l1 ∨ a = b)
          ∧ D = (a - b) / a) := by
  induction values generalizing peak d with
  | nil =>
    refine ⟨peak, d, rfl, le_refl d, ?_, Or.inl rfl⟩
    intro l1 b l2 a hsplit
    simp at hsplit
  | cons x rest ih =>
    have hx : 0 < x := hvalues x (List.mem_cons_self x rest)
    have hrest : ∀ v ∈ rest, 0 < v := fun v hv => hvalues v (List.mem_cons_of_mem x hv)
    obtain ⟨p, hstep, hp, hpeakp, hxp, hpmem⟩ := drawdownStep_eq peak d x hpeak
    obtain ⟨P, D, hfold, hdD, hub, hatt⟩ := ih p (max d ((p - x) / p)) hp hrest
    refine ⟨P, D, by rw [List.foldl_cons, hstep]; exact hfold,
      le_trans (le_max_left _ _) hdD, ?_, ?_⟩
    · intro l1 b l2 a hsplit ha
      cases l1 with
      | nil =>
        simp only [List.nil_append, List.cons.injEq] at hsplit
        obtain ⟨hb, _⟩ := hsplit
        subst hb
        have hstep1 : (a - x) / a ≤ (p - x) / p := by
          rcases ha with ha | ha | ha
          · subst ha
            exact drawdown_mono a p x hpeak hpeakp (le_of_lt hx)
          · simp at ha
          · subst ha
            exact drawdown_mono a p a hx hxp (le_of_lt hx)
        exact le_trans hstep1 (le_trans (le_max_right _ _) hdD)
      | cons y l1 =>
        simp only [List.cons_append, List.cons.injEq] at hsplit
        obtain ⟨hy, hsplit⟩ := hsplit
        subst hy
        have hb : 0 < b := hrest b (by rw [hsplit]; simp)
        rcases ha with ha | ha | ha
        · subst ha
          exact le_trans (drawdown_mono a p b hpeak hpeakp (le_of_lt hb))
            (hub l1 b l2 p hsplit (Or.inl rfl))
        · rcases List.mem_cons.mp ha with ha | ha
          · subst ha
            exact le_trans (drawdown_mono a p b hx hxp (le_of_lt hb))
              (hub l1 b l2 p hsplit (Or.inl rfl))
          · exact hub l1 b l2 a hsplit (Or.inr (Or.inl ha))
        · exact hub l1 b l2 a hsplit (Or.inr (Or.inr ha))
    · rcases hatt with hD | ⟨l1, b, l2, a, hsplit, ha, hDa⟩
      · rcases max_choice d ((p - x) / p) with hmax | hmax
        · exact Or.inl (by rw [hD, hmax])
        · refine Or.inr ⟨[], x, rest, p, rfl, ?_, by rw [hD, hmax]⟩
          rcases hpmem with hpm | hpm
          · exact Or.inl hpm
          · exact Or.inr (Or.inr hpm)
      · refine Or.inr ⟨x :: l1, b, l2, a, by rw [hsplit]; rfl, ?_, hDa⟩
        rcases ha with ha | ha | ha
        · rcases hpmem with hpm | hpm
          · exact Or.inl (by rw [ha, hpm])
          · exact Or.inr (Or.inl (by rw [ha, hpm]; exact List.mem_cons_self x l1))
        · exact Or.inr (Or.inl (List.mem_cons_of_mem x ha))
        · exact Or.inr (Or.inr ha)

theorem mem_pairDrawdowns (values : List K) (x : K) :
    x ∈ pairDrawdowns values ↔
      ∃ (i j : Nat) (a b : K),
        i ≤ j ∧ values[i]? = some a ∧ values[j]? = some b ∧ x = (a - b) / a := by
  constructor
  · intro hx
    simp only [pairDrawdowns, List.mem_flatMap, List.mem_map, List.mem_range] at hx
    obtain ⟨j, hj, i, hi, hxeq⟩ := hx
    have hi' : i < values.length := by omega
    refine ⟨i, j, values[i], values[j], by omega, List.getElem?_eq_getElem hi',
      List.getElem?_eq_getElem hj, ?_⟩
    rw [← hxeq]
    simp [List.getElem?_eq_getElem hi', List.getElem?_eq_getElem hj]
  · rintro ⟨i, j, a, b, hij, hi, hj, rfl⟩
    have hj' : j < values.length := by
      by_contra hcon
      rw [List.getElem?_eq_none (not_lt.mp hcon)] at hj
      exact Option.noConfusion hj
    simp only [pairDrawdowns, List.mem_flatMap, List.mem_map, List.mem_range]
    refine ⟨j, hj', i, by omega, ?_⟩
    simp [hi, hj]

theorem getElem?_of_split {α : Type} (values l1 l2 : List α) (b : α)
    (hsplit : values = l1 ++ b :: l2) :
    values[l1.length]? = some b
      ∧ ∀ a ∈ l1, ∃ i, i < l1.length ∧ values[i]? = some a := by
  subst hsplit
  refine ⟨by rw [List.getElem?_append_right (le_refl _)]; simp, ?_⟩
  intro a ha
  obtain ⟨i, hi, hia⟩ := List.mem_iff_getElem.mp ha
  exact ⟨i, hi, by rw [List.getElem?_append_left hi, List.getElem?_eq_getElem hi, hia]⟩

theorem split_of_getElem? {α : Type} (values : List α) (j : Nat) (b : α)
    (hj : values[j]? = some b) :
    values = values.take j ++ b :: values.drop (j + 1)
      ∧ ∀ (i : Nat) (a : α), i < j → values[i]? = some a → a ∈ values.take j := by
  obtain ⟨hjlt, hjb⟩ := List.getElem?_eq_some_iff.mp hj
  constructor
  · have h := List.take_append_drop j values
    rw [List.drop_eq_getElem_cons hjlt, hjb] at h
    exact h.symm
  · intro i a hij hi
    exact List.mem_iff_getElem?.mpr ⟨i, by rw [List.getElem?_take_of_lt hij]; exact hi⟩

theorem maxDrawdownForSim_greatest (values : List K) (hne : values ≠ [])
    (hpos : ∀ v ∈ values, 0 < v) :
    ∃ D, maxDrawdownForSim values = some D ∧ 0 ≤ D ∧ D ∈ pairDrawdowns values
      ∧ ∀ x ∈ pairDrawdowns values, x ≤ D := by
  cases values with
  | nil => exact absurd rfl hne
  | cons first rest =>
    have hfirst : 0 < first := hpos first (List.mem_cons_self first rest)
    obtain ⟨P, D, hfold, h0D, hub, hatt⟩ :=
      foldl_drawdownStep_greatest (first :: rest) first 0 hfirst hpos
    have hzero : (first :: rest)[0]? = some first := by simp
    refine ⟨D, by simp [maxDrawdownForSim, hfold], h0D, ?_, ?_⟩
    · rw [mem_pairDrawdowns]
      rcases hatt with hD | ⟨l1, b, l2, a, hsplit, ha, hDa⟩
      · exact ⟨0, 0, first, first, le_refl 0, hzero, hzero, by simp [hD]⟩
      · obtain ⟨hj, hmem⟩ := getElem?_of_split (first :: rest) l1 l2 b hsplit
        rcases ha with ha | ha | ha
        · exact ⟨0, l1.length, first, b, Nat.zero_le _, hzero, hj, by rw [hDa, ha]⟩
        · obtain ⟨i, hi, hia⟩ := hmem a ha
          exact ⟨i, l1.length, a, b, le_of_lt hi, hia, hj, hDa⟩
        · exact ⟨l1.length, l1.length, b, b, le_refl _, hj, hj, by rw [hDa, ha]⟩
    · intro x hx
      obtain ⟨i, j, a, b, hij, hi, hj, hxeq⟩ := (mem_pairDrawdowns _ x).mp hx
      obtain ⟨hsplit, hmem⟩ := split_of_getElem? (first :: rest) j b hj
      rw [hxeq]
      rcases Nat.lt_or_ge i j with hlt | hge
      · exact hub _ b _ a hsplit (Or.inr (Or.inl (hmem i a hlt hi)))
      · have hij' : i = j := le_antisymm hij hge
        subst hij'
        have hab : a = b := by
          rw [hi] at hj
          exact Option.some.inj hj
        exact hub _ b _ a hsplit (Or.inr (Or.inr hab))

theorem foldl_mathMax_greatest (simulations : List (List K)) (acc : K)
    (hsims : ∀ sim ∈ simulations, ∃ D, maxDrawdownForSim sim = some D) :
    ∃ D, simulations.foldl (fun maxDD sim => mathMax maxDD (maxDrawdownForSim sim)) (some acc)
        = some D
      ∧ acc ≤ D
      ∧ (∀ sim ∈ simulations, ∀ d, maxDrawdownForSim sim = some d → d ≤ D)
      ∧ (D = acc ∨ ∃ sim ∈ simulations, maxDrawdownForSim sim = some D) := by
  induction simulations generalizing acc with
  | nil => exact ⟨acc, rfl, le_refl acc, by simp, Or.inl rfl⟩
  | cons sim rest ih =>
    obtain ⟨d, hd⟩ := hsims sim (List.mem_cons_self sim rest)
    obtain ⟨D, hfold, haccD, hub, hatt⟩ := ih (max acc d)
      (fun s hs => hsims s (List.mem_cons_of_mem sim hs))
    refine ⟨D, by rw [List.foldl_cons, hd]; exact hfold, le_trans (le_max_left _ _) haccD,
      ?_, ?_⟩
    · intro s hs e he
      rcases List.mem_cons.mp hs with hs | hs
      · subst hs
        rw [hd] at he
        have hde : d = e := Option.some.inj he
        rw [← hde]
        exact le_trans (le_max_right _ _) haccD
      · exact hub s hs e he
    · rcases hatt with hD | ⟨s, hs, hsD⟩
      · rcases max_choice acc d with hmax | hmax
        · exact Or.inl (by rw [hD, hmax])
        · exact Or.inr ⟨sim, List.mem_cons_self sim rest, by rw [hd, hD, hmax]⟩
      · exact Or.inr ⟨s, List.mem_cons_of_mem sim hs, hsD⟩

/-- C13: for every non-empty set of non-empty paths of strictly positive values, the
one-pass running-peak value `maxDrawdownForSim` of each path is the greatest of the
drawdowns `(v_i - v_j) / v_i` over the index pairs `i ≤ j` of the path, and the reported
`maxDrawdown` is the greatest of these per-path values. -/
theorem maxDrawdown_eq_pairwise_maximum (simulations : List (List K))
    (hsims : simulations ≠ [])
    (hne : ∀ sim ∈ simulations, sim ≠ [])
    (hpos : ∀ sim ∈ simulations, ∀ v ∈ sim, 0 < v) :
    (∀ sim ∈ simulations, ∃ D, maxDrawdownForSim sim = some D
        ∧ D ∈ pairDrawdowns sim ∧ ∀ x ∈ pairDrawdowns sim, x ≤ D)
      ∧ ∃ D, maxDrawdown simulations = some D
          ∧ (∃ sim ∈ simulations, maxDrawdownForSim sim = some D)
          ∧ ∀ sim ∈ simulations, ∀ d, maxDrawdownForSim sim = some d → d ≤ D := by
  have hpath : ∀ sim ∈ simulations, ∃ D, maxDrawdownForSim sim = some D ∧ 0 ≤ D
      ∧ D ∈ pairDrawdowns sim ∧ ∀ x ∈ pairDrawdowns sim, x ≤ D :=
    fun sim hsim => maxDrawdownForSim_greatest sim (hne sim hsim) (hpos sim hsim)
  refine ⟨fun sim hsim => ?_, ?_⟩
  · obtain ⟨D, hD, _, hmem, hub⟩ := hpath sim hsim
    exact ⟨D, hD, hmem, hub⟩
  · obtain ⟨D, hfold, h0D, hub, hatt⟩ := foldl_mathMax_greatest simulations 0
      (fun sim hsim => (hpath sim hsim).imp (fun _ h => h.1))
    refine ⟨D, hfold, ?_, hub⟩
    rcases hatt with hD | hatt
    · obtain ⟨sim, hsim⟩ := List.exists_mem_of_ne_nil simulations hsims
      obtain ⟨d, hd, hd0, _, _⟩ := hpath sim hsim
      have hdD : d ≤ D := hub sim hsim d hd
      have hd_eq : d = D := le_antisymm hdD (by rw [hD]; exact hd0)
      exact ⟨sim, hsim, by rw [hd, hd_eq]⟩
    · exact hatt

end


theorem maxDrawdown_eq_pairwise_maximum_witness :
    ∃ D, maxDrawdown [[(100 : ℚ), 120, 90], [50, 40]] = some D
      ∧ (∃ sim ∈ [[(100 : ℚ), 120, 90], [50, 40]], maxDrawdownForSim sim = some D)
      ∧ ∀ sim ∈ [[(100 : ℚ), 120, 90], [50, 40]], ∀ d,
          maxDrawdownForSim sim = some d → d ≤ D :=
  (maxDrawdown_eq_pairwise_maximum [[(100 : ℚ), 120, 90], [50, 40]] (by simp)
    (by
      intro sim hsim
      simp only [List.mem_cons, List.mem_singleton, List.not_mem_nil, or_false] at hsim
      rcases hsim with rfl | rfl <;> simp)
    (by
      intro sim hsim v hv
      simp only [List.mem_cons, List.mem_singleton, List.not_mem_nil, or_false] at hsim
      rcases hsim with rfl | rfl <;>
        simp only [List.mem_cons, List.mem_singleton, List.not_mem_nil, or_false] at hv
      · rcases hv with rfl | rfl | rfl <;> norm_num
      · rcases hv with rfl | rfl <;> norm_num)).2

theorem maxDrawdown_mem_unit_interval_witness :
    ∃ D, maxDrawdown [[(100 : ℚ), 50, 0, 120], [80, 90]] = some D ∧ 0 ≤ D ∧ D ≤ 1 :=
  maxDrawdown_mem_unit_interval [[(100 : ℚ), 50, 0, 120], [80, 90]]
    (by
      intro sim hsim v hv
      simp only [List.mem_cons, List.mem_singleton, List.not_mem_nil, or_false] at hsim
      rcases hsim with rfl | rfl <;>
        simp only [List.mem_cons, List.mem_singleton, List.not_mem_nil, or_false] at hv <;>
        rcases hv with rfl | rfl | rfl | rfl <;> norm_num)
    (by
      intro sim hsim v hv
      simp only [List.mem_cons, List.mem_singleton, List.not_mem_nil, or_false] at hsim
      rcases hsim with rfl | rfl <;>
        simp only [List.head?_cons, Option.some.injEq] at hv <;>
        subst hv <;> norm_num)

/-- C14 is false as stated: the update rule turns the value `1` into `-1` under a
monthly return of `-200%` (no contribution, no fees, no trading costs), and for the path
`[1, -1]` the reported `maxDrawdown` is `(1 - (-1)) / 1 = 2`, outside `[0, 1]`. -/
theorem maxDrawdown_exceeds_one :
    (trialLoop realMath sampleEnv (unitArgs : SimulationArgs ℝ)
        (resolveConfig (unitArgs : SimulationArgs ℝ).config) [[[0], [-2]]] 0 2).map
          (fun st => st.pathMonthly.map (fun d => d.value)) = .ok [1, -1]
      ∧ maxDrawdown [[(1 : ℝ), -1]] = some 2
      ∧ ¬ ((2 : ℝ) ≤ 1) := by
  refine ⟨?_, ?_, by norm_num⟩
  · norm_num [trialLoop, simulateMonth, returnsAt, calculatePortfolioReturn, weightedSum,
      monthlyUpdate, monthlyFees, rebalanceIfDue, rebalanceDue, rebalancePortfolio,
      unitArgs, contributionArgs, sampleEnv_tradingCosts, resolveConfig, emptyConfig,
      realMath, initialTrialState, bind, Except.bind, pure, Except.pure, Except.map]
  · norm_num [maxDrawdown, maxDrawdownForSim, drawdownStep, quotient, mathMax]

end UseMonteCarloSimulation


/-! ## Standard deviation of a single number -/

/-- C15, evaluated on every sample `[x]` of one number: `standardDeviation` divides the
sum of squares by `length - 1 = 0` and returns a value that is not a finite number
(`NaN`, the square root of `0 / 0`), not `0`. The population formula of the sibling
`calculateVolatility` in the simulation hook divides by `length` and returns `0` on the
same sample. -/
theorem PortfolioAnalyzer.standardDeviation_singleton (math : JsMath ℝ) (x : ℝ) :
    PortfolioAnalyzer.standardDeviation math [x] = .ok none
      ∧ UseMonteCarloSimulation.calculateVolatility realMath [x] = some 0 := by
  constructor
  · simp [PortfolioAnalyzer.standardDeviation, UseMonteCarloSimulation.quotient]
  · simp [UseMonteCarloSimulation.calculateVolatility, UseMonteCarloSimulation.quotient,
      realMath]

/-! ## Tax-loss harvesting -/

namespace TaxOptimizer

section

variable {K : Type} [LinearOrderedField K]

theorem harvestPosition_spec (env : Env K) (opt : Optimizer K) (position : Position K)
    (securities : List Security) (hu : opt.portfolio.securityUniverse = some securities) :
    ∃ pushed, harvestPosition env opt position = .ok pushed
      ∧ ∀ o, pushed = some o →
          o.position = position.symbol
            ∧ o.unrealizedLoss = env.calculateUnrealizedLoss position
            ∧ opt.config.harvestingThreshold ≤ |o.unrealizedLoss| := by
  by_cases hth : opt.config.harvestingThreshold ≤ |env.calculateUnrealizedLoss position|
  · simp only [harvestPosition, hth, if_true, findHarvestingAlternatives, hu, bind,
      Except.bind, pure, Except.pure]
    split
    · refine ⟨_, rfl, ?_⟩
      intro o ho
      simp only [Option.some.injEq] at ho
      subst ho
      exact ⟨rfl, rfl, hth⟩
    · exact ⟨none, rfl, fun o ho => Option.noConfusion ho⟩
  · exact ⟨none, by simp [harvestPosition, hth, pure, Except.pure],
      fun o ho => Option.noConfusion ho⟩

theorem harvestLoop_spec (env : Env K) (opt : Optimizer K) (securities : List Security)
    (hu : opt.portfolio.securityUniverse = some securities) (all : List (Position K))
    (positions : List (Position K)) (hsub : ∀ p ∈ positions, p ∈ all)
    (acc : List (Opportunity K env.Timing env.WashSaleRisk))
    (hacc : ∀ o ∈ acc, opt.config.harvestingThreshold ≤ |o.unrealizedLoss|
      ∧ ∃ p ∈ all, o.position = p.symbol
          ∧ o.unrealizedLoss = env.calculateUnrealizedLoss p) :
    ∃ opps, harvestLoop env opt positions acc = .ok opps
      ∧ ∀ o ∈ opps, opt.config.harvestingThreshold ≤ |o.unrealizedLoss|
          ∧ ∃ p ∈ all, o.position = p.symbol
              ∧ o.unrealizedLoss = env.calculateUnrealizedLoss p := by
  induction positions generalizing acc with
  | nil => exact ⟨acc, rfl, hacc⟩
  | cons position rest ih =>
    obtain ⟨pushed, hpushed, hspec⟩ := harvestPosition_spec env opt position securities hu
    have hrest : ∀ p ∈ rest, p ∈ all := fun p hp => hsub p (List.mem_cons_of_mem position hp)
    cases pushed with
    | none =>
      obtain ⟨opps, hopps, hall⟩ := ih hrest acc hacc
      exact ⟨opps, by simp [harvestLoop, hpushed, bind, Except.bind, hopps], hall⟩
    | some o =>
      obtain ⟨hsym, hloss, hth⟩ := hspec o rfl
      obtain ⟨opps, hopps, hall⟩ := ih hrest (acc ++ [o]) (by
        intro o1 ho1
        rcases List.mem_append.mp ho1 with h | h
        · exact hacc o1 h
        · rw [List.mem_singleton] at h
          subst h
          exact ⟨hth, position, hsub position (List.mem_cons_self position rest), hsym,
            hloss⟩)
      exact ⟨opps, by simp [harvestLoop, hpushed, bind, Except.bind, hopps], hall⟩

/-- C19: the constructor sets `harvestingThreshold` to the caller's value, or to 1000
when the caller's config has none; and when the portfolio has a security universe,
`findTaxLossHarvestingOpportunities` returns a list in which every opportunity has
`|unrealizedLoss|` at least the threshold and stems from a taxable position with that
symbol and that unrealized loss, so no position below the threshold appears. -/
theorem findTaxLossHarvestingOpportunities_threshold (env : Env K) (portfolio : Portfolio K)
    (taxRates : TaxRates K) (config : ConfigArg K) (securities : List Security)
    (hu : portfolio.securityUniverse = some securities) :
    (new portfolio taxRates config).config.harvestingThreshold
        = config.harvestingThreshold.getD 1000
      ∧ ∃ opps, findTaxLossHarvestingOpportunities env (new portfolio taxRates config)
            = .ok opps
          ∧ ∀ o ∈ opps, config.harvestingThreshold.getD 1000 ≤ |o.unrealizedLoss|
              ∧ ∃ p ∈ portfolio.taxablePositions.getD [], o.position = p.symbol
                  ∧ o.unrealizedLoss = env.calculateUnrealizedLoss p := by
  refine ⟨rfl, ?_⟩
  exact harvestLoop_spec env (new portfolio taxRates config) securities hu
    (portfolio.taxablePositions.getD []) (portfolio.taxablePositions.getD [])
    (fun p hp => hp) [] (fun o ho => absurd ho (List.not_mem_nil o))

end

theorem findTaxLossHarvestingOpportunities_threshold_witness :
    ∃ opps, findTaxLossHarvestingOpportunities (signedLossEnv (1 : ℚ))
          (new gainPortfolio { federalLongTerm := 15 / 100, state := 5 / 100 }
            { harvestingThreshold := some 500, minHoldingPeriod := none,
              washSaleWindow := none }) = .ok opps
      ∧ ∀ o ∈ opps, (500 : ℚ) ≤ |o.unrealizedLoss|
          ∧ ∃ p ∈ [({ symbol := "SPY", value := 45075, costBasis := 42000 } : Position ℚ),
                { symbol := "AGG", value := 20000, costBasis := 19500 }],
              o.position = p.symbol
                ∧ o.unrealizedLoss = (signedLossEnv (1 : ℚ)).calculateUnrealizedLoss p :=
  (findTaxLossHarvestingOpportunities_threshold (signedLossEnv (1 : ℚ)) gainPortfolio
    { federalLongTerm := 15 / 100, state := 5 / 100 }
    { harvestingThreshold := some 500, minHoldingPeriod := none, washSaleWindow := none }
    [{ symbol := "VOO" }] rfl).2

/-- C20, with `calculateUnrealizedLoss` as the spec has it and a positive threshold: a
position whose value is at or above its cost basis has an unrealized loss of `0`, which
is below the threshold, so `findTaxLossHarvestingOpportunities` emits no opportunity for
it. Every opportunity of the result stems from a position with a value below its cost
basis, and the result is empty when no position is held at a loss. -/
theorem findTaxLossHarvestingOpportunities_no_gain {K : Type} [LinearOrderedField K]
    (env : Env K) (opt : Optimizer K) (sign : K) (securities : List Security)
    (hloss : env.calculateUnrealizedLoss = unrealizedLoss sign)
    (hthreshold : 0 < opt.config.harvestingThreshold)
    (hu : opt.portfolio.securityUniverse = some securities) :
    ∃ opps, findTaxLossHarvestingOpportunities env opt = .ok opps
      ∧ (∀ o ∈ opps, ∃ p ∈ opt.portfolio.taxablePositions.getD [],
          o.position = p.symbol ∧ p.value < p.costBasis)
      ∧ ((∀ p ∈ opt.portfolio.taxablePositions.getD [], p.costBasis ≤ p.value) →
          opps = []) := by
  obtain ⟨opps, hopps, hall⟩ := harvestLoop_spec env opt securities hu
    (opt.portfolio.taxablePositions.getD []) (opt.portfolio.taxablePositions.getD [])
    (fun p hp => hp) [] (fun o ho => absurd ho (List.not_mem_nil o))
  have hfrom : ∀ o ∈ opps, ∃ p ∈ opt.portfolio.taxablePositions.getD [],
      o.position = p.symbol ∧ p.value < p.costBasis := by
    intro o ho
    obtain ⟨hth, p, hp, hsym, hval⟩ := hall o ho
    refine ⟨p, hp, hsym, ?_⟩
    by_contra hge
    have hmin : min (p.value - p.costBasis) 0 = 0 :=
      min_eq_right (by linarith [not_lt.mp hge])
    rw [hval, hloss] at hth
    simp only [unrealizedLoss, hmin, mul_zero, abs_zero] at hth
    exact absurd hth (not_le.mpr hthreshold)
  refine ⟨opps, hopps, hfrom, ?_⟩
  intro hgain
  apply List.eq_nil_iff_forall_not_mem.mpr
  intro o ho
  obtain ⟨p, hp, _, hlt⟩ := hfrom o ho
  exact absurd (hgain p hp) (not_le.mpr hlt)

theorem findTaxLossHarvestingOpportunities_no_gain_witness :
    findTaxLossHarvestingOpportunities (lossEnv (1 : ℚ)) gainOptimizer = .ok [] := by
  obtain ⟨opps, hopps, _, hnil⟩ :=
    findTaxLossHarvestingOpportunities_no_gain (lossEnv (1 : ℚ)) gainOptimizer 1
      [{ symbol := "VOO" }] rfl (by norm_num [gainOptimizer, new]) rfl
  have hempty : opps = [] := hnil (by
    intro p hp
    simp only [gainOptimizer, new, gainPortfolio, Option.getD_some, List.mem_cons,
      List.mem_singleton, List.not_mem_nil, or_false] at hp
    rcases hp with h | h <;> subst h <;> norm_num)
  rw [← hempty]
  exact hopps

end TaxOptimizer


/-! ## Ranking of harvesting opportunities -/

namespace TaxOptimizer

section

variable {K : Type} [LinearOrderedField K]

theorem harvestLoop_order (env : Env K) (opt : Optimizer K) (positions : List (Position K))
    (acc opps : List (Opportunity K env.Timing env.WashSaleRisk))
    (h : harvestLoop env opt positions acc = .ok opps) :
    ∃ pushed, opps = acc ++ pushed
      ∧ (pushed.map (fun o => o.position)).Sublist (positions.map (fun p => p.symbol)) := by
  induction positions generalizing acc with
  | nil =>
    simp only [harvestLoop, Except.ok.injEq] at h
    exact ⟨[], by simp [h], by simp⟩
  | cons position rest ih =>
    simp only [harvestLoop] at h
    obtain ⟨pushed, hpushed, hrest⟩ := (bind_eq_ok _ _ _).mp h
    cases pushed with
    | none =>
      obtain ⟨more, hmore, hsub⟩ := ih acc hrest
      exact ⟨more, hmore, by simpa using hsub.cons position.symbol⟩
    | some o =>
      obtain ⟨more, hmore, hsub⟩ := ih (acc ++ [o]) hrest
      have ho : o.position = position.symbol := by
        simp only [harvestPosition] at hpushed
        split at hpushed
        · obtain ⟨alternatives, _, halt⟩ := (bind_eq_ok _ _ _).mp hpushed
          split at halt
          · simp only [pure, Except.pure, Except.ok.injEq, Option.some.injEq] at halt
            rw [← halt]
          · simp [pure, Except.pure] at halt
        · simp [pure, Except.pure] at hpushed
      refine ⟨o :: more, by simp [hmore], ?_⟩
      simpa [ho] using hsub.cons₂ position.symbol

end

/-- C21 is false as stated: on a portfolio with a loss of 1500 on VTI followed by a loss
of 3000 on VXUS (rates 15% and 5%, one valid alternative),
`findTaxLossHarvestingOpportunities` returns the opportunity for VTI with potential
savings of 300 before the one for VXUS with 600, so the list is not ordered by
descending savings. -/
theorem findTaxLossHarvestingOpportunities_not_ranked :
    (findTaxLossHarvestingOpportunities (lossEnv (1 : ℚ)) lossOptimizer).map
        (fun opps => opps.map (fun o => (o.position, o.unrealizedLoss, o.potentialSavings)))
      = .ok [("VTI", -1500, 300), ("VXUS", -3000, 600)]
    ∧ (300 : ℚ) < 600 := by
  refine ⟨?_, by norm_num⟩
  norm_num [findTaxLossHarvestingOpportunities, harvestLoop, harvestPosition,
    findHarvestingAlternatives, calculateHarvestingSavings, lossEnv, unrealizedLoss,
    lossOptimizer, lossPortfolio, new, bind, Except.bind, pure, Except.pure, Except.map,
    abs_of_neg, List.insertionSort, List.orderedInsert]

/-- C21, as the method orders its result: it visits `taxablePositions` in order, pushes
at most one opportunity per position and never sorts, so for every portfolio with a
security universe the positions of the returned opportunities are a subsequence of the
symbols of `taxablePositions`. -/
theorem findTaxLossHarvestingOpportunities_position_order {K : Type}
    [LinearOrderedField K] (env : Env K) (opt : Optimizer K) (securities : List Security)
    (hu : opt.portfolio.securityUniverse = some securities) :
    ∃ opps, findTaxLossHarvestingOpportunities env opt = .ok opps
      ∧ (opps.map (fun o => o.position)).Sublist
          ((opt.portfolio.taxablePositions.getD []).map (fun p => p.symbol)) := by
  obtain ⟨opps, hopps, _⟩ := harvestLoop_spec env opt securities hu
    (opt.portfolio.taxablePositions.getD []) (opt.portfolio.taxablePositions.getD [])
    (fun p hp => hp) [] (fun o ho => absurd ho (List.not_mem_nil o))
  obtain ⟨pushed, hpushed, hsub⟩ := harvestLoop_order env opt _ [] opps hopps
  exact ⟨opps, hopps, by simpa [hpushed] using hsub⟩

theorem findTaxLossHarvestingOpportunities_position_order_witness :
    ∃ opps, findTaxLossHarvestingOpportunities (lossEnv (1 : ℚ)) lossOptimizer = .ok opps
      ∧ (opps.map (fun o => o.position)).Sublist ["VTI", "VXUS"] :=
  findTaxLossHarvestingOpportunities_position_order (lossEnv (1 : ℚ)) lossOptimizer
    [{ symbol := "VOO" }] rfl

section

variable {K : Type} [LinearOrderedField K]

/-- C22: for every unrealized loss `x` and all tax rates, `calculateHarvestingSavings`
returns `|x|` times the sum of the federal long-term rate, the state rate and the NIIT
rate; the result is the same for `x` and `-x`, it is non-negative when the three rates
are non-negative, and strictly positive when `x ≠ 0` and the rate sum is positive. -/
theorem calculateHarvestingSavings_eq (env : Env K) (opt : Optimizer K) (x : K) :
    calculateHarvestingSavings env opt x
        = |x| * (opt.taxRates.federalLongTerm + opt.taxRates.state + env.calculateNIITRate)
      ∧ calculateHarvestingSavings env opt (-x) = calculateHarvestingSavings env opt x
      ∧ (0 ≤ opt.taxRates.federalLongTerm → 0 ≤ opt.taxRates.state →
          0 ≤ env.calculateNIITRate → 0 ≤ calculateHarvestingSavings env opt x)
      ∧ (x ≠ 0 →
          0 < opt.taxRates.federalLongTerm + opt.taxRates.state + env.calculateNIITRate →
          0 < calculateHarvestingSavings env opt x) := by
  refine ⟨rfl, by simp [calculateHarvestingSavings], ?_, ?_⟩
  · intro hf hs hn
    exact mul_nonneg (abs_nonneg x) (add_nonneg (add_nonneg hf hs) hn)
  · intro hx hpos
    exact mul_pos (abs_pos.mpr hx) hpos

end

theorem calculateHarvestingSavings_eq_witness :
    calculateHarvestingSavings (signedLossEnv (1 : ℚ)) lossOptimizer (-1500) = 300
      ∧ calculateHarvestingSavings (signedLossEnv (1 : ℚ)) lossOptimizer 1500 = 300
      ∧ (0 : ℚ) < calculateHarvestingSavings (signedLossEnv (1 : ℚ)) lossOptimizer (-1500) := by
  have h := calculateHarvestingSavings_eq (signedLossEnv (1 : ℚ)) lossOptimizer (-1500)
  have hrate : (lossOptimizer : Optimizer ℚ).taxRates.federalLongTerm
      + (lossOptimizer : Optimizer ℚ).taxRates.state
      + (signedLossEnv (1 : ℚ)).calculateNIITRate = 20 / 100 := by
    norm_num [lossOptimizer, new, signedLossEnv]
  refine ⟨?_, ?_, h.2.2.2 (by norm_num) (by rw [hrate]; norm_num)⟩
  · rw [h.1, hrate]; norm_num
  · have h2 := h.2.1
    rw [neg_neg] at h2
    rw [h2, h.1, hrate]; norm_num

end TaxOptimizer


/-! ## Withdrawal sequencing -/

namespace TaxOptimizer

section

variable {K : Type} [LinearOrderedField K]

theorem withdrawalLoop_spec (env : WithdrawalEnv K) (preferences : env.Preferences)
    (accounts : List env.Account) (strategy : WithdrawalStrategy K env.Detail env.Impact)
    (remainingAmount : K) :
    ∃ drawn : List (Withdrawal K env.Detail),
      (withdrawalLoop env preferences accounts (strategy, remainingAmount)).1.steps
          = strategy.steps ++ drawn
        ∧ (withdrawalLoop env preferences accounts (strategy, remainingAmount)).1.totalTaxCost
          = strategy.totalTaxCost + (drawn.map (fun s => s.taxCost)).sum
        ∧ (withdrawalLoop env preferences accounts (strategy, remainingAmount)).2
          = remainingAmount - (drawn.map (fun s => s.amount)).sum
        ∧ drawn.length ≤ accounts.length
        ∧ (∀ k, k < drawn.length →
            ((drawn.take k).map (fun s => s.amount)).sum < remainingAmount
              ∧ drawn[k]? = accounts[k]?.map (fun account =>
                  env.calculateOptimalWithdrawal account
                    (remainingAmount - ((drawn.take k).map (fun s => s.amount)).sum)
                    preferences))
        ∧ (drawn.length = accounts.length
            ∨ remainingAmount ≤ (drawn.map (fun s => s.amount)).sum) := by
  induction accounts generalizing strategy remainingAmount with
  | nil => exact ⟨[], by simp [withdrawalLoop]⟩
  | cons account rest ih =>
    by_cases hrem : remainingAmount ≤ 0
    · exact ⟨[], by simp [withdrawalLoop, hrem]⟩
    · obtain ⟨drawn, hsteps, htax, hleft, hlen, hk, hstop⟩ :=
        ih { strategy with
              steps := strategy.steps ++
                [env.calculateOptimalWithdrawal account remainingAmount preferences]
              totalTaxCost := strategy.totalTaxCost +
                (env.calculateOptimalWithdrawal account remainingAmount preferences).taxCost }
          (remainingAmount
            - (env.calculateOptimalWithdrawal account remainingAmount preferences).amount)
      refine ⟨env.calculateOptimalWithdrawal account remainingAmount preferences :: drawn,
        ?_, ?_, ?_, ?_, ?_, ?_⟩
      · simp only [withdrawalLoop, hrem, if_false]
        rw [hsteps]
        simp
      · simp only [withdrawalLoop, hrem, if_false]
        rw [htax]
        simp only [List.map_cons, List.sum_cons]
        ring
      · simp only [withdrawalLoop, hrem, if_false]
        rw [hleft]
        simp only [List.map_cons, List.sum_cons]
        ring
      · simpa using hlen
      · intro k hklt
        cases k with
        | zero =>
          refine ⟨by simpa using lt_of_not_ge hrem, ?_⟩
          simp
        | succ k =>
          obtain ⟨hsum, hget⟩ := hk k (by simpa using hklt)
          refine ⟨?_, ?_⟩
          · simp only [List.take_succ_cons, List.map_cons, List.sum_cons]
            linarith
          · simp only [List.getElem?_cons_succ, List.take_succ_cons, List.map_cons,
              List.sum_cons]
            rw [hget]
            congr 1
            funext a
            congr 1
            ring
      · rcases hstop with h | h
        · left
          simp [h]
        · right
          simp only [List.map_cons, List.sum_cons]
          linarith

/-- C23: `generateWithdrawalStrategy` draws greedily in the order of the sorted accounts.
Step `k` is the withdrawal computed for the `k`-th sorted account and the amount still
required, and it is only taken while the amounts of the steps before it sum to less than
the requirement; so no step is produced for a requirement `≤ 0`, and the loop ends when
the accounts are used up or the requirement is met. `totalTaxCost` is the sum of the
`taxCost` of the steps. -/
theorem generateWithdrawalStrategy_greedy (env : WithdrawalEnv K) (accounts : env.Accounts)
    (requiredAmount : K) (preferences : env.Preferences) :
    (generateWithdrawalStrategy env accounts requiredAmount preferences).totalTaxCost
        = ((generateWithdrawalStrategy env accounts requiredAmount preferences).steps.map
            (fun s => s.taxCost)).sum
      ∧ (requiredAmount ≤ 0 →
          (generateWithdrawalStrategy env accounts requiredAmount preferences).steps = [])
      ∧ (generateWithdrawalStrategy env accounts requiredAmount preferences).steps.length
          ≤ (env.sortAccountsByWithdrawalEfficiency accounts).length
      ∧ (∀ k, k < (generateWithdrawalStrategy env accounts requiredAmount
            preferences).steps.length →
          (((generateWithdrawalStrategy env accounts requiredAmount preferences).steps.take
              k).map (fun s => s.amount)).sum < requiredAmount
            ∧ (generateWithdrawalStrategy env accounts requiredAmount preferences).steps[k]?
              = (env.sortAccountsByWithdrawalEfficiency accounts)[k]?.map (fun account =>
                  env.calculateOptimalWithdrawal account
                    (requiredAmount
                      - (((generateWithdrawalStrategy env accounts requiredAmount
                          preferences).steps.take k).map (fun s => s.amount)).sum)
                    preferences))
      ∧ ((generateWithdrawalStrategy env accounts requiredAmount preferences).steps.length
            = (env.sortAccountsByWithdrawalEfficiency accounts).length
          ∨ requiredAmount
            ≤ ((generateWithdrawalStrategy env accounts requiredAmount preferences).steps.map
                (fun s => s.amount)).sum) := by
  obtain ⟨drawn, hsteps, htax, _, hlen, hk, hstop⟩ :=
    withdrawalLoop_spec env preferences (env.sortAccountsByWithdrawalEfficiency accounts)
      { steps := [], totalTaxCost := 0, expectedImpact := none } requiredAmount
  have hs : (generateWithdrawalStrategy env accounts requiredAmount preferences).steps
      = drawn := by
    simp only [generateWithdrawalStrategy]
    rw [hsteps]
    simp
  have ht : (generateWithdrawalStrategy env accounts requiredAmount preferences).totalTaxCost
      = (drawn.map (fun s => s.taxCost)).sum := by
    simp only [generateWithdrawalStrategy]
    rw [htax]
    simp
  rw [hs, ht]
  refine ⟨rfl, ?_, hlen, hk, hstop⟩
  intro hreq
  cases drawn with
  | nil => rfl
  | cons first rest =>
    have h0 := (hk 0 (by simp)).1
    simp only [List.take_zero, List.map_nil, List.sum_nil] at h0
    exact absurd hreq (not_le.mpr h0)

theorem sampleWithdrawalEnv_withdrawal (account : SampleAccount K) (remainingAmount : K) :
    (sampleWithdrawalEnv : WithdrawalEnv K).calculateOptimalWithdrawal account
        remainingAmount ()
      = { amount := min account.balance remainingAmount
          taxCost := account.taxRate * min account.balance remainingAmount
          detail := account.name } :=
  rfl

end

theorem generateWithdrawalStrategy_greedy_witness :
    ((generateWithdrawalStrategy (sampleWithdrawalEnv : WithdrawalEnv ℚ) sampleAccounts 5000
        ()).steps.map (fun s => (s.detail, s.amount, s.taxCost))
        = [("taxable", 3000, 450), ("traditional", 2000, 500)])
      ∧ (generateWithdrawalStrategy (sampleWithdrawalEnv : WithdrawalEnv ℚ) sampleAccounts 5000
          ()).totalTaxCost = 950
      ∧ (generateWithdrawalStrategy (sampleWithdrawalEnv : WithdrawalEnv ℚ) sampleAccounts 0
          ()).steps = [] := by
  have h := generateWithdrawalStrategy_greedy (sampleWithdrawalEnv : WithdrawalEnv ℚ)
    sampleAccounts 5000 ()
  have h0 := generateWithdrawalStrategy_greedy (sampleWithdrawalEnv : WithdrawalEnv ℚ)
    sampleAccounts 0 ()
  have hsteps : (generateWithdrawalStrategy (sampleWithdrawalEnv : WithdrawalEnv ℚ)
      sampleAccounts 5000 ()).steps.map (fun s => (s.detail, s.amount, s.taxCost))
      = [("taxable", 3000, 450), ("traditional", 2000, 500)] := by
    norm_num [generateWithdrawalStrategy, withdrawalLoop, sampleWithdrawalEnv_withdrawal,
      sampleAccounts]
  refine ⟨hsteps, ?_, h0.2.1 (le_refl 0)⟩
  rw [h.1]
  have hcost : (generateWithdrawalStrategy (sampleWithdrawalEnv : WithdrawalEnv ℚ)
      sampleAccounts 5000 ()).steps.map (fun s => s.taxCost) = [450, 500] := by
    have := congrArg (List.map (fun p : String × ℚ × ℚ => p.2.2)) hsteps
    simpa [List.map_map, Function.comp_def] using this
  rw [hcost]
  norm_num

end TaxOptimizer


/-! ## Tax efficiency score and asset-location table -/

namespace UseTaxStrategy

section

variable {K : Type} [LinearOrderedField K]

/-- C24: when the strategy has asset locations and the three component scores are the
numbers `a` (asset location), `h` (harvesting) and `w` (withdrawal),
`calculateTaxEfficiency` returns them with `overall = 0.4 a + 0.3 h + 0.3 w`, which lies
between the smallest and the largest of the three, hence in `[0, 1]` when they are.
For a non-empty list of opportunities `h` is the harvestable loss divided by the total
loss, and for a withdrawal strategy `w` is `1 - taxableAmount / totalAmount`. -/
theorem calculateTaxEfficiency_overall (env : Env K) (strategy : Strategy K)
    (harvesting : Option (Harvesting K)) (assetLocations : AssetLocations K) (a h w : K)
    (hloc : strategy.assetLocations = some assetLocations)
    (ha : calculateAssetLocationEfficiency env assetLocations = some a)
    (hh : calculateHarvestingEfficiency harvesting = some h)
    (hw : calculateWithdrawalEfficiency strategy.withdrawalStrategy = some w) :
    calculateTaxEfficiency env strategy harvesting
        = .ok { assetLocationScore := some a
                harvestingEfficiency := some h
                withdrawalEfficiency := some w
                overall := some (4 / 10 * a + 3 / 10 * h + 3 / 10 * w) }
      ∧ min a (min h w) ≤ 4 / 10 * a + 3 / 10 * h + 3 / 10 * w
      ∧ 4 / 10 * a + 3 / 10 * h + 3 / 10 * w ≤ max a (max h w)
      ∧ (0 ≤ a → a ≤ 1 → 0 ≤ h → h ≤ 1 → 0 ≤ w → w ≤ 1 →
          0 ≤ 4 / 10 * a + 3 / 10 * h + 3 / 10 * w
            ∧ 4 / 10 * a + 3 / 10 * h + 3 / 10 * w ≤ 1)
      ∧ (∀ first rest, harvesting = some { opportunities := some (first :: rest) } →
          ((first :: rest).foldl (fun sum opp => sum + |opp.unrealizedLoss|) 0) ≠ 0
            ∧ h = ((first :: rest).foldl
                  (fun sum opp => sum + (if opp.harvestable then |opp.unrealizedLoss| else 0)) 0)
                / ((first :: rest).foldl (fun sum opp => sum + |opp.unrealizedLoss|) 0))
      ∧ (∀ summary, strategy.withdrawalStrategy = some summary →
          ∃ taxableAmount totalAmount, summary.taxableAmount = some taxableAmount
            ∧ summary.totalAmount = some totalAmount ∧ totalAmount ≠ 0
            ∧ w = 1 - taxableAmount / totalAmount) := by
  have hmin1 : min a (min h w) ≤ a := min_le_left _ _
  have hmin2 : min a (min h w) ≤ h := le_trans (min_le_right _ _) (min_le_left _ _)
  have hmin3 : min a (min h w) ≤ w := le_trans (min_le_right _ _) (min_le_right _ _)
  have hmax1 : a ≤ max a (max h w) := le_max_left _ _
  have hmax2 : h ≤ max a (max h w) := le_trans (le_max_left _ _) (le_max_right _ _)
  have hmax3 : w ≤ max a (max h w) := le_trans (le_max_right _ _) (le_max_right _ _)
  refine ⟨?_, by linarith, by linarith, ?_, ?_, ?_⟩
  · simp only [calculateTaxEfficiency, hloc, ha, hh, hw, weightedOverall]
    congr 3
    ring
  · intro h1 h2 h3 h4 h5 h6
    constructor <;> linarith
  · intro first rest hharv
    subst hharv
    simp only [calculateHarvestingEfficiency, UseMonteCarloSimulation.quotient] at hh
    split at hh
    · exact absurd hh (by simp)
    · rename_i hne
      exact ⟨hne, by simpa using hh.symm⟩
  · intro summary hsummary
    rw [hsummary] at hw
    simp only [calculateWithdrawalEfficiency] at hw
    split at hw
    · rename_i taxableAmount totalWithdrawal htax htot
      simp only [UseMonteCarloSimulation.quotient] at hw
      split at hw
      · exact absurd hw (by simp)
      · rename_i hne
        exact ⟨taxableAmount, totalWithdrawal, htax, htot, hne, by simpa using hw.symm⟩
    · exact absurd hw (by simp)

end

theorem calculateTaxEfficiency_overall_witness :
    calculateTaxEfficiency (sampleRuntime : Env ℚ) sampleStrategy (some sampleHarvesting)
        = .ok { assetLocationScore := some 1
                harvestingEfficiency := some (3 / 4)
                withdrawalEfficiency := some (3 / 5)
                overall := some (4 / 10 * 1 + 3 / 10 * (3 / 4) + 3 / 10 * (3 / 5)) }
      ∧ (4 / 10 * 1 + 3 / 10 * (3 / 4) + 3 / 10 * (3 / 5) : ℚ) = 161 / 200 := by
  have h := calculateTaxEfficiency_overall (sampleRuntime : Env ℚ) sampleStrategy
    (some sampleHarvesting) [("traditional", [("bonds", 4000)]), ("roth", [("stocks", 6000)])]
    1 (3 / 4) (3 / 5) rfl
    (by
      simp +decide [calculateAssetLocationEfficiency, addLocationScore, totalAssets,
        getAssetLocationScore, scores, sampleRuntime, UseMonteCarloSimulation.quotient,
        ownProperty]
      norm_num)
    (by norm_num [calculateHarvestingEfficiency, sampleHarvesting,
      UseMonteCarloSimulation.quotient, abs_of_neg])
    (by norm_num [calculateWithdrawalEfficiency, sampleStrategy,
      UseMonteCarloSimulation.quotient])
  exact ⟨h.1, by norm_num⟩

end UseTaxStrategy


/-! ### The asset-location table -/

namespace UseTaxStrategy

section

variable {K : Type} [LinearOrderedField K]

/-- The table of `getAssetLocationScore` and its fallback for names that the literal does
not inherit: for bonds the traditional account scores `1`, above roth (`0.6`) and taxable (`0.3`); for
stocks roth (`1`) and taxable (`0.7`) score above traditional (`0.5`); for REITs
traditional (`0.9`) scores above roth (`0.7`) and taxable (`0.3`); every score of the
table lies in `[0, 1]`; and the score is `0.5` for an asset class that is neither in the
table nor an inherited name, and for an account type that is neither in the row nor an
inherited name. -/
theorem getAssetLocationScore_table (env : Env K) (asset : String) :
    (env.determineAssetType asset = "bonds" →
        getAssetLocationScore env asset "traditional" = LocationScore.number 1
          ∧ getAssetLocationScore env asset "roth" = LocationScore.number (6 / 10)
          ∧ getAssetLocationScore env asset "taxable" = LocationScore.number (3 / 10))
      ∧ (env.determineAssetType asset = "stocks" →
        getAssetLocationScore env asset "traditional" = LocationScore.number (5 / 10)
          ∧ getAssetLocationScore env asset "roth" = LocationScore.number 1
          ∧ getAssetLocationScore env asset "taxable" = LocationScore.number (7 / 10))
      ∧ (env.determineAssetType asset = "reits" →
        getAssetLocationScore env asset "traditional" = LocationScore.number (9 / 10)
          ∧ getAssetLocationScore env asset "roth" = LocationScore.number (7 / 10)
          ∧ getAssetLocationScore env asset "taxable" = LocationScore.number (3 / 10))
      ∧ ((6 / 10 : K) < 1 ∧ (3 / 10 : K) < 1 ∧ (5 / 10 : K) < 1 ∧ (5 / 10 : K) < 7 / 10
          ∧ (7 / 10 : K) < 9 / 10 ∧ (3 / 10 : K) < 9 / 10)
      ∧ (∀ row ∈ (scores : List (String × List (String × K))), ∀ entry ∈ row.2,
          0 ≤ entry.2 ∧ entry.2 ≤ 1)
      ∧ (∀ accountType, env.determineAssetType asset ∉ ["bonds", "stocks", "reits"] →
          env.inherited [env.determineAssetType asset] = Inherited.nullish →
          getAssetLocationScore env asset accountType = LocationScore.number (5 / 10))
      ∧ (∀ accountType, env.determineAssetType asset ∈ ["bonds", "stocks", "reits"] →
          accountType ∉ ["traditional", "roth", "taxable"] →
          env.inherited [accountType] = Inherited.nullish →
          getAssetLocationScore env asset accountType = LocationScore.number (5 / 10)) := by
  refine ⟨?_, ?_, ?_, by norm_num, ?_, ?_, ?_⟩
  · intro h
    simp +decide [getAssetLocationScore, h, scores, ownProperty]
  · intro h
    simp +decide [getAssetLocationScore, h, scores, ownProperty]
  · intro h
    simp +decide [getAssetLocationScore, h, scores, ownProperty]
  · intro row hrow entry hentry
    simp only [scores, List.mem_cons, List.mem_singleton, List.not_mem_nil, or_false] at hrow
    rcases hrow with h | h | h <;> subst h <;>
      simp only [List.mem_cons, List.mem_singleton, List.not_mem_nil, or_false] at hentry <;>
      rcases hentry with h | h | h <;> subst h <;> norm_num
  · intro accountType hclass hinh
    simp only [List.mem_cons, List.mem_singleton, List.not_mem_nil, or_false, not_or]
      at hclass
    obtain ⟨h1, h2, h3⟩ := hclass
    simp [getAssetLocationScore, scores, ownProperty, Ne.symm h1, Ne.symm h2, Ne.symm h3,
      hinh]
  · intro accountType hclass hacc hinh
    simp only [List.mem_cons, List.mem_singleton, List.not_mem_nil, or_false, not_or]
      at hclass hacc
    obtain ⟨h1, h2, h3⟩ := hacc
    rcases hclass with h | h | h <;>
      simp +decide [getAssetLocationScore, h, scores, ownProperty, Ne.symm h1, Ne.symm h2,
        Ne.symm h3, hinh, orDefaultScore]

end

theorem getAssetLocationScore_table_witness :
    getAssetLocationScore (sampleRuntime : Env ℚ) "bonds" "traditional"
        = LocationScore.number 1
      ∧ getAssetLocationScore (sampleRuntime : Env ℚ) "gold" "roth"
        = LocationScore.number (5 / 10)
      ∧ getAssetLocationScore (sampleRuntime : Env ℚ) "bonds" "hsa"
        = LocationScore.number (5 / 10) := by
  have hbonds := getAssetLocationScore_table (sampleRuntime : Env ℚ) "bonds"
  have hgold := getAssetLocationScore_table (sampleRuntime : Env ℚ) "gold"
  refine ⟨(hbonds.1 rfl).1, ?_, ?_⟩
  · exact hgold.2.2.2.2.2.1 "roth" (by simp +decide [sampleRuntime])
      (by simp +decide [sampleRuntime])
  · exact hbonds.2.2.2.2.2.2 "hsa" (by simp +decide [sampleRuntime]) (by decide)
      (by simp +decide [sampleRuntime])

/-- C27, evaluated on the account type `toString` for an asset of class `bonds`: the
row for bonds has no own property of that name, but every object literal inherits
`toString` from `Object.prototype`, so `scores.bonds?.["toString"]` is that function and
not `undefined`; the fallback `?? 0.5` does not apply and the result is not `0.5`. For
the asset locations `{ toString: { bonds: 1000 } }` the efficiency is then `NaN`. -/
theorem getAssetLocationScore_inherited_account_type :
    "toString" ∉ ["traditional", "roth", "taxable"]
      ∧ getAssetLocationScore (sampleRuntime : Env ℚ) "bonds" "toString"
        = LocationScore.other
      ∧ getAssetLocationScore (sampleRuntime : Env ℚ) "bonds" "toString"
        ≠ LocationScore.number (5 / 10)
      ∧ calculateAssetLocationEfficiency (sampleRuntime : Env ℚ)
          [("toString", [("bonds", 1000)])] = none := by
  have h : getAssetLocationScore (sampleRuntime : Env ℚ) "bonds" "toString"
      = LocationScore.other := by
    simp +decide [getAssetLocationScore, scores, ownProperty, sampleRuntime, orDefaultScore]
  refine ⟨by decide, h, ?_, ?_⟩
  · rw [h]
    exact fun hne => LocationScore.noConfusion hne
  · simp [calculateAssetLocationEfficiency, addLocationScore, totalAssets, h,
      UseMonteCarloSimulation.quotient]

end UseTaxStrategy


/-! ## Diagnostics of the optimiser -/

theorem standardOptimization_sharpeRatio (env : OptimizerEnv)
    (expectedReturns riskMatrix constraints result : JsValue)
    (h : standardOptimization env expectedReturns riskMatrix constraints = .ok result) :
    result.get "sharpeRatio" = .ok JsValue.undefined := by
  simp only [standardOptimization] at h
  obtain ⟨Q, _, h⟩ := (bind_eq_ok _ _ _).mp h
  obtain ⟨c, _, h⟩ := (bind_eq_ok _ _ _).mp h
  obtain ⟨A, _, h⟩ := (bind_eq_ok _ _ _).mp h
  obtain ⟨b, _, h⟩ := (bind_eq_ok _ _ _).mp h
  obtain ⟨solved, _, h⟩ := (bind_eq_ok _ _ _).mp h
  obtain ⟨solution, _, h⟩ := (bind_eq_ok _ _ _).mp h
  obtain ⟨expectedReturn, _, h⟩ := (bind_eq_ok _ _ _).mp h
  obtain ⟨risk, _, h⟩ := (bind_eq_ok _ _ _).mp h
  simp only [pure, Except.pure, Except.ok.injEq] at h
  subst h
  simp +decide [JsValue.get, getProperty]

/-- C26, for every call with resampling disabled that returns: the diagnostics carry
`sharpeRatio: undefined`. The function copies `result.sharpeRatio` from the result of
`standardOptimization`, whose object literal has the keys `weights`, `expectedReturn` and
`risk` only, so no Sharpe ratio reaches the diagnostics. -/
theorem calculateOptimalPortfolio_sharpeRatio_undefined (env : OptimizerEnv)
    (args : OptimizationArgs) (options : OptimizationOptions) (result : JsValue)
    (hoptions : args.options = some options)
    (hresampling : options.useResampling.truthy = false)
    (h : calculateOptimalPortfolio env args = .ok result) :
    ∃ diagnostics, result.get "diagnostics" = .ok diagnostics
      ∧ diagnostics.get "sharpeRatio" = .ok JsValue.undefined := by
  simp only [calculateOptimalPortfolio, hoptions, Option.getD_some] at h
  obtain ⟨returns, _, h⟩ := (bind_eq_ok _ _ _).mp h
  obtain ⟨covariance, _, h⟩ := (bind_eq_ok _ _ _).mp h
  obtain ⟨viewsMatrix, _, h⟩ := (bind_eq_ok _ _ _).mp h
  obtain ⟨blended, _, h⟩ := (bind_eq_ok _ _ _).mp h
  split at h
  all_goals
    obtain ⟨riskMatrix, _, h⟩ := (bind_eq_ok _ _ _).mp h
    obtain ⟨optimizationConstraints, _, h⟩ := (bind_eq_ok _ _ _).mp h
    obtain ⟨solved, hsolved, h⟩ := (bind_eq_ok _ _ _).mp h
    obtain ⟨weights, _, h⟩ := (bind_eq_ok _ _ _).mp h
    obtain ⟨metrics, _, h⟩ := (bind_eq_ok _ _ _).mp h
    obtain ⟨expectedReturn, _, h⟩ := (bind_eq_ok _ _ _).mp h
    obtain ⟨risk, _, h⟩ := (bind_eq_ok _ _ _).mp h
    obtain ⟨sharpeRatio, hsharpe, h⟩ := (bind_eq_ok _ _ _).mp h
    obtain ⟨diversificationScore, _, h⟩ := (bind_eq_ok _ _ _).mp h
    simp only [optimizePortfolio, hresampling] at hsolved
    have hundefined := standardOptimization_sharpeRatio env _ _ _ solved hsolved
    rw [hundefined] at hsharpe
    simp only [Except.ok.injEq] at hsharpe
    simp only [pure, Except.pure, Except.ok.injEq] at h
    subst h
    subst hsharpe
    refine ⟨JsValue.object
      [("expectedReturn", expectedReturn), ("risk", risk),
       ("sharpeRatio", JsValue.undefined),
       ("diversificationScore", diversificationScore)], ?_, ?_⟩
    · simp +decide [JsValue.get, getProperty]
    · simp +decide [JsValue.get, getProperty]

theorem calculateOptimalPortfolio_sharpeRatio_undefined_witness :
    ∃ result diagnostics,
      calculateOptimalPortfolio sampleOptimizerEnv sampleOptimizationArgs = .ok result
        ∧ result.get "diagnostics" = .ok diagnostics
        ∧ diagnostics.get "sharpeRatio" = .ok JsValue.undefined := by
  have hok : ∃ result,
      calculateOptimalPortfolio sampleOptimizerEnv sampleOptimizationArgs = .ok result :=
    ⟨_, rfl⟩
  obtain ⟨result, hresult⟩ := hok
  obtain ⟨diagnostics, hdiagnostics, hsharpe⟩ :=
    calculateOptimalPortfolio_sharpeRatio_undefined sampleOptimizerEnv
      sampleOptimizationArgs { defaultOptions with useResampling := JsValue.boolean false }
      result rfl rfl hresult
  exact ⟨result, diagnostics, hresult, hdiagnostics, hsharpe⟩


/-! ## Range of the return table and overall success rate -/

theorem maxYear_mem {α : Type} (annualData : List (AnnualRecord α)) (hne : annualData ≠ []) :
    ∃ d ∈ annualData, some d.year = maxYear annualData := by
  cases hmax : maxYear annualData with
  | none =>
    simp only [maxYear, List.max?_eq_none_iff, List.map_eq_nil_iff] at hmax
    exact absurd hmax hne
  | some m =>
    have hmem : m ∈ annualData.map (fun d => d.year) :=
      List.max?_mem (fun a b => by
        rcases le_total a b with hab | hab
        · right; exact max_eq_right hab
        · left; exact max_eq_left hab) hmax
    obtain ⟨d, hd, hyear⟩ := List.mem_map.mp hmem
    exact ⟨d, hd, by rw [hyear]⟩

section TableAndSuccessRate

variable {K : Type} [LinearOrderedField K]

/-- C28, for every table that `generateCorrelatedReturns` returns and every simulation
`sim < numSimulations`: the rows `correlatedReturns[sim][month]` exist for
`month < months` only. The month loop also visits `month = months`, where the read gives
`undefined`, and with a non-empty allocation `calculatePortfolioReturn` then reads
`returns[0]` of `undefined` and throws a `TypeError`: the last index of the loop is out
of range. -/
theorem returnsAt_last_month_undefined (math : JsMath K) (env : SimulationEnv K)
    (expectedReturns volatility : List (String × K)) (correlationMatrix : List (List K))
    (months numSimulations : Nat) (random : Nat → K) (fuel pos : Nat)
    (res : List (List (List K)) × Nat) (sim : Nat)
    (h : generateCorrelatedReturns math env expectedReturns volatility correlationMatrix
      months numSimulations random fuel pos = .ok res)
    (hsim : sim < numSimulations) :
    (∀ month, month < months → ∃ returns, returnsAt res.1 sim month = .ok (some returns))
      ∧ returnsAt res.1 sim months = .ok none
      ∧ ∀ (args : SimulationArgs K) (cfg : ResolvedConfig K) (st : TrialState K),
          args.assetAllocation ≠ [] →
          calculatePortfolioReturn none args.assetAllocation = .error JsError.typeError
            ∧ simulateMonth math env args cfg res.1 sim months st
              = .error JsError.typeError := by
  obtain ⟨hlen, hrows⟩ := generateCorrelatedReturns_shape math env expectedReturns volatility
    correlationMatrix months numSimulations random fuel pos res h
  have hlt : sim < res.1.length := by rw [hlen]; exact hsim
  have hrow : res.1[sim]? = some res.1[sim] := List.getElem?_eq_getElem hlt
  have hrowlen : (res.1[sim]).length = months := hrows _ (List.getElem_mem hlt)
  have hlast : returnsAt res.1 sim months = .ok none := by
    simp only [returnsAt, hrow]
    rw [List.getElem?_eq_none (le_of_eq hrowlen)]
  refine ⟨?_, hlast, ?_⟩
  · intro month hmonth
    have hm : month < (res.1[sim]).length := by rw [hrowlen]; exact hmonth
    exact ⟨(res.1[sim])[month], by simp only [returnsAt, hrow, List.getElem?_eq_getElem hm]⟩
  · intro args cfg st halloc
    refine ⟨?_, simulateMonth_typeError math env args cfg res.1 sim months st hlast halloc⟩
    cases hall : args.assetAllocation with
    | nil => exact absurd hall halloc
    | cons entry rest => rfl

theorem calculateSimulationStatistics_successRate (env : SimulationEnv K)
    (monthlyData : List (MonthlyRecord K)) (annualData : List (AnnualRecord K))
    (confidenceIntervals : List K) (hne : annualData ≠ []) :
    (calculateSimulationStatistics env monthlyData annualData
      confidenceIntervals).overall.successRate = some 0 := by
  obtain ⟨d, hd, hyear⟩ := maxYear_mem annualData hne
  have hfinal : annualData.filter (fun d => decide (some d.year = maxYear annualData)) ≠ [] := by
    intro hnil
    have hmem : d ∈ annualData.filter (fun d => decide (some d.year = maxYear annualData)) :=
      List.mem_filter.mpr ⟨hd, by simpa using hyear⟩
    rw [hnil] at hmem
    exact absurd hmem (List.not_mem_nil d)
  simp only [calculateSimulationStatistics, calculateSuccessRate]
  rw [if_neg (by simpa [List.length_eq_zero] using hfinal)]
  simp

theorem simulationLoop_annualData_ne_nil (math : JsMath K) (env : SimulationEnv K)
    (args : SimulationArgs K) (cfg : ResolvedConfig K) (table : List (List (List K)))
    (n : Nat) (data : List (MonthlyRecord K) × List (AnnualRecord K))
    (h : simulationLoop math env args cfg table (n + 1) = .ok data) : data.2 ≠ [] := by
  simp only [simulationLoop] at h
  obtain ⟨previous, _, h⟩ := (bind_eq_ok _ _ _).mp h
  obtain ⟨st, hst, h⟩ := (bind_eq_ok _ _ _).mp h
  simp only [pure, Except.pure, Except.ok.injEq] at h
  subst h
  have hyears := (trialLoop_months math env args cfg table n (args.years * 12 + 1) st hst).2
  intro hnil
  have hpath : st.pathAnnual = [] := (List.append_eq_nil.mp hnil).2
  rw [hpath] at hyears
  have hlength := congrArg List.length hyears
  simp only [List.map_nil, List.length_nil, List.length_range] at hlength
  omega

/-- C29: `calculateSimulationStatistics` calls `calculateSuccessRate` without a target
value, and no value compares as `>=` to `undefined`; so for every non-empty `annualData`
the overall success rate is `0`, and every call of `generateMonteCarloSimulation` with
at least one simulation that returns has `statistics.overall.successRate = 0`, whatever
the simulated values are. -/
theorem generateMonteCarloSimulation_successRate_zero (math : JsMath K)
    (env : SimulationEnv K) (args : SimulationArgs K) (random : Nat → K) (fuel pos : Nat)
    (result : MonteCarloResult K env.Statistic × Nat)
    (hsims : (resolveConfig args.config).numSimulations ≠ 0)
    (h : generateMonteCarloSimulation math env args random fuel pos = .ok result) :
    result.1.statistics.overall.successRate = some 0
      ∧ ∀ (monthlyData : List (MonthlyRecord K)) (annualData : List (AnnualRecord K))
          (confidenceIntervals : List K), annualData ≠ [] →
          (calculateSimulationStatistics env monthlyData annualData
            confidenceIntervals).overall.successRate = some 0 := by
  refine ⟨?_, fun monthlyData annualData confidenceIntervals hne =>
    calculateSimulationStatistics_successRate env monthlyData annualData confidenceIntervals
      hne⟩
  simp only [generateMonteCarloSimulation] at h
  obtain ⟨table, _, h⟩ := (bind_eq_ok _ _ _).mp h
  obtain ⟨data, hdata, h⟩ := (bind_eq_ok _ _ _).mp h
  simp only [pure, Except.pure, Except.ok.injEq] at h
  subst h
  obtain ⟨n, hn⟩ := Nat.exists_eq_succ_of_ne_zero hsims
  rw [hn] at hdata
  exact calculateSimulationStatistics_successRate env data.1 data.2 _
    (simulationLoop_annualData_ne_nil math env args _ table.1 n data hdata)

end TableAndSuccessRate

theorem returnsAt_last_month_undefined_witness :
    generateCorrelatedReturns realMath sampleEnv [("stocks", 0)] [("stocks", 1)] [[1]] 1 1
        (fun _ => 1 / 4) 1 0 = .ok ([[[0]]], 2)
      ∧ returnsAt ([[[0]]] : List (List (List ℝ))) 0 0 = .ok (some [0])
      ∧ returnsAt ([[[0]]] : List (List (List ℝ))) 0 1 = .ok none
      ∧ simulateMonth realMath sampleEnv (sampleArgs : SimulationArgs ℝ)
          (resolveConfig sampleArgs.config) [[[0]]] 0 1 (initialTrialState 100000)
        = .error JsError.typeError := by
  have hcos4 : Real.cos (2 * Real.pi * 4⁻¹) = 0 := by
    rw [show (2 : ℝ) * Real.pi * 4⁻¹ = Real.pi / 2 by ring]
    exact Real.cos_pi_div_two
  have htable : generateCorrelatedReturns realMath sampleEnv [("stocks", 0)] [("stocks", 1)]
      [[1]] 1 1 (fun _ => 1 / 4) 1 0 = .ok ([[[(0 : ℝ)]]], 2) := by
    simp [generateCorrelatedReturns, generateSimulations, generateMonths, drawReturns,
      generateRandomNormal, drawNonZero, mmulColumn, annualToMonthlyReturn,
      annualToMonthlyVolatility, realMath, sampleEnv, bind, Except.bind, pure, Except.pure,
      hcos4]
  have h := returnsAt_last_month_undefined realMath sampleEnv [("stocks", 0)]
    [("stocks", 1)] [[1]] 1 1 (fun _ => 1 / 4) 1 0 ([[[0]]], 2) 0 htable (by decide)
  refine ⟨htable, by simp [returnsAt], h.2.1, ?_⟩
  exact (h.2.2 sampleArgs (resolveConfig sampleArgs.config) (initialTrialState 100000)
    (by simp [sampleArgs])).2

theorem generateMonteCarloSimulation_successRate_zero_witness :
    ∃ result, generateMonteCarloSimulation realMath sampleEnv
          (emptyAllocationArgs : SimulationArgs ℝ) (fun _ => 1 / 2) 1 0 = .ok result
      ∧ result.1.monthlyData.length = 13
      ∧ result.1.statistics.overall.successRate = some 0 := by
  have hmap : (generateMonteCarloSimulation realMath sampleEnv
      (emptyAllocationArgs : SimulationArgs ℝ) (fun _ => 1 / 2) 1 0).map
        (fun res => res.1.monthlyData.length) = .ok 13 := by
    simp [generateMonteCarloSimulation, generateCorrelatedReturns, generateSimulations,
      generateMonths, drawReturns, generateRandomNormal, drawNonZero, mmulColumn,
      simulationLoop, simulateTrial, trialLoop, simulateMonth, returnsAt,
      calculatePortfolioReturn, weightedSum, emptyAllocationArgs, sampleArgs, sampleEnv,
      resolveConfig, emptyConfig, bind, Except.bind, pure, Except.pure, Except.map,
      initialTrialState]
  cases hgen : generateMonteCarloSimulation realMath sampleEnv
      (emptyAllocationArgs : SimulationArgs ℝ) (fun _ => 1 / 2) 1 0 with
  | error e =>
    rw [hgen] at hmap
    simp [Except.map] at hmap
  | ok result =>
    rw [hgen] at hmap
    simp only [Except.map, Except.ok.injEq] at hmap
    exact ⟨result, rfl, hmap,
      (generateMonteCarloSimulation_successRate_zero realMath sampleEnv emptyAllocationArgs
        (fun _ => 1 / 2) 1 0 result
        (by simp [emptyAllocationArgs, sampleArgs, resolveConfig, emptyConfig]) hgen).1⟩


/-! ## Order of the simulations in the statistics of the hook -/

theorem insertionSort_eq_of_perm {α : Type} [LinearOrder α] {l1 l2 : List α}
    (h : l1.Perm l2) :
    l1.insertionSort (fun a b => a ≤ b) = l2.insertionSort (fun a b => a ≤ b) :=
  List.eq_of_perm_of_sorted
    (((List.perm_insertionSort _ l1).trans h).trans (List.perm_insertionSort _ l2).symm)
    (List.sorted_insertionSort _ l1) (List.sorted_insertionSort _ l2)

namespace UseMonteCarloSimulation

section

variable {K : Type} [LinearOrderedField K]

theorem finalValues_perm (sims sims' : List (List K)) (h : sims.Perm sims') :
    (finalValues sims = .error JsError.notANumber
        ∧ finalValues sims' = .error JsError.notANumber)
      ∨ ∃ fv fv', finalValues sims = .ok fv ∧ finalValues sims' = .ok fv' ∧ fv.Perm fv' := by
  have hany : sims.any (fun values => values.isEmpty)
      = sims'.any (fun values => values.isEmpty) := by
    rw [Bool.eq_iff_iff]
    simp only [List.any_eq_true]
    exact ⟨fun ⟨x, hx, hp⟩ => ⟨x, h.mem_iff.mp hx, hp⟩,
      fun ⟨x, hx, hp⟩ => ⟨x, h.mem_iff.mpr hx, hp⟩⟩
  by_cases hempty : sims.any (fun values => values.isEmpty) = true
  · left
    exact ⟨by simp only [finalValues, hempty, if_true],
      by simp only [finalValues, ← hany, hempty, if_true]⟩
  · right
    refine ⟨_, _, by simp only [finalValues, hempty]; rfl,
      by simp only [finalValues, ← hany, hempty]; rfl, h.map _⟩

theorem spreadMax_perm (l1 l2 : List K) (h : l1.Perm l2) : spreadMax l1 = spreadMax l2 := by
  apply h.foldl_eq'
  intro x _ y _ z
  cases z with
  | none => simp [max_comm]
  | some a => simp [max_assoc, max_comm x y]

theorem spreadMin_perm (l1 l2 : List K) (h : l1.Perm l2) : spreadMin l1 = spreadMin l2 := by
  apply h.foldl_eq'
  intro x _ y _ z
  cases z with
  | none => simp [min_comm]
  | some a => simp [min_assoc, min_comm x y]

theorem foldl_add_perm (f : K → K) (l1 l2 : List K) (h : l1.Perm l2) (init : K) :
    l1.foldl (fun sum value => sum + f value) init
      = l2.foldl (fun sum value => sum + f value) init := by
  apply h.foldl_eq'
  intro x _ y _ z
  ring

theorem calculateVolatility_perm (math : JsMath K) (l1 l2 : List K) (h : l1.Perm l2) :
    calculateVolatility math l1 = calculateVolatility math l2 := by
  have hsum := foldl_add_perm (fun v => v) l1 l2 h 0
  simp only [calculateVolatility, hsum, h.length_eq]
  cases quotient (l2.foldl (fun sum value => sum + value) 0) (l2.length : K) with
  | none => rfl
  | some mean =>
    have hsq := foldl_add_perm (fun v => v) _ _
      (h.map (fun value => math.pow (value - mean) 2)) 0
    simp only [hsq]

theorem maxDrawdown_perm (sims sims' : List (List K)) (h : sims.Perm sims') :
    maxDrawdown sims = maxDrawdown sims' := by
  apply h.foldl_eq'
  intro x _ y _ z
  cases z with
  | none => simp [mathMax]
  | some a =>
    cases maxDrawdownForSim x with
    | none => cases maxDrawdownForSim y <;> simp [mathMax]
    | some b =>
      cases maxDrawdownForSim y with
      | none => simp [mathMax]
      | some c => simp [mathMax, max_assoc, max_comm b c]

/-- C25: a permutation of the simulations leaves `successRate`, `medianOutcome`,
`worstCase`, `bestCase`, `valueAtRisk`, `maxDrawdown` and `volatility` unchanged, but not
`sharpeRatio` and `sortinoRatio`: these are computed from the relative change between
the terminal values of consecutive simulations, so they depend on the order of the
simulations. For the terminal values 100 and 200 the Sharpe ratio is `0.96` and the
Sortino ratio is `NaN`; for 200 and 100 they are `-1.08` and `-0.54`. -/
theorem calculateRiskMetrics_order (math : JsMath K) (config : StatisticsConfig K)
    (sims sims' : List (List K)) (h : sims.Perm sims') :
    calculateSuccessRate config sims = calculateSuccessRate config sims'
      ∧ calculateMedianOutcome sims = calculateMedianOutcome sims'
      ∧ calculateWorstCase sims = calculateWorstCase sims'
      ∧ calculateBestCase sims = calculateBestCase sims'
      ∧ (calculateRiskMetrics math config sims).map
          (fun m => (m.valueAtRisk, m.maxDrawdown, m.volatility))
        = (calculateRiskMetrics math config sims').map
          (fun m => (m.valueAtRisk, m.maxDrawdown, m.volatility))
      ∧ (calculateRiskMetrics realMath defaultStatisticsConfig [[100], [200]]).map
          (fun m => (m.sharpeRatio, m.sortinoRatio)) = .ok (some (24 / 25), none)
      ∧ (calculateRiskMetrics realMath defaultStatisticsConfig [[200], [100]]).map
          (fun m => (m.sharpeRatio, m.sortinoRatio))
        = .ok (some (-(27 / 25)), some (-(27 / 50))) := by
  refine ⟨?_, ?_, ?_, ?_, ?_, ?_, ?_⟩
  · simp only [calculateSuccessRate, (h.filter _).length_eq, h.length_eq]
  · rcases finalValues_perm sims sims' h with ⟨h1, h2⟩ | ⟨fv, fv', h1, h2, hp⟩
    · simp only [calculateMedianOutcome, h1, h2, bind, Except.bind]
    · simp only [calculateMedianOutcome, h1, h2, bind, Except.bind, sortAscending,
        insertionSort_eq_of_perm hp]
  · rcases finalValues_perm sims sims' h with ⟨h1, h2⟩ | ⟨fv, fv', h1, h2, hp⟩
    · simp only [calculateWorstCase, h1, h2, bind, Except.bind]
    · simp only [calculateWorstCase, h1, h2, bind, Except.bind, spreadMin_perm fv fv' hp]
  · rcases finalValues_perm sims sims' h with ⟨h1, h2⟩ | ⟨fv, fv', h1, h2, hp⟩
    · simp only [calculateBestCase, h1, h2, bind, Except.bind]
    · simp only [calculateBestCase, h1, h2, bind, Except.bind, spreadMax_perm fv fv' hp]
  · rcases finalValues_perm sims sims' h with ⟨h1, h2⟩ | ⟨fv, fv', h1, h2, hp⟩
    · simp only [calculateRiskMetrics, h1, h2, bind, Except.bind, Except.map]
    · simp only [calculateRiskMetrics, h1, h2, bind, Except.bind, Except.map, pure,
        Except.pure, sortAscending, insertionSort_eq_of_perm hp, maxDrawdown_perm sims sims' h,
        calculateVolatility_perm math fv fv' hp]
  · have hsqrt : Real.sqrt (4 : ℝ) = 2 := by
      rw [show (4 : ℝ) = 2 ^ 2 by norm_num]
      exact Real.sqrt_sq (by norm_num)
    norm_num [calculateRiskMetrics, finalValues, calculateSharpeRatio, calculateSortinoRatio,
      periodReturns, returnsAfter, calculateVolatility, quotient, riskFreeRateOf,
      defaultStatisticsConfig, realMath, bind, Except.bind, pure, Except.pure, Except.map,
      hsqrt]
  · have hsqrt4 : Real.sqrt (4 : ℝ) = 2 := by
      rw [show (4 : ℝ) = 2 ^ 2 by norm_num]
      exact Real.sqrt_sq (by norm_num)
    have hsqrt16 : Real.sqrt (16 : ℝ) = 4 := by
      rw [show (16 : ℝ) = 4 ^ 2 by norm_num]
      exact Real.sqrt_sq (by norm_num)
    norm_num [calculateRiskMetrics, finalValues, calculateSharpeRatio, calculateSortinoRatio,
      periodReturns, returnsAfter, calculateVolatility, quotient, riskFreeRateOf,
      defaultStatisticsConfig, realMath, bind, Except.bind, pure, Except.pure, Except.map,
      hsqrt4, hsqrt16]

end

theorem calculateRiskMetrics_order_witness :
    ([[100, 120], [90, 80]] : List (List ℝ)).Perm [[90, 80], [100, 120]]
      ∧ calculateSuccessRate (defaultStatisticsConfig : StatisticsConfig ℝ)
          [[100, 120], [90, 80]]
        = calculateSuccessRate defaultStatisticsConfig [[90, 80], [100, 120]]
      ∧ calculateMedianOutcome ([[100, 120], [90, 80]] : List (List ℝ))
        = calculateMedianOutcome [[90, 80], [100, 120]]
      ∧ (calculateRiskMetrics realMath defaultStatisticsConfig [[100, 120], [90, 80]]).map
          (fun m => (m.valueAtRisk, m.maxDrawdown, m.volatility))
        = (calculateRiskMetrics realMath defaultStatisticsConfig [[90, 80], [100, 120]]).map
          (fun m => (m.valueAtRisk, m.maxDrawdown, m.volatility)) :=
  ⟨List.Perm.swap _ _ _,
    (calculateRiskMetrics_order realMath defaultStatisticsConfig [[100, 120], [90, 80]]
      [[90, 80], [100, 120]] (List.Perm.swap _ _ _)).1,
    (calculateRiskMetrics_order realMath defaultStatisticsConfig [[100, 120], [90, 80]]
      [[90, 80], [100, 120]] (List.Perm.swap _ _ _)).2.1,
    (calculateRiskMetrics_order realMath defaultStatisticsConfig [[100, 120], [90, 80]]
      [[90, 80], [100, 120]] (List.Perm.swap _ _ _)).2.2.2.2.1⟩

end UseMonteCarloSimulation


/-! ## Order statistics of the hook -/

theorem countP_of_sorted_append {α : Type} [LinearOrder α] (A B : List α) (a : α)
    (hs : (A ++ a :: B).Sorted (fun x y => x ≤ y)) :
    A.length + 1 ≤ (A ++ a :: B).countP (fun x => decide (x ≤ a))
      ∧ B.length + 1 ≤ (A ++ a :: B).countP (fun x => decide (a ≤ x))
      ∧ (A ++ a :: B).countP (fun x => decide (x < a)) ≤ A.length := by
  have hp := List.pairwise_append.mp hs
  have hA : ∀ x ∈ A, x ≤ a := fun x hx => hp.2.2 x hx a (List.mem_cons_self a B)
  have hB : ∀ y ∈ B, a ≤ y := fun y hy => List.rel_of_pairwise_cons hp.2.1 hy
  refine ⟨?_, ?_, ?_⟩
  · have h1 : A.countP (fun x => decide (x ≤ a)) = A.length :=
      List.countP_eq_length.mpr (fun x hx => by simpa using hA x hx)
    simp only [List.countP_append, List.countP_cons, h1]
    simp
  · have h2 : B.countP (fun x => decide (a ≤ x)) = B.length :=
      List.countP_eq_length.mpr (fun y hy => by simpa using hB y hy)
    simp only [List.countP_append, List.countP_cons, h2]
    simp
  · have h3 : B.countP (fun x => decide (x < a)) = 0 :=
      List.countP_eq_zero.mpr (fun y hy => by simpa using hB y hy)
    have h4 : A.countP (fun x => decide (x < a)) ≤ A.length := List.countP_le_length _
    simp only [List.countP_append, List.countP_cons, h3]
    simpa using h4

theorem countP_of_sorted_getElem {α : Type} [LinearOrder α] (s : List α)
    (hs : s.Sorted (fun x y => x ≤ y)) (i : Nat) (hi : i < s.length) :
    i + 1 ≤ s.countP (fun x => decide (x ≤ s[i]))
      ∧ s.length - i ≤ s.countP (fun x => decide (s[i] ≤ x))
      ∧ s.countP (fun x => decide (x < s[i])) ≤ i := by
  have hsplit : s = s.take i ++ s[i] :: s.drop (i + 1) := by
    rw [← List.drop_eq_getElem_cons hi, List.take_append_drop]
  have h := countP_of_sorted_append (s.take i) (s.drop (i + 1)) s[i] (by rw [← hsplit]; exact hs)
  rw [← hsplit] at h
  have hlen1 : (s.take i).length = i := by
    rw [List.length_take]; omega
  have hlen2 : (s.drop (i + 1)).length = s.length - (i + 1) := List.length_drop _ _
  rw [hlen1, hlen2] at h
  exact ⟨h.1, by omega, h.2.2⟩

namespace UseMonteCarloSimulation

section

variable {K : Type} [LinearOrderedField K]

theorem foldl_min_spec (l : List K) (a : K) :
    ∃ m, l.foldl (fun acc value =>
        match acc with
        | none => some value
        | some b => some (min b value)) (some a) = some m
      ∧ (m = a ∨ m ∈ l) ∧ m ≤ a ∧ ∀ x ∈ l, m ≤ x := by
  induction l generalizing a with
  | nil => exact ⟨a, rfl, Or.inl rfl, le_refl a, fun x hx => absurd hx (List.not_mem_nil x)⟩
  | cons y rest ih =>
    obtain ⟨m, hm, hmem, hle, hall⟩ := ih (min a y)
    refine ⟨m, by simpa [List.foldl] using hm, ?_, le_trans hle (min_le_left a y), ?_⟩
    · rcases hmem with h | h
      · rcases min_choice a y with h' | h'
        · left; rw [h, h']
        · right; rw [h, h']; exact List.mem_cons_self y rest
      · right; exact List.mem_cons_of_mem y h
    · intro x hx
      rcases List.mem_cons.mp hx with h | h
      · rw [h]; exact le_trans hle (min_le_right a y)
      · exact hall x h

theorem foldl_max_spec (l : List K) (a : K) :
    ∃ m, l.foldl (fun acc value =>
        match acc with
        | none => some value
        | some b => some (max b value)) (some a) = some m
      ∧ (m = a ∨ m ∈ l) ∧ a ≤ m ∧ ∀ x ∈ l, x ≤ m := by
  induction l generalizing a with
  | nil => exact ⟨a, rfl, Or.inl rfl, le_refl a, fun x hx => absurd hx (List.not_mem_nil x)⟩
  | cons y rest ih =>
    obtain ⟨m, hm, hmem, hle, hall⟩ := ih (max a y)
    refine ⟨m, by simpa [List.foldl] using hm, ?_, le_trans (le_max_left a y) hle, ?_⟩
    · rcases hmem with h | h
      · rcases max_choice a y with h' | h'
        · left; rw [h, h']
        · right; rw [h, h']; exact List.mem_cons_self y rest
      · right; exact List.mem_cons_of_mem y h
    · intro x hx
      rcases List.mem_cons.mp hx with h | h
      · rw [h]; exact le_trans (le_max_right a y) hle
      · exact hall x h

theorem spreadMin_spec (l : List K) (hne : l ≠ []) :
    ∃ m, spreadMin l = some m ∧ m ∈ l ∧ ∀ x ∈ l, m ≤ x := by
  cases l with
  | nil => exact absurd rfl hne
  | cons a rest =>
    obtain ⟨m, hm, hmem, hle, hall⟩ := foldl_min_spec rest a
    refine ⟨m, by simpa [spreadMin, List.foldl] using hm, ?_, ?_⟩
    · rcases hmem with h | h
      · rw [h]; exact List.mem_cons_self a rest
      · exact List.mem_cons_of_mem a h
    · intro x hx
      rcases List.mem_cons.mp hx with h | h
      · rw [h]; exact hle
      · exact hall x h

theorem spreadMax_spec (l : List K) (hne : l ≠ []) :
    ∃ m, spreadMax l = some m ∧ m ∈ l ∧ ∀ x ∈ l, x ≤ m := by
  cases l with
  | nil => exact absurd rfl hne
  | cons a rest =>
    obtain ⟨m, hm, hmem, hle, hall⟩ := foldl_max_spec rest a
    refine ⟨m, by simpa [spreadMax, List.foldl] using hm, ?_, ?_⟩
    · rcases hmem with h | h
      · rw [h]; exact List.mem_cons_self a rest
      · exact List.mem_cons_of_mem a h
    · intro x hx
      rcases List.mem_cons.mp hx with h | h
      · rw [h]; exact hle
      · exact hall x h

theorem finalValues_spec (sims : List (List K)) (hvals : ∀ values ∈ sims, values ≠ []) :
    finalValues sims = .ok (sims.map (fun values => values.getLastD 0))
      ∧ ∀ x ∈ sims.map (fun values => values.getLastD 0),
          ∃ values ∈ sims, values.getLast? = some x := by
  constructor
  · have hany : sims.any (fun values => values.isEmpty) = false := by
      rw [Bool.eq_false_iff]
      intro h
      obtain ⟨values, hmem, hempty⟩ := List.any_eq_true.mp h
      exact hvals values hmem (List.isEmpty_iff.mp hempty)
    simp only [finalValues, hany]
    rfl
  · intro x hx
    obtain ⟨values, hmem, hlast⟩ := List.mem_map.mp hx
    refine ⟨values, hmem, ?_⟩
    cases values with
    | nil => exact absurd rfl (hvals [] hmem)
    | cons first rest =>
      rw [← hlast, List.getLast?_eq_getLast _ (List.cons_ne_nil first rest)]
      simp [List.getLastD_eq_getLast?, List.getLast?_eq_getLast _ (List.cons_ne_nil first rest)]

/-- C30: for a non-empty set of simulations that each have a value, the hook reports
`worstCase ≤ valueAtRisk ≤ medianOutcome ≤ bestCase`; each of the four is the terminal
value of a simulation; at least half of the terminal values are `≤ medianOutcome` and
at least half are `≥ medianOutcome`; and at most 5% of the terminal values are strictly
below `valueAtRisk`. -/
theorem order_statistics_consistent (math : JsMath K) (config : StatisticsConfig K)
    (sims : List (List K)) (hne : sims ≠ []) (hvals : ∀ values ∈ sims, values ≠ []) :
    ∃ (worst valueAtRisk median best : K) (terminal : List K),
      finalValues sims = .ok terminal
        ∧ terminal.length = sims.length
        ∧ calculateWorstCase sims = .ok (some worst)
        ∧ (calculateRiskMetrics math config sims).map (fun m => m.valueAtRisk)
            = .ok (some valueAtRisk)
        ∧ calculateMedianOutcome sims = .ok (some median)
        ∧ calculateBestCase sims = .ok (some best)
        ∧ worst ≤ valueAtRisk ∧ valueAtRisk ≤ median ∧ median ≤ best
        ∧ (∀ x ∈ [worst, valueAtRisk, median, best],
            ∃ values ∈ sims, values.getLast? = some x)
        ∧ sims.length ≤ 2 * terminal.countP (fun x => decide (x ≤ median))
        ∧ sims.length ≤ 2 * terminal.countP (fun x => decide (median ≤ x))
        ∧ 20 * terminal.countP (fun x => decide (x < valueAtRisk)) ≤ sims.length := by
  obtain ⟨hfinal, hterminal⟩ := finalValues_spec sims hvals
  generalize hfv : sims.map (fun values => values.getLastD 0) = fv at hfinal hterminal
  have hlen : fv.length = sims.length := by rw [← hfv, List.length_map]
  have hpos : 0 < fv.length := by
    rw [hlen]; exact List.length_pos.mpr hne
  have hfvne : fv ≠ [] := List.length_pos.mp hpos
  have hsorted : (sortAscending fv).Sorted (fun a b => a ≤ b) :=
    List.sorted_insertionSort _ fv
  have hperm : (sortAscending fv).Perm fv := List.perm_insertionSort _ fv
  have hslen : (sortAscending fv).length = fv.length := hperm.length_eq
  have hv : fv.length / 20 < (sortAscending fv).length := by
    rw [hslen]; exact Nat.div_lt_self hpos (by norm_num)
  have hm : fv.length / 2 < (sortAscending fv).length := by
    rw [hslen]; exact Nat.div_lt_self hpos (by norm_num)
  obtain ⟨worst, hworst, hworstmem, hworstle⟩ := spreadMin_spec fv hfvne
  obtain ⟨best, hbest, hbestmem, hbestle⟩ := spreadMax_spec fv hfvne
  have hvmem : (sortAscending fv)[fv.length / 20] ∈ fv :=
    hperm.mem_iff.mp (List.getElem_mem hv)
  have hmmem : (sortAscending fv)[fv.length / 2] ∈ fv :=
    hperm.mem_iff.mp (List.getElem_mem hm)
  have hcv := countP_of_sorted_getElem (sortAscending fv) hsorted (fv.length / 20) hv
  have hcm := countP_of_sorted_getElem (sortAscending fv) hsorted (fv.length / 2) hm
  rw [hperm.countP_eq, hperm.countP_eq, hperm.countP_eq, hslen] at hcv hcm
  refine ⟨worst, (sortAscending fv)[fv.length / 20], (sortAscending fv)[fv.length / 2], best,
    fv, hfinal, hlen, ?_, ?_, ?_, ?_, hworstle _ hvmem, ?_, hbestle _ hmmem, ?_, ?_, ?_, ?_⟩
  · simp only [calculateWorstCase, hfinal, bind, Except.bind, pure, Except.pure, hworst]
  · simp only [calculateRiskMetrics, hfinal, bind, Except.bind, pure, Except.pure,
      Except.map, hslen, List.getElem?_eq_getElem hv]
  · simp only [calculateMedianOutcome, hfinal, bind, Except.bind, pure, Except.pure, hslen,
      List.getElem?_eq_getElem hm]
  · simp only [calculateBestCase, hfinal, bind, Except.bind, pure, Except.pure, hbest]
  · have hle : fv.length / 20 ≤ fv.length / 2 := by omega
    have h := hsorted.rel_get_of_le (a := ⟨fv.length / 20, hv⟩) (b := ⟨fv.length / 2, hm⟩) hle
    simpa using h
  · intro x hx
    simp only [List.mem_cons, List.mem_singleton, List.not_mem_nil, or_false] at hx
    rcases hx with h | h | h | h <;> rw [h]
    · exact hterminal _ hworstmem
    · exact hterminal _ hvmem
    · exact hterminal _ hmmem
    · exact hterminal _ hbestmem
  · have := hcm.1
    omega
  · have := hcm.2.1
    omega
  · have := hcv.2.2
    omega

end

theorem order_statistics_consistent_witness :
    (∃ (worst valueAtRisk median best : ℝ),
      calculateWorstCase ([[100, 120], [90, 80], [100, 150]] : List (List ℝ))
            = .ok (some worst)
        ∧ (calculateRiskMetrics realMath defaultStatisticsConfig
              [[100, 120], [90, 80], [100, 150]]).map (fun m => m.valueAtRisk)
            = .ok (some valueAtRisk)
        ∧ calculateMedianOutcome ([[100, 120], [90, 80], [100, 150]] : List (List ℝ))
            = .ok (some median)
        ∧ calculateBestCase ([[100, 120], [90, 80], [100, 150]] : List (List ℝ))
            = .ok (some best)
        ∧ worst ≤ valueAtRisk ∧ valueAtRisk ≤ median ∧ median ≤ best)
      ∧ calculateWorstCase ([[100, 120], [90, 80], [100, 150]] : List (List ℝ))
          = .ok (some 80)
      ∧ calculateMedianOutcome ([[100, 120], [90, 80], [100, 150]] : List (List ℝ))
          = .ok (some 120)
      ∧ calculateBestCase ([[100, 120], [90, 80], [100, 150]] : List (List ℝ))
          = .ok (some 150) := by
  obtain ⟨worst, valueAtRisk, median, best, terminal, _, _, h3, h4, h5, h6, h7, h8, h9, _⟩ :=
    order_statistics_consistent realMath defaultStatisticsConfig
      ([[100, 120], [90, 80], [100, 150]] : List (List ℝ)) (by simp) (by simp)
  refine ⟨⟨worst, valueAtRisk, median, best, h3, h4, h5, h6, h7, h8, h9⟩, ?_, ?_, ?_⟩
  · norm_num [calculateWorstCase, finalValues, spreadMin, bind, Except.bind, pure,
      Except.pure]
  · norm_num [calculateMedianOutcome, finalValues, sortAscending, List.insertionSort,
      List.orderedInsert, bind, Except.bind, pure, Except.pure]
  · norm_num [calculateBestCase, finalValues, spreadMax, bind, Except.bind, pure,
      Except.pure]

end UseMonteCarloSimulation


end FinancialPlanning
